import Mathlib

/-!
# Chat backend: relationship graph, chat membership and private-chat resolution

A shallow embedding of the Go server under `server/pkg`:

* `repository/models`  : the record types `User`, `Chat`, `ChatUsers`, `Message`, `Status`;
* `repository/*_mysql.go` : every SQL statement is given its relational meaning over a
  `Store` whose tables are lists of rows (a join is a nested loop, the `FROM` table outermost);
* `service/chat.go`    : `ChatService.GetPrivates`, with the Go map made explicit;
* `handler/chat/chat.go` : the handlers `PrivateChat`, `DeleteUserFromChat`, `DeleteChat`,
  `CreatePublicChat`, `GetById`, `GetUserPrivateChats`, `AddUserToChat`;
* `repository/status_mysql.go` : the statements and methods of `StatusRepository`;
* `handler/users/users.go` : the relationship handlers of `UsersHandler`;
* `repository/message_mysql.go`, `handler/message/message.go` : `GetLimit` and
  `GetLimitMessages`;
* `repository/auth_mysql.go`, `service/auth.go` : `UpdateUser`, `GetUser`,
  `CreatePasswordHash` (the SHA-1 digest and the salt are parameters), `UpdatePassword`.

The repository is written against `github.com/jinzhu/gorm`: scanning into a single record
reports `record not found` when the statement returns no row, scanning into a slice
replaces its contents, a created record gets the generated id when its id is blank, and
`Updates` with a record sets the columns of its non-blank fields in the rows selected by
the conditions of the call.

Go's `int` is modelled by `Int`.  A store call can fail for reasons outside the program
(connection lost, ...): a `World` pairs the store with the outcome schedule of the upcoming
store calls, and every statement consumes one entry of it.  The empty schedule is the
run in which every store call succeeds.
-/

namespace ChatProject

/-! ## Records (`repository/models`) -/

structure User where
  Id : Int
  Username : String
  Password : String
  Icon : String
  deriving DecidableEq, Repr

structure Chat where
  Id : Int
  Name : String
  Types : String
  Icon : String
  deriving DecidableEq, Repr

structure ChatUsers where
  Id : Int
  ChatId : Int
  UserId : Int
  deriving DecidableEq, Repr

structure Message where
  Id : Int
  ChatId : Int
  Author : Int
  Text : String
  SentAt : Int
  deriving DecidableEq, Repr

structure Status where
  Id : Int
  SenderId : Int
  RecipientId : Int
  Relationship : String
  deriving DecidableEq, Repr

/-! ## Constants (`repository/mySQL.go`) -/

def StatusFriends : String := "friends"
def StatusBL : String := "black_list"
def StatusInvitation : String := "invitation"
def ChatPrivate : String := "private"
def ChatPublic : String := "public"

/-! ## The record store -/

/-- The five tables, each a list of rows in storage order, and the AUTO_INCREMENT counter
of each table. -/
structure Store where
  users : List User
  chats : List Chat
  chatUsers : List ChatUsers
  messages : List Message
  statuses : List Status
  nextUserId : Int
  nextChatId : Int
  nextChatUsersId : Int
  nextMessageId : Int
  nextStatusId : Int
  deriving DecidableEq, Repr

abbrev Err := String

/-- The error of a store call that fails for an external reason. -/
def dbError : Err := "db error"

/-- The error gorm reports when a single-record query finds no row. -/
def recordNotFound : Err := "record not found"

/-- The store together with the outcomes of the upcoming store calls
(`true`: the call fails).  Past the end of the schedule every call succeeds. -/
structure World where
  store : Store
  faults : List Bool
  deriving DecidableEq, Repr

/-- Consume the outcome of the next store call. -/
def World.step (w : World) : Bool × World :=
  match w.faults with
  | [] => (false, w)
  | b :: rest => (b, { w with faults := rest })

/-- A reading statement: fails as scheduled, otherwise evaluates `f` on the store. -/
def World.query {α : Type} (w : World) (f : Store → Except Err α) : Except Err α × World :=
  match w.step with
  | (true, w1) => (.error dbError, w1)
  | (false, w1) => (f w1.store, w1)

/-- A writing statement: fails as scheduled (the store is then untouched),
otherwise replaces the store by `f store`. -/
def World.exec (w : World) (f : Store → Store) : Option Err × World :=
  match w.step with
  | (true, w1) => (some dbError, w1)
  | (false, w1) => (none, { w1 with store := f w1.store })

/-- The run in which no store call fails. -/
def World.ok (s : Store) : World := { store := s, faults := [] }

/-! ## SQL statements of `repository/chat_mysql.go` -/

/-- The columns `id, username, icon` of a user row scanned into a `models.User`
(the password column is not selected and stays empty). -/
def User.public (u : User) : User :=
  { Id := u.Id, Username := u.Username, Password := "", Icon := u.Icon }

/-- `SELECT u.id, u.username, u.icon FROM users u INNER JOIN chat_users chl
ON u.id = chl.user_id WHERE chl.chat_id = ?` -/
def sqlChatUsers (s : Store) (chatId : Int) : List User :=
  s.users.flatMap fun u =>
    (s.chatUsers.filter fun chl => u.Id = chl.UserId ∧ chl.ChatId = chatId).map fun _ => u.public

/-- `SELECT chl.id FROM chats chl INNER JOIN chat_users chul ON chl.id = chul.chat_id
WHERE chul.user_id = ? and chl.types = ?`, scanned into `[]models.Chat`
(only the id column is filled). -/
def sqlPrivateIds (s : Store) (userId : Int) (types : String) : List Chat :=
  s.chats.flatMap fun chl =>
    (s.chatUsers.filter fun chul =>
        chl.Id = chul.ChatId ∧ chul.UserId = userId ∧ chl.Types = types).map
      fun _ => { Id := chl.Id, Name := "", Types := "", Icon := "" }

/-- `SELECT id, username, icon FROM users WHERE id = ?` scanned into one record. -/
def sqlUserById (s : Store) (userId : Int) : Option User :=
  (s.users.find? fun u => u.Id = userId).map User.public

/-- `INSERT INTO chats (name, types)`: the row gets the next generated id. -/
def sqlInsertChat (chat : Chat) (s : Store) : Store :=
  { s with
    chats := s.chats ++ [{ Id := s.nextChatId, Name := chat.Name, Types := chat.Types, Icon := "" }]
    nextChatId := s.nextChatId + 1 }

/-- `INSERT INTO chat_users (chat_id, user_id)`. -/
def sqlInsertChatUser (cu : ChatUsers) (s : Store) : Store :=
  { s with
    chatUsers := s.chatUsers ++
      [{ Id := s.nextChatUsersId, ChatId := cu.ChatId, UserId := cu.UserId }]
    nextChatUsersId := s.nextChatUsersId + 1 }

/-- `DELETE FROM chats WHERE id = ?` -/
def sqlDeleteChat (chatId : Int) (s : Store) : Store :=
  { s with chats := s.chats.filter fun ch => ch.Id ≠ chatId }

/-- `DELETE FROM chat_users WHERE user_id = ? and chat_id = ?` -/
def sqlDeleteChatUser (userId chatId : Int) (s : Store) : Store :=
  { s with
    chatUsers := s.chatUsers.filter fun cu => ¬ (cu.UserId = userId ∧ cu.ChatId = chatId) }

/-- `DELETE FROM messages WHERE chat_id = ?` -/
def sqlDeleteMessages (chatId : Int) (s : Store) : Store :=
  { s with messages := s.messages.filter fun m => m.ChatId ≠ chatId }

/-- `SELECT * FROM chats WHERE id = ? ORDER BY id ASC LIMIT 1`, the statement of
`Table(ChatsTable).First(&chat, chatId)`. -/
def sqlChatById (s : Store) (chatId : Int) : Option Chat :=
  s.chats.find? fun ch => ch.Id = chatId

/-- `SELECT * FROM chats ch INNER JOIN chat_users chl ON ch.id = chl.chat_id
WHERE chl.user_id = ? and ch.types = ?`, scanned into `[]models.Chat`: the first column
named `id` is the one of `chats`, so every joined row yields the chat row itself. -/
def sqlPrivateChats (s : Store) (userId : Int) (types : String) : List Chat :=
  s.chats.flatMap fun ch =>
    (s.chatUsers.filter fun chl =>
        ch.Id = chl.ChatId ∧ chl.UserId = userId ∧ ch.Types = types).map fun _ => ch

/-! ## `ChatRepository` -/

/-- `ChatRepository.Create`: returns `chat.Id`, which gorm fills with the generated id
when the field is blank. -/
def ChatRepository.Create (chat : Chat) (w : World) : Except Err Int × World :=
  match w.step with
  | (true, w1) => (.error dbError, w1)
  | (false, w1) =>
    (.ok (if chat.Id = 0 then w1.store.nextChatId else chat.Id),
      { w1 with store := sqlInsertChat chat w1.store })

/-- `ChatRepository.Delete` -/
def ChatRepository.Delete (chatId : Int) (w : World) : Option Err × World :=
  w.exec (sqlDeleteChat chatId)

/-- `ChatRepository.AddUser` -/
def ChatRepository.AddUser (user : ChatUsers) (w : World) : Except Err Int × World :=
  match w.step with
  | (true, w1) => (.error dbError, w1)
  | (false, w1) =>
    (.ok (if user.Id = 0 then w1.store.nextChatUsersId else user.Id),
      { w1 with store := sqlInsertChatUser user w1.store })

/-- `ChatRepository.GetUsers` -/
def ChatRepository.GetUsers (chatId : Int) (w : World) : Except Err (List User) × World :=
  w.query fun s => .ok (sqlChatUsers s chatId)

/-- `ChatRepository.GetPrivates`: two statements, the second one only issued when the
first succeeded.  Both run on `c.db`; the transaction `tx` is only rolled back on an error
and has no effect on the result. -/
def ChatRepository.GetPrivates (firstUser secondUser : Int) (w : World) :
    Except Err (List Chat × List Chat) × World :=
  match w.query fun s => .ok (sqlPrivateIds s firstUser ChatPrivate) with
  | (.error errFirst, w1) => (.error errFirst, w1)
  | (.ok first, w1) =>
    match w1.query fun s => .ok (sqlPrivateIds s secondUser ChatPrivate) with
    | (.error errSecond, w2) => (.error errSecond, w2)
    | (.ok second, w2) => (.ok (first, second), w2)

/-- `ChatRepository.DeleteUser` -/
def ChatRepository.DeleteUser (userId chatId : Int) (w : World) : Option Err × World :=
  w.exec (sqlDeleteChatUser userId chatId)

/-- `ChatRepository.DeleteAllMessages` -/
def ChatRepository.DeleteAllMessages (chatId : Int) (w : World) : Option Err × World :=
  w.exec (sqlDeleteMessages chatId)

/-- `ChatRepository.GetUserById`: scanning into a single record reports
`record not found` when the statement returns no row. -/
def ChatRepository.GetUserById (userId : Int) (w : World) : Except Err User × World :=
  w.query fun s =>
    match sqlUserById s userId with
    | some u => .ok u
    | none => .error recordNotFound

/-- `ChatRepository.Get`: `First` reports `record not found` when no row has the id. -/
def ChatRepository.Get (chatId : Int) (w : World) : Except Err Chat × World :=
  w.query fun s =>
    match sqlChatById s chatId with
    | some chat => .ok chat
    | none => .error recordNotFound

/-- `ChatRepository.GetPrivateChats` -/
def ChatRepository.GetPrivateChats (userId : Int) (w : World) :
    Except Err (List Chat) × World :=
  w.query fun s => .ok (sqlPrivateChats s userId ChatPrivate)

/-! ## `ChatService` (`service/chat.go`) -/

/-- `ChatService.Create` -/
def ChatService.Create (chat : Chat) (w : World) : Except Err Int × World :=
  ChatRepository.Create chat w

/-- `ChatService.Delete` -/
def ChatService.Delete (chatId : Int) (w : World) : Option Err × World :=
  ChatRepository.Delete chatId w

/-- `ChatService.AddUser` -/
def ChatService.AddUser (users : ChatUsers) (w : World) : Except Err Int × World :=
  ChatRepository.AddUser users w

/-- `ChatService.GetUsers` -/
def ChatService.GetUsers (chatId : Int) (w : World) : Except Err (List User) × World :=
  ChatRepository.GetUsers chatId w

/-- `ChatService.DeleteUser` -/
def ChatService.DeleteUser (userId chatId : Int) (w : World) : Option Err × World :=
  ChatRepository.DeleteUser userId chatId w

/-- `ChatService.DeleteAllMessages` -/
def ChatService.DeleteAllMessages (chatId : Int) (w : World) : Option Err × World :=
  ChatRepository.DeleteAllMessages chatId w

/-- `ChatService.GetUserById` -/
def ChatService.GetUserById (userId : Int) (w : World) : Except Err User × World :=
  ChatRepository.GetUserById userId w

/-- `ChatService.Get` -/
def ChatService.Get (chatId : Int) (w : World) : Except Err Chat × World :=
  ChatRepository.Get chatId w

/-- `ChatService.GetPrivateChats` -/
def ChatService.GetPrivateChats (userId : Int) (w : World) : Except Err (List Chat) × World :=
  ChatRepository.GetPrivateChats userId w

/-- A Go `map[int]int`: the keys present, and the value of each key (0 when absent). -/
structure IntMap where
  keys : List Int
  val : Int → Int

/-- `make(map[int]int)` -/
def IntMap.empty : IntMap := { keys := [], val := fun _ => 0 }

/-- `result[v]++` -/
def IntMap.incr (m : IntMap) (v : Int) : IntMap :=
  { keys := if v ∈ m.keys then m.keys else m.keys ++ [v]
    val := fun k => if k = v then m.val v + 1 else m.val k }

/-- The order in which `range` visits the keys of a map is chosen by the Go runtime:
an iteration order sends the keys of a map to an arrangement of them. -/
def IterOrder (iter : List Int → List Int) : Prop :=
  ∀ keys, (iter keys).Perm keys

/-- The loop `for _, chat := range first` of the personal-chat branch of `GetPrivates`. -/
def ChatService.personalChat : List Chat → World → (Int × Option Err) × World
  | [], w => ((0, none), w)
  | chat :: rest, w =>
    match ChatRepository.GetUsers chat.Id w with
    | (.error err, w1) => ((-1, some err), w1)
    | (.ok list, w1) =>
      if list.length = 1 then ((chat.Id, none), w1)
      else ChatService.personalChat rest w1

/-- The part of `GetPrivates` for two different users: collect the ids, count them in a
map, return the first key met with count 2 (0 when there is none). -/
def ChatService.sharedChat (iter : List Int → List Int) (first second : List Chat) : Int :=
  let check := first.map Chat.Id ++ second.map Chat.Id
  let result := check.foldl IntMap.incr IntMap.empty
  match (iter result.keys).find? fun k => result.val k = 2 with
  | some k => k
  | none => 0

/-- `ChatService.GetPrivates`: the Go pair `(int, error)`. -/
def ChatService.GetPrivates (iter : List Int → List Int) (firstUser secondUser : Int)
    (w : World) : (Int × Option Err) × World :=
  match ChatRepository.GetPrivates firstUser secondUser w with
  | (.error err, w1) => ((-1, some err), w1)
  | (.ok (first, second), w1) =>
    if firstUser = secondUser then ChatService.personalChat first w1
    else ((ChatService.sharedChat iter first second, none), w1)

/-! ## HTTP responses -/

inductive Body where
  | message (text : String)
  | chatId (id : Int)
  | id (id : Int)
  | chatUser (user : User) (chat : Chat)
  | chats (list : List Chat)
  | messages (list : List Message)
  deriving DecidableEq, Repr

/-- What a handler leaves behind: a JSON response with its status code, or a non-nil
error returned to the framework before any response was written. -/
inductive Response where
  | json (code : Nat) (body : Body)
  | failed (err : Err)
  deriving DecidableEq, Repr

/-- `responses.NewErrorResponse` -/
def NewErrorResponse (statusCode : Nat) (message : String) : Response :=
  .json statusCode (.message message)

/-! ## `ChatHandler` (`handler/chat/chat.go`)

A handler receives the outcome of `c.Bind` (`none`: the body could not be bound) and of
`middlewares.GetParam` (`none`: `strconv.Atoi` failed). -/

/-- `ChatHandler.DeleteUserFromChat` -/
def ChatHandler.DeleteUserFromChat (body : Option ChatUsers) (param : Option Int) (w : World) :
    Response × World :=
  match body with
  | none => (NewErrorResponse 400 "incorrect request data", w)
  | some list =>
    match param with
    | none => (.failed "strconv.Atoi", w)
    | some chatId =>
      match ChatService.DeleteUser list.UserId chatId w with
      | (some _, w1) => (NewErrorResponse 500 "delete user error", w1)
      | (none, w1) =>
        match ChatService.GetUsers chatId w1 with
        | (.error _, w2) => (NewErrorResponse 500 "get chat users error", w2)
        | (.ok users, w2) =>
          let done : Response := .json 200 (.message
            ("user with id " ++ toString list.UserId ++ " deleted from chat with id " ++
              toString chatId))
          if users.length = 0 then
            match ChatService.Delete chatId w2 with
            | (some _, w3) => (NewErrorResponse 500 "chat delete error", w3)
            | (none, w3) =>
              match ChatService.DeleteAllMessages chatId w3 with
              | (some _, w4) => (NewErrorResponse 500 "messages delete error", w4)
              | (none, w4) => (done, w4)
          else (done, w2)

/-- The loop `for _, user := range users` of `DeleteChat`: `none` when every removal
succeeded. -/
def ChatHandler.deleteUsers (chatId : Int) : List User → World → Option Err × World
  | [], w => (none, w)
  | user :: rest, w =>
    match ChatService.DeleteUser user.Id chatId w with
    | (some errDelUser, w1) => (some errDelUser, w1)
    | (none, w1) => ChatHandler.deleteUsers chatId rest w1

/-- `ChatHandler.DeleteChat` -/
def ChatHandler.DeleteChat (param : Option Int) (w : World) : Response × World :=
  match param with
  | none => (.failed "strconv.Atoi", w)
  | some chatId =>
    match ChatService.GetUsers chatId w with
    | (.error _, w1) => (NewErrorResponse 500 "get chat users error", w1)
    | (.ok users, w1) =>
      match ChatHandler.deleteUsers chatId users w1 with
      | (some _, w2) => (NewErrorResponse 500 "delete user from chat error", w2)
      | (none, w2) =>
        match ChatService.Delete chatId w2 with
        | (some _, w3) => (NewErrorResponse 500 "chat delete error", w3)
        | (none, w3) =>
          match ChatService.DeleteAllMessages chatId w3 with
          | (some _, w4) => (NewErrorResponse 500 "messages delete error", w4)
          | (none, w4) =>
            (.json 200 (.message ("chat with id " ++ toString chatId ++ " deleted")), w4)

/-- `ChatHandler.PrivateChat`: `creatorId` is the authenticated user, `param` the
path parameter naming the other user. -/
def ChatHandler.PrivateChat (iter : List Int → List Int) (creatorId : Int)
    (param : Option Int) (w : World) : Response × World :=
  match param with
  | none => (.failed "strconv.Atoi", w)
  | some userId =>
    match ChatService.GetPrivates iter creatorId userId w with
    | ((_, some _), w1) => (NewErrorResponse 500 "wrong users", w1)
    | ((code, none), w1) =>
      if code = 0 then
        match ChatService.GetUserById userId w1 with
        | (.error _, w2) => (NewErrorResponse 500 "wrong user", w2)
        | (.ok user, w2) =>
          let chat : Chat := { Id := 0, Name := user.Username, Types := ChatPrivate, Icon := "" }
          match ChatService.Create chat w2 with
          | (.error _, w3) => (NewErrorResponse 500 "create chat error", w3)
          | (.ok chatId, w3) =>
            match ChatService.AddUser { Id := 0, ChatId := chatId, UserId := creatorId } w3 with
            | (.error _, w4) => (NewErrorResponse 500 "add active user to chat error", w4)
            | (.ok _, w4) =>
              if creatorId ≠ userId then
                match ChatService.AddUser { Id := 0, ChatId := chatId, UserId := userId } w4 with
                | (.error _, w5) => (NewErrorResponse 500 "add second user to chat error", w5)
                | (.ok _, w5) => (.json 200 (.chatId chatId), w5)
              else (.json 200 (.chatId chatId), w4)
      else (.json 200 (.chatId code), w1)

/-- `ChatHandler.CreatePublicChat`: `userId` is the authenticated user, `body` the
`models.Chat` bound from the request. -/
def ChatHandler.CreatePublicChat (userId : Int) (body : Option Chat) (w : World) :
    Response × World :=
  match body with
  | none => (NewErrorResponse 400 "incorrect request data", w)
  | some chat =>
    if chat.Name = "" then (NewErrorResponse 400 "name is empty", w)
    else
      match ChatService.Create { chat with Types := ChatPublic } w with
      | (.error _, w1) => (NewErrorResponse 500 "create message error", w1)
      | (.ok chatId, w1) =>
        match ChatService.AddUser { Id := 0, ChatId := chatId, UserId := userId } w1 with
        | (.error _, w2) => (NewErrorResponse 500 "add user to chat error", w2)
        | (.ok _, w2) => (.json 200 (.id chatId), w2)

/-- The value of `var user models.User` before any assignment. -/
def zeroUser : User := { Id := 0, Username := "", Password := "", Icon := "" }

/-- The loop `for _, u := range users` of `GetById`: every member other than the active
user is assigned to `user` in turn. -/
def ChatHandler.otherUser (creatorId : Int) (users : List User) (user : User) : User :=
  users.foldl (fun user u => if u.Id ≠ creatorId then u else user) user

/-- `ChatHandler.GetById` -/
def ChatHandler.GetById (creatorId : Int) (param : Option Int) (w : World) :
    Response × World :=
  match param with
  | none => (.failed "strconv.Atoi", w)
  | some chatId =>
    match ChatService.Get chatId w with
    | (.error _, w1) => (NewErrorResponse 500 "no chat error", w1)
    | (.ok chat, w1) =>
      if chat.Types = ChatPrivate then
        match ChatService.GetUsers chatId w1 with
        | (.error _, w2) => (NewErrorResponse 500 "get users error", w2)
        | (.ok users, w2) =>
          match users with
          | [u] => (.json 200 (.chatUser u chat), w2)
          | _ => (.json 200 (.chatUser (ChatHandler.otherUser creatorId users zeroUser) chat), w2)
      else (.json 200 (.chatUser zeroUser chat), w1)

/-- The inner loop of `GetUserPrivateChats`: every member other than the active user
renames the loop variable `chat` and appends it to `result`. -/
def ChatHandler.appendRenamed (creatorId : Int) :
    List User → Chat → List Chat → Chat × List Chat
  | [], chat, result => (chat, result)
  | u :: rest, chat, result =>
    if u.Id ≠ creatorId then
      ChatHandler.appendRenamed creatorId rest { chat with Name := u.Username }
        (result ++ [{ chat with Name := u.Username }])
    else ChatHandler.appendRenamed creatorId rest chat result

/-- The loop `for _, chat := range chats` of `GetUserPrivateChats`. -/
def ChatHandler.privateChats (creatorId : Int) :
    List Chat → List Chat → World → Except Err (List Chat) × World
  | [], result, w => (.ok result, w)
  | chat :: rest, result, w =>
    match ChatService.GetUsers chat.Id w with
    | (.error err, w1) => (.error err, w1)
    | (.ok users, w1) =>
      if users.length = 2 then
        ChatHandler.privateChats creatorId rest
          (ChatHandler.appendRenamed creatorId users chat result).2 w1
      else ChatHandler.privateChats creatorId rest result w1

/-- `ChatHandler.GetUserPrivateChats` -/
def ChatHandler.GetUserPrivateChats (creatorId : Int) (param : Option Int) (w : World) :
    Response × World :=
  match param with
  | none => (.failed "strconv.Atoi", w)
  | some userId =>
    match ChatService.GetPrivateChats userId w with
    | (.error _, w1) => (NewErrorResponse 500 "get chats error", w1)
    | (.ok chats, w1) =>
      match ChatHandler.privateChats creatorId chats [] w1 with
      | (.error _, w2) => (NewErrorResponse 500 "get users error", w2)
      | (.ok result, w2) => (.json 200 (.chats result), w2)

/-- `ChatHandler.AddUserToChat`: the path parameter is read before the body. -/
def ChatHandler.AddUserToChat (param : Option Int) (body : Option ChatUsers) (w : World) :
    Response × World :=
  match param with
  | none => (.failed "strconv.Atoi", w)
  | some chatId =>
    match body with
    | none => (NewErrorResponse 400 "incorrect request data", w)
    | some list =>
      match ChatService.AddUser { list with ChatId := chatId } w with
      | (.error _, w1) => (NewErrorResponse 500 "add user to chat error", w1)
      | (.ok id, w1) => (.json 200 (.id id), w1)

/-! ## `StatusRepository` (`repository/status_mysql.go`) -/

/-- `SELECT u.id, u.username, u.icon FROM users u INNER JOIN users_relationship chul
ON chul.sender_id = u.id WHERE relationship = ? and recipient_id = ?` -/
def sqlSendersTo (s : Store) (relationship : String) (userId : Int) : List User :=
  s.users.flatMap fun u =>
    (s.statuses.filter fun chul =>
        chul.SenderId = u.Id ∧ chul.Relationship = relationship ∧ chul.RecipientId = userId).map
      fun _ => u.public

/-- `SELECT u.id, u.username, u.icon FROM users u INNER JOIN users_relationship chul
ON chul.recipient_id = u.id WHERE relationship = ? and sender_id = ?` -/
def sqlRecipientsOf (s : Store) (relationship : String) (userId : Int) : List User :=
  s.users.flatMap fun u =>
    (s.statuses.filter fun chul =>
        chul.RecipientId = u.Id ∧ chul.Relationship = relationship ∧ chul.SenderId = userId).map
      fun _ => u.public

/-- `StatusRepository.GetFriends`: the Go pair `([]models.User, error)`.  The second
`Scan` refills `usersId` with the rows of the second query, which are then appended to
the rows of the first; the last store call is the commit. -/
def StatusRepository.GetFriends (userId : Int) (w : World) :
    (List User × Option Err) × World :=
  match w.query fun s => .ok (sqlSendersTo s StatusFriends userId) with
  | (.error err, w1) => (([], some err), w1)
  | (.ok usersId, w1) =>
    let result := usersId
    match w1.query fun s => .ok (sqlRecipientsOf s StatusFriends userId) with
    | (.error errSec, w2) => (([], some errSec), w2)
    | (.ok usersId2, w2) =>
      match w2.step with
      | (true, w3) => ((result ++ usersId2, some dbError), w3)
      | (false, w3) => ((result ++ usersId2, none), w3)

/-- `INSERT INTO users_relationship`: a blank id is left to the store, which gives the row
the next generated id. -/
def sqlInsertStatus (status : Status) (s : Store) : Store :=
  { s with
    statuses := s.statuses ++
      [{ Id := if status.Id = 0 then s.nextStatusId else status.Id
         SenderId := status.SenderId
         RecipientId := status.RecipientId
         Relationship := status.Relationship }]
    nextStatusId := s.nextStatusId + 1 }

/-- `UPDATE users_relationship SET ...`: `Table(StatusesTable).Updates(&status)` carries no
model and no `Where`, so the statement has no WHERE clause; it sets, in every row, the
columns of the non-blank fields of `status`. -/
def sqlUpdateStatus (status : Status) (s : Store) : Store :=
  { s with
    statuses := s.statuses.map fun row =>
      { Id := if status.Id = 0 then row.Id else status.Id
        SenderId := if status.SenderId = 0 then row.SenderId else status.SenderId
        RecipientId := if status.RecipientId = 0 then row.RecipientId else status.RecipientId
        Relationship :=
          if status.Relationship = "" then row.Relationship else status.Relationship } }

/-- `DELETE FROM users_relationship stl WHERE relationship = ? and (recipient_id = ? and
sender_id = ?) or (sender_id = ? and recipient_id = ?)` with the arguments
`Relationship, SenderId, RecipientId, SenderId, RecipientId`; `and` binds tighter than
`or`. -/
def sqlDeleteStatus (status : Status) (s : Store) : Store :=
  { s with
    statuses := s.statuses.filter fun stl =>
      ¬ ((stl.Relationship = status.Relationship ∧
            (stl.RecipientId = status.SenderId ∧ stl.SenderId = status.RecipientId)) ∨
          (stl.SenderId = status.SenderId ∧ stl.RecipientId = status.RecipientId)) }

/-- `StatusRepository.AddStatus` -/
def StatusRepository.AddStatus (status : Status) (w : World) : Except Err Int × World :=
  match w.step with
  | (true, w1) => (.error dbError, w1)
  | (false, w1) =>
    (.ok (if status.Id = 0 then w1.store.nextStatusId else status.Id),
      { w1 with store := sqlInsertStatus status w1.store })

/-- `StatusRepository.UpdateStatus` -/
def StatusRepository.UpdateStatus (status : Status) (w : World) : Option Err × World :=
  w.exec (sqlUpdateStatus status)

/-- `StatusRepository.DeleteStatus`: the statement is run through `Raw(...).Scan(&status)`.
It deletes and returns no row, and scanning into the single record `status` then reports
`record not found`. -/
def StatusRepository.DeleteStatus (status : Status) (w : World) : Option Err × World :=
  match w.step with
  | (true, w1) => (some dbError, w1)
  | (false, w1) => (some recordNotFound, { w1 with store := sqlDeleteStatus status w1.store })

/-- `StatusRepository.GetBlackList` -/
def StatusRepository.GetBlackList (userId : Int) (w : World) :
    Except Err (List User) × World :=
  w.query fun s => .ok (sqlRecipientsOf s StatusBL userId)

/-- `StatusRepository.GetBlackListToUser` -/
def StatusRepository.GetBlackListToUser (userId : Int) (w : World) :
    Except Err (List User) × World :=
  w.query fun s => .ok (sqlSendersTo s StatusBL userId)

/-- `StatusRepository.GetSentInvites` -/
def StatusRepository.GetSentInvites (userId : Int) (w : World) :
    Except Err (List User) × World :=
  w.query fun s => .ok (sqlRecipientsOf s StatusInvitation userId)

/-- `StatusRepository.GetInvites` -/
def StatusRepository.GetInvites (userId : Int) (w : World) :
    Except Err (List User) × World :=
  w.query fun s => .ok (sqlSendersTo s StatusInvitation userId)

/-! ## `StatusService` (`service/status.go`) -/

/-- `StatusService.AddStatus` -/
def StatusService.AddStatus (status : Status) (w : World) : Except Err Int × World :=
  StatusRepository.AddStatus status w

/-- `StatusService.UpdateStatus` -/
def StatusService.UpdateStatus (status : Status) (w : World) : Option Err × World :=
  StatusRepository.UpdateStatus status w

/-- `StatusService.DeleteStatus` -/
def StatusService.DeleteStatus (status : Status) (w : World) : Option Err × World :=
  StatusRepository.DeleteStatus status w

/-! ## `UsersHandler` (`handler/users/users.go`)

A handler receives the authenticated user (`c.Get(middlewares.UserCtx)`) and the outcome
of `middlewares.GetParam` for the path parameter `id`. -/

/-- `UsersHandler.InvitedToFriends` -/
def UsersHandler.InvitedToFriends (senderId : Int) (param : Option Int) (w : World) :
    Response × World :=
  match param with
  | none => (.failed "strconv.Atoi", w)
  | some recipientId =>
    let status : Status :=
      { Id := 0, SenderId := senderId, RecipientId := recipientId,
        Relationship := StatusInvitation }
    match StatusService.AddStatus status w with
    | (.error _, w1) => (NewErrorResponse 500 "add status error", w1)
    | (.ok id, w1) => (.json 200 (.id id), w1)

/-- `UsersHandler.CancelInvite` -/
def UsersHandler.CancelInvite (senderId : Int) (param : Option Int) (w : World) :
    Response × World :=
  match param with
  | none => (.failed "strconv.Atoi", w)
  | some recipientId =>
    let status : Status :=
      { Id := 0, SenderId := senderId, RecipientId := recipientId,
        Relationship := StatusInvitation }
    match StatusService.DeleteStatus status w with
    | (some _, w1) => (NewErrorResponse 500 "delete status error", w1)
    | (none, w1) => (.json 200 (.message "invite deleted"), w1)

/-- `UsersHandler.AcceptInvitation` -/
def UsersHandler.AcceptInvitation (recipientId : Int) (param : Option Int) (w : World) :
    Response × World :=
  match param with
  | none => (.failed "strconv.Atoi", w)
  | some senderId =>
    let status : Status :=
      { Id := 0, SenderId := senderId, RecipientId := recipientId,
        Relationship := StatusFriends }
    match StatusService.UpdateStatus status w with
    | (some _, w1) => (NewErrorResponse 500 "update status error", w1)
    | (none, w1) => (.json 200 (.message "invitation accepted"), w1)

/-- `UsersHandler.RefuseInvitation` -/
def UsersHandler.RefuseInvitation (recipientId : Int) (param : Option Int) (w : World) :
    Response × World :=
  match param with
  | none => (.failed "strconv.Atoi", w)
  | some senderId =>
    let status : Status :=
      { Id := 0, SenderId := senderId, RecipientId := recipientId,
        Relationship := StatusInvitation }
    match StatusService.DeleteStatus status w with
    | (some _, w1) => (NewErrorResponse 500 "delete status error", w1)
    | (none, w1) => (.json 200 (.message "invitation refused"), w1)

/-- `UsersHandler.AddToBlackList` -/
def UsersHandler.AddToBlackList (senderId : Int) (param : Option Int) (w : World) :
    Response × World :=
  match param with
  | none => (.failed "strconv.Atoi", w)
  | some recipientId =>
    let status : Status :=
      { Id := 0, SenderId := senderId, RecipientId := recipientId, Relationship := StatusBL }
    match StatusService.AddStatus status w with
    | (.error _, w1) => (NewErrorResponse 500 "add status error", w1)
    | (.ok id, w1) => (.json 200 (.id id), w1)

/-- `UsersHandler.DeleteFromBlacklist` -/
def UsersHandler.DeleteFromBlacklist (senderId : Int) (param : Option Int) (w : World) :
    Response × World :=
  match param with
  | none => (.failed "strconv.Atoi", w)
  | some recipientId =>
    let status : Status :=
      { Id := 0, SenderId := senderId, RecipientId := recipientId, Relationship := StatusBL }
    match StatusService.DeleteStatus status w with
    | (some _, w1) => (NewErrorResponse 500 "delete status error", w1)
    | (none, w1) => (.json 200 (.message "user deleted from black list"), w1)

/-! ## Messages (`repository/message_mysql.go`, `service/message.go`,
`handler/message/message.go`) -/

/-- `SELECT * FROM messages WHERE chat_id = ? ORDER BY id DESC LIMIT ?`: the newest
`limit` messages of the chat, newest first. -/
def sqlLimitMessages (s : Store) (chatId : Int) (limit : Nat) : List Message :=
  ((s.messages.filter fun m => m.ChatId = chatId).insertionSort fun a b => b.Id ≤ a.Id).take
    limit

/-- `MessageRepository.GetLimit`: the server rejects a negative `LIMIT`. -/
def MessageRepository.GetLimit (chatId limit : Int) (w : World) :
    Except Err (List Message) × World :=
  w.query fun s =>
    if limit < 0 then .error dbError else .ok (sqlLimitMessages s chatId limit.toNat)

/-- `MessageService.GetLimit` -/
def MessageService.GetLimit (chatId limit : Int) (w : World) :
    Except Err (List Message) × World :=
  MessageRepository.GetLimit chatId limit w

/-- The loop `for i := range msg { result = append(result, msg[length-i]) }` of
`GetLimitMessages`, with `length = len(msg) - 1`. -/
def MessageHandler.reorder (msg : List Message) : List Message :=
  (List.range msg.length).foldl
    (fun result i => result ++ (msg[msg.length - 1 - i]?).toList) []

/-- `MessageHandler.GetLimitMessages`: `chatParam` and `limitParam` are the outcomes of
`middlewares.GetParam` for the chat id and for the limit. -/
def MessageHandler.GetLimitMessages (chatParam limitParam : Option Int) (w : World) :
    Response × World :=
  match chatParam with
  | none => (.failed "strconv.Atoi", w)
  | some chatId =>
    match limitParam with
    | none => (.failed "strconv.Atoi", w)
    | some limit =>
      match MessageService.GetLimit chatId limit w with
      | (.error _, w1) => (NewErrorResponse 500 "get limit error", w1)
      | (.ok msg, w1) => (.json 200 (.messages (MessageHandler.reorder msg)), w1)

/-! ## Authorization (`repository/auth_mysql.go`, `service/auth.go`) -/

/-- `UPDATE users SET ... WHERE id = ?`, the statement of
`Table(UsersTable).Select("username", "icon").Where("id = ?", user.Id).Updates(&user)`.
The call carries no model, so gorm takes the columns to set from the record passed to
`Updates` alone: the columns of its non-blank fields, whatever `Select` names. -/
def sqlUpdateUser (user : User) (s : Store) : Store :=
  { s with
    users := s.users.map fun row =>
      if row.Id = user.Id then
        { Id := if user.Id = 0 then row.Id else user.Id
          Username := if user.Username = "" then row.Username else user.Username
          Password := if user.Password = "" then row.Password else user.Password
          Icon := if user.Icon = "" then row.Icon else user.Icon }
      else row }

/-- `SELECT * FROM users WHERE username = ? and password_hash = ? ORDER BY id ASC LIMIT 1`,
the statement of `First(&user)`. -/
def sqlGetUser (s : Store) (username password : String) : Option User :=
  ((s.users.filter fun u => u.Username = username ∧ u.Password = password).insertionSort
    fun a b => a.Id ≤ b.Id).head?

/-- `AuthRepository.UpdateUser` -/
def AuthRepository.UpdateUser (user : User) (w : World) : Option Err × World :=
  w.exec (sqlUpdateUser user)

/-- `AuthRepository.GetUser` -/
def AuthRepository.GetUser (username password : String) (w : World) :
    Except Err User × World :=
  w.query fun s =>
    match sqlGetUser s username password with
    | some user => .ok user
    | none => .error recordNotFound

/-- A byte. -/
abbrev Byte := Fin 256

/-- The two lower-case hexadecimal digits `%x` prints for a byte. -/
def hexByte (b : Byte) : List Char := [Nat.digitChar (b.val / 16), Nat.digitChar (b.val % 16)]

/-- `CreatePasswordHash`: `sha1` stands for `crypto/sha1` (the 20 bytes of the digest of the
bytes written), `salt` for the bytes of the environment variable `salt`; `hash.Sum(b)`
appends the digest to `b`. -/
def CreatePasswordHash (sha1 : String → Fin 20 → Byte) (salt : List Byte)
    (password : String) : String :=
  String.mk ((salt ++ List.ofFn (sha1 password)).flatMap hexByte)

/-- `AuthService.UpdatePassword` -/
def AuthService.UpdatePassword (sha1 : String → Fin 20 → Byte) (salt : List Byte)
    (user : User) (w : World) : Option Err × World :=
  AuthRepository.UpdateUser { user with Password := CreatePasswordHash sha1 salt user.Password } w

/-! ## Derived notions used in the statements -/

/-- The ids of the private chats of `a` followed by those of `b`, as `GetPrivates` collects
them. -/
def privateIdsOf (s : Store) (a b : Int) : List Int :=
  (sqlPrivateIds s a ChatPrivate).map Chat.Id ++ (sqlPrivateIds s b ChatPrivate).map Chat.Id

/-- The store after `PrivateChat` created a chat for `a` and `b`. -/
def createdPrivate (s : Store) (a b : Int) (name : String) : Store :=
  if a ≠ b then
    sqlInsertChatUser { Id := 0, ChatId := s.nextChatId, UserId := b }
      (sqlInsertChatUser { Id := 0, ChatId := s.nextChatId, UserId := a }
        (sqlInsertChat { Id := 0, Name := name, Types := ChatPrivate, Icon := "" } s))
  else
    sqlInsertChatUser { Id := 0, ChatId := s.nextChatId, UserId := a }
      (sqlInsertChat { Id := 0, Name := name, Types := ChatPrivate, Icon := "" } s)

/-- The cascade of the two handlers: the chat row, then its messages. -/
def purged (c : Int) (s : Store) : Store := sqlDeleteMessages c (sqlDeleteChat c s)

/-- The store without the membership rows of chat `c` held by the users `us`. -/
def removedMembers (c : Int) (us : List Int) (s : Store) : Store :=
  { s with chatUsers := s.chatUsers.filter fun cu => ¬ (cu.ChatId = c ∧ cu.UserId ∈ us) }

/-- A run of `DeleteUserFromChat` requests on chat `c`, one per request body. -/
def removeOneByOne (c : Int) (reqs : List ChatUsers) (w : World) : World :=
  reqs.foldl (fun w1 list => (ChatHandler.DeleteUserFromChat (some list) (some c) w1).2) w

/-- The other end of every friends edge at `u`: the senders of the edges into `u`, then the
recipients of the edges out of `u`. -/
def friendEnds (s : Store) (u : Int) : List Int :=
  (s.statuses.filter fun e => e.Relationship = StatusFriends ∧ e.RecipientId = u).map
      Status.SenderId ++
    (s.statuses.filter fun e => e.Relationship = StatusFriends ∧ e.SenderId = u).map
      Status.RecipientId

/-- The outcomes of the calls `GetUsers chat.Id` issued one after the other for the chats of
a list. -/
def usersOutcomes : List Chat → World → List (Except Err (List User))
  | [], _ => []
  | chat :: rest, w =>
    (ChatRepository.GetUsers chat.Id w).1 ::
      usersOutcomes rest (ChatRepository.GetUsers chat.Id w).2

/-- In a run of `GetUsers` outcomes, a call fails before a one-member chat is found: some
outcome is an error and every outcome before it is a member list whose length is not 1. -/
def FailsBeforeMatch (outcomes : List (Except Err (List User))) : Prop :=
  ∃ pre err post, outcomes = pre ++ .error err :: post ∧
    ∀ o ∈ pre, ∃ list, o = .ok list ∧ list.length ≠ 1

/-- The failures after which `GetPrivates` is said to return -1: the repository call
`GetPrivates` fails, or the two users are the same and a `GetUsers` call fails before a
one-member chat is found. -/
def GetPrivatesFails (a b : Int) (w : World) : Prop :=
  (∃ err w1, ChatRepository.GetPrivates a b w = (.error err, w1)) ∨
  (a = b ∧ ∃ first second w1,
    ChatRepository.GetPrivates a b w = (.ok (first, second), w1) ∧
      FailsBeforeMatch (usersOutcomes first w1))

/-- Cascade completeness: every chat id for which `GetUsers` lists no member has no chat
record and no messages. -/
def CascadeComplete (s : Store) : Prop :=
  ∀ c : Int, sqlChatUsers s c = [] →
    (∀ ch ∈ s.chats, ch.Id ≠ c) ∧ ∀ m ∈ s.messages, m.ChatId ≠ c

/-- The requests that change chats and memberships, with the active user, the path
parameter and the bound body of each. -/
inductive ChatRequest where
  | createPublicChat (userId : Int) (body : Chat)
  | privateChat (iter : List Int → List Int) (creatorId userId : Int)
  | addUserToChat (chatId : Int) (body : ChatUsers)
  | deleteUserFromChat (chatId : Int) (body : ChatUsers)
  | deleteChat (chatId : Int)

/-- The handler of a request. -/
def ChatRequest.run : ChatRequest → World → Response × World
  | .createPublicChat userId body, w => ChatHandler.CreatePublicChat userId (some body) w
  | .privateChat iter creatorId userId, w => ChatHandler.PrivateChat iter creatorId (some userId) w
  | .addUserToChat chatId body, w => ChatHandler.AddUserToChat (some chatId) (some body) w
  | .deleteUserFromChat chatId body, w =>
    ChatHandler.DeleteUserFromChat (some body) (some chatId) w
  | .deleteChat chatId, w => ChatHandler.DeleteChat (some chatId) w

/-- A successful request: it answers 200. -/
def Succeeds (r : Response) : Prop := ∃ body, r = .json 200 body

/-- The stores reached from `s0` through successful requests in which every store call
succeeds, each request being allowed in the store it meets. -/
inductive Reachable (allowed : Store → ChatRequest → Prop) (s0 : Store) : Store → Prop
  | start : Reachable allowed s0 s0
  | step (s : Store) (req : ChatRequest) :
    Reachable allowed s0 s → allowed s req → Succeeds (req.run (World.ok s)).1 →
      Reachable allowed s0 (req.run (World.ok s)).2.store

/-- Requests that respect the kinds of chats: a `CreatePublicChat` body carries no id, and
an `AddUserToChat` request names an existing public chat. -/
def ChatRequest.Guarded (s : Store) : ChatRequest → Prop
  | .createPublicChat _ body => body.Id = 0
  | .addUserToChat chatId _ => ∃ ch ∈ s.chats, ch.Id = chatId ∧ ch.Types = ChatPublic
  | _ => True

/-- Chat ids are generated: every chat row and every membership row carries a chat id
below the counter, no two chat rows share an id, and a private chat has at most two
membership rows. -/
def ChatsGenerated (s : Store) : Prop :=
  (∀ ch ∈ s.chats, ch.Id < s.nextChatId) ∧
  (∀ cu ∈ s.chatUsers, cu.ChatId < s.nextChatId) ∧
  (s.chats.map Chat.Id).Nodup ∧
  ∀ ch ∈ s.chats, ch.Types = ChatPrivate →
    (s.chatUsers.filter fun cu => cu.ChatId = ch.Id).length ≤ 2

/-- Requests in which `CreatePublicChat` is sent by a stored user with a body that carries
no id; the other requests are not restricted. -/
def ChatRequest.Plain (s : Store) : ChatRequest → Prop
  | .createPublicChat userId body => body.Id = 0 ∧ ∃ u ∈ s.users, u.Id = userId
  | _ => True

/-! ## Concrete stores -/

/-- Users 1 and 2, no chat yet. -/
def exNoChat : Store where
  users := [⟨1, "ann", "", ""⟩, ⟨2, "bob", "", ""⟩]
  chats := []
  chatUsers := []
  messages := []
  statuses := []
  nextUserId := 3
  nextChatId := 1
  nextChatUsersId := 1
  nextMessageId := 1
  nextStatusId := 1

/-- User 1 was added twice to the private chat 7; user 2 is in no chat. -/
def exDoubleMember : Store where
  users := [⟨1, "ann", "", ""⟩, ⟨2, "bob", "", ""⟩]
  chats := [⟨7, "bob", "private", ""⟩]
  chatUsers := [⟨1, 7, 1⟩, ⟨2, 7, 1⟩]
  messages := []
  statuses := []
  nextUserId := 3
  nextChatId := 8
  nextChatUsersId := 3
  nextMessageId := 1
  nextStatusId := 1

/-- User 1 was added twice to the private chat 7, user 2 once. -/
def exTripleCount : Store where
  users := [⟨1, "ann", "", ""⟩, ⟨2, "bob", "", ""⟩]
  chats := [⟨7, "bob", "private", ""⟩]
  chatUsers := [⟨1, 7, 1⟩, ⟨2, 7, 2⟩, ⟨3, 7, 1⟩]
  messages := []
  statuses := []
  nextUserId := 3
  nextChatId := 8
  nextChatUsersId := 4
  nextMessageId := 1
  nextStatusId := 1

/-- Users 1 and 2 share the private chat 7. -/
def exOneShared : Store where
  users := [⟨1, "ann", "", ""⟩, ⟨2, "bob", "", ""⟩]
  chats := [⟨7, "bob", "private", ""⟩]
  chatUsers := [⟨1, 7, 1⟩, ⟨2, 7, 2⟩]
  messages := []
  statuses := []
  nextUserId := 3
  nextChatId := 8
  nextChatUsersId := 3
  nextMessageId := 1
  nextStatusId := 1

/-- Users 1 and 2 share the private chats 7 and 8. -/
def exTwoShared : Store where
  users := [⟨1, "ann", "", ""⟩, ⟨2, "bob", "", ""⟩]
  chats := [⟨7, "bob", "private", ""⟩, ⟨8, "ann", "private", ""⟩]
  chatUsers := [⟨1, 7, 1⟩, ⟨2, 7, 2⟩, ⟨3, 8, 2⟩, ⟨4, 8, 1⟩]
  messages := []
  statuses := []
  nextUserId := 3
  nextChatId := 9
  nextChatUsersId := 5
  nextMessageId := 1
  nextStatusId := 1

/-- A store in which chat 4 has one membership row, of the id 9 that has no user row. -/
def exGhostMember : Store where
  users := [⟨1, "ann", "", ""⟩]
  chats := [⟨4, "room", "public", ""⟩]
  chatUsers := [⟨1, 4, 9⟩]
  messages := [⟨1, 4, 9, "hello", 0⟩]
  statuses := []
  nextUserId := 2
  nextChatId := 5
  nextChatUsersId := 2
  nextMessageId := 2
  nextStatusId := 1

/-- User 1 alone in the private chat 7, which holds one message. -/
def exPersonal : Store where
  users := [⟨1, "ann", "", ""⟩]
  chats := [⟨7, "ann", "private", ""⟩]
  chatUsers := [⟨1, 7, 1⟩]
  messages := [⟨1, 7, 1, "note", 0⟩]
  statuses := []
  nextUserId := 2
  nextChatId := 8
  nextChatUsersId := 2
  nextMessageId := 2
  nextStatusId := 1

/-- A friends edge 1→2 between stored users, and a friends edge 3→1 from an id without
user row. -/
def exFriends : Store where
  users := [⟨1, "ann", "", ""⟩, ⟨2, "bob", "", ""⟩]
  chats := []
  chatUsers := []
  messages := []
  statuses := [⟨1, 1, 2, "friends"⟩, ⟨2, 3, 1, "friends"⟩]
  nextUserId := 3
  nextChatId := 1
  nextChatUsersId := 1
  nextMessageId := 1
  nextStatusId := 3

/-- Edges between 1 and 2 of several kinds, the invitation and the block in both directions. -/
def exEdges : Store where
  users := [⟨1, "ann", "", ""⟩, ⟨2, "bob", "", ""⟩, ⟨3, "cat", "", ""⟩]
  chats := []
  chatUsers := []
  messages := []
  statuses := [⟨1, 1, 2, "invitation"⟩, ⟨2, 1, 2, "black_list"⟩, ⟨3, 2, 1, "black_list"⟩,
    ⟨4, 3, 2, "black_list"⟩]
  nextUserId := 4
  nextChatId := 1
  nextChatUsersId := 1
  nextMessageId := 1
  nextStatusId := 5

/-- Users 1 and 2 with a friends edge in each direction. -/
def exMutualFriends : Store where
  users := [⟨1, "ann", "", ""⟩, ⟨2, "bob", "", ""⟩]
  chats := []
  chatUsers := []
  messages := []
  statuses := [⟨1, 1, 2, "friends"⟩, ⟨2, 2, 1, "friends"⟩]
  nextUserId := 3
  nextChatId := 1
  nextChatUsersId := 1
  nextMessageId := 1
  nextStatusId := 3

/-- Users 1, 2 and 3; users 1 and 2 share the private chat 7, which holds three messages. -/
def exThreeUsers : Store where
  users := [⟨1, "ann", "", ""⟩, ⟨2, "bob", "", ""⟩, ⟨3, "cat", "", ""⟩]
  chats := [⟨7, "bob", "private", ""⟩]
  chatUsers := [⟨1, 7, 1⟩, ⟨2, 7, 2⟩]
  messages := [⟨1, 7, 1, "hi", 0⟩, ⟨2, 7, 2, "hello", 1⟩, ⟨3, 7, 1, "bye", 2⟩]
  statuses := []
  nextUserId := 4
  nextChatId := 8
  nextChatUsersId := 3
  nextMessageId := 4
  nextStatusId := 1

/-- Users 1 and 2 and no chat; a membership row of user 2 names the chat id the next
created chat gets. -/
def exOrphanMembership : Store where
  users := [⟨1, "ann", "", ""⟩, ⟨2, "bob", "", ""⟩]
  chats := []
  chatUsers := [⟨1, 1, 2⟩]
  messages := []
  statuses := []
  nextUserId := 3
  nextChatId := 1
  nextChatUsersId := 2
  nextMessageId := 1
  nextStatusId := 1

/-- Users 1, 2 and 3 and nothing else. -/
def exThreeNoChat : Store where
  users := [⟨1, "ann", "", ""⟩, ⟨2, "bob", "", ""⟩, ⟨3, "cat", "", ""⟩]
  chats := []
  chatUsers := []
  messages := []
  statuses := []
  nextUserId := 4
  nextChatId := 1
  nextChatUsersId := 1
  nextMessageId := 1
  nextStatusId := 1

/-! # Theorems -/

/-! ## A run without failing store calls -/

@[simp] theorem World.step_ok (s : Store) : (World.ok s).step = (false, World.ok s) := rfl

@[simp] theorem World.query_ok {α : Type} (s : Store) (f : Store → Except Err α) :
    (World.ok s).query f = (f s, World.ok s) := rfl

@[simp] theorem World.exec_ok (s : Store) (f : Store → Store) :
    (World.ok s).exec f = (none, World.ok (f s)) := rfl

/-! ## The counting map of `GetPrivates` -/

theorem IntMap.foldl_val (l : List Int) (m : IntMap) (k : Int) :
    (l.foldl IntMap.incr m).val k = m.val k + (l.count k : Int) := by
  induction l generalizing m with
  | nil => simp
  | cons x xs ih =>
    rw [List.foldl_cons, ih, List.count_cons]
    by_cases h : x = k
    · subst h; simp [IntMap.incr]; ring
    · have h2 : ¬ k = x := fun e => h e.symm
      simp [IntMap.incr, h, h2]

theorem IntMap.foldl_keys (l : List Int) (m : IntMap) (k : Int) :
    k ∈ (l.foldl IntMap.incr m).keys ↔ k ∈ m.keys ∨ k ∈ l := by
  induction l generalizing m with
  | nil => simp
  | cons x xs ih =>
    rw [List.foldl_cons, ih]
    by_cases h : x ∈ m.keys
    · simp only [IntMap.incr, h, if_true, List.mem_cons]
      constructor
      · rintro (h1 | h1)
        · exact Or.inl h1
        · exact Or.inr (Or.inr h1)
      · rintro (h1 | h1 | h1)
        · exact Or.inl h1
        · subst h1; exact Or.inl h
        · exact Or.inr h1
    · simp only [IntMap.incr, h, if_false, List.mem_append, List.mem_singleton, List.mem_cons]
      tauto

/-- What the counting loop of `sharedChat` returns: a key counted twice, or 0 when no
key is counted twice. -/
theorem ChatService.sharedChat_cases (iter : List Int → List Int) (hiter : IterOrder iter)
    (first second : List Chat) :
    ((first.map Chat.Id ++ second.map Chat.Id).count (ChatService.sharedChat iter first second) = 2)
    ∨ (ChatService.sharedChat iter first second = 0 ∧
        ∀ k, (first.map Chat.Id ++ second.map Chat.Id).count k ≠ 2) := by
  unfold ChatService.sharedChat
  simp only
  generalize hids : first.map Chat.Id ++ second.map Chat.Id = ids
  cases hf : (iter (ids.foldl IntMap.incr IntMap.empty).keys).find?
      (fun k => decide ((ids.foldl IntMap.incr IntMap.empty).val k = 2)) with
  | some k =>
    left
    have := List.find?_some hf
    simp only [decide_eq_true_eq, IntMap.foldl_val, IntMap.empty] at this
    simp only
    omega
  | none =>
    right
    refine ⟨rfl, ?_⟩
    intro k hk
    have hmem : k ∈ ids := by
      apply List.count_pos_iff.mp
      omega
    have hk2 : k ∈ iter (ids.foldl IntMap.incr IntMap.empty).keys := by
      rw [(hiter _).mem_iff, IntMap.foldl_keys]
      exact Or.inr hmem
    have := List.find?_eq_none.mp hf k hk2
    simp only [decide_eq_true_eq, IntMap.foldl_val, IntMap.empty] at this
    omega

/-! ## Resolution for two different users (C1, C2, C3) -/

theorem IterOrder_id : IterOrder id := fun _ => List.Perm.refl _

theorem IterOrder_reverse : IterOrder List.reverse := fun keys => List.reverse_perm keys

theorem ChatService.GetPrivates_of_repo (iter : List Int → List Int) (a b : Int) (w w1 : World)
    (first second : List Chat) (hab : a ≠ b)
    (hrepo : ChatRepository.GetPrivates a b w = (.ok (first, second), w1)) :
    ChatService.GetPrivates iter a b w
      = ((ChatService.sharedChat iter first second, none), w1) := by
  unfold ChatService.GetPrivates
  rw [hrepo]
  simp [hab]

theorem count_two_of_nodup {l1 l2 : List Int} (h1 : l1.Nodup) (h2 : l2.Nodup) {k : Int}
    (hk : (l1 ++ l2).count k = 2) : k ∈ l1 ∧ k ∈ l2 := by
  rw [List.count_append] at hk
  have a1 := List.nodup_iff_count_le_one.mp h1 k
  have a2 := List.nodup_iff_count_le_one.mp h2 k
  exact ⟨List.count_pos_iff.mp (by omega), List.count_pos_iff.mp (by omega)⟩

theorem count_two_of_shared {l1 l2 : List Int} (h1 : l1.Nodup) (h2 : l2.Nodup) {k : Int}
    (m1 : k ∈ l1) (m2 : k ∈ l2) : (l1 ++ l2).count k = 2 := by
  rw [List.count_append, List.count_eq_one_of_mem h1 m1, List.count_eq_one_of_mem h2 m2]

/-- C1 (amended): for two different users whose private-chat lists, as returned by the
store, repeat no chat id, a non-zero id returned by `GetPrivates` with a nil error occurs in
the list of the first user and in the list of the second. -/
theorem GetPrivates_result_in_both_lists (iter : List Int → List Int) (hiter : IterOrder iter)
    (a b : Int) (w w1 : World) (first second : List Chat) (hab : a ≠ b)
    (hrepo : ChatRepository.GetPrivates a b w = (.ok (first, second), w1))
    (hfirst : (first.map Chat.Id).Nodup) (hsecond : (second.map Chat.Id).Nodup)
    (chatId : Int) (hres : (ChatService.GetPrivates iter a b w).1 = (chatId, none))
    (hne : chatId ≠ 0) :
    chatId ∈ first.map Chat.Id ∧ chatId ∈ second.map Chat.Id := by
  rw [ChatService.GetPrivates_of_repo iter a b w w1 first second hab hrepo] at hres
  simp only [Prod.mk.injEq, and_true] at hres
  rcases ChatService.sharedChat_cases iter hiter first second with h | ⟨h, _⟩
  · rw [hres] at h
    exact count_two_of_nodup hfirst hsecond h
  · exact absurd (hres ▸ h) hne

/-- Witness of C1: users 1 and 2 share the private chat 7. -/
theorem GetPrivates_result_in_both_lists_witness :
    (7 : Int) ∈ ([⟨7, "", "", ""⟩] : List Chat).map Chat.Id ∧
    (7 : Int) ∈ ([⟨7, "", "", ""⟩] : List Chat).map Chat.Id :=
  GetPrivates_result_in_both_lists id IterOrder_id 1 2 (World.ok exOneShared)
    (World.ok exOneShared) [⟨7, "", "", ""⟩] [⟨7, "", "", ""⟩]
    (by decide) rfl (by decide) (by decide) 7 rfl (by decide)

/-- C1 as stated fails: user 1 holds two membership rows of private chat 7 and user 2 is in
no chat; the store returns the lists `[7, 7]` and `[]`, and `GetPrivates 1 2` returns 7 with a
nil error although 7 is not in the list of user 2. -/
theorem GetPrivates_result_not_in_second_list :
    IterOrder id ∧ (1 : Int) ≠ 2 ∧
    ChatRepository.GetPrivates 1 2 (World.ok exDoubleMember)
      = (.ok ([⟨7, "", "", ""⟩, ⟨7, "", "", ""⟩], []), World.ok exDoubleMember) ∧
    (ChatService.GetPrivates id 1 2 (World.ok exDoubleMember)).1 = (7, none) ∧
    (7 : Int) ∉ ([] : List Chat).map Chat.Id := by
  refine ⟨IterOrder_id, by decide, rfl, rfl, by decide⟩

/-- C2 (amended): for two different users whose private-chat lists repeat no chat id and
hold no id 0, if some chat id occurs in both lists then `GetPrivates` returns a non-zero id
with a nil error. -/
theorem GetPrivates_nonzero_when_shared (iter : List Int → List Int) (hiter : IterOrder iter)
    (a b : Int) (w w1 : World) (first second : List Chat) (hab : a ≠ b)
    (hrepo : ChatRepository.GetPrivates a b w = (.ok (first, second), w1))
    (hfirst : (first.map Chat.Id).Nodup) (hsecond : (second.map Chat.Id).Nodup)
    (hzero : (0 : Int) ∉ first.map Chat.Id)
    (chatId : Int) (h1 : chatId ∈ first.map Chat.Id) (h2 : chatId ∈ second.map Chat.Id) :
    (ChatService.GetPrivates iter a b w).1.2 = none ∧
    (ChatService.GetPrivates iter a b w).1.1 ≠ 0 := by
  rw [ChatService.GetPrivates_of_repo iter a b w w1 first second hab hrepo]
  refine ⟨rfl, ?_⟩
  rcases ChatService.sharedChat_cases iter hiter first second with h | ⟨_, h⟩
  · intro h0
    change ChatService.sharedChat iter first second = 0 at h0
    rw [h0] at h
    exact hzero (count_two_of_nodup hfirst hsecond h).1
  · exact absurd (count_two_of_shared hfirst hsecond h1 h2) (h chatId)

/-- Witness of C2: users 1 and 2 share the private chat 7. -/
theorem GetPrivates_nonzero_when_shared_witness :
    (ChatService.GetPrivates id 1 2 (World.ok exOneShared)).1.2 = none ∧
    (ChatService.GetPrivates id 1 2 (World.ok exOneShared)).1.1 ≠ 0 :=
  GetPrivates_nonzero_when_shared id IterOrder_id 1 2 (World.ok exOneShared)
    (World.ok exOneShared) [⟨7, "", "", ""⟩] [⟨7, "", "", ""⟩]
    (by decide) rfl (by decide) (by decide) (by decide) 7 (by decide) (by decide)

/-- C2 as stated fails: user 1 holds two membership rows of private chat 7 and user 2 one;
chat 7 occurs in both lists, is counted three times, and `GetPrivates 1 2` returns 0. -/
theorem GetPrivates_zero_when_shared :
    IterOrder id ∧ (1 : Int) ≠ 2 ∧
    ChatRepository.GetPrivates 1 2 (World.ok exTripleCount)
      = (.ok ([⟨7, "", "", ""⟩, ⟨7, "", "", ""⟩], [⟨7, "", "", ""⟩]),
          World.ok exTripleCount) ∧
    (7 : Int) ∈ ([⟨7, "", "", ""⟩, ⟨7, "", "", ""⟩] : List Chat).map Chat.Id ∧
    (7 : Int) ∈ ([⟨7, "", "", ""⟩] : List Chat).map Chat.Id ∧
    (ChatService.GetPrivates id 1 2 (World.ok exTripleCount)).1 = (0, none) := by
  refine ⟨IterOrder_id, by decide, rfl, by decide, by decide, rfl⟩

@[simp] theorem ChatRepository.GetPrivates_ok (s : Store) (a b : Int) :
    ChatRepository.GetPrivates a b (World.ok s)
      = (.ok (sqlPrivateIds s a ChatPrivate, sqlPrivateIds s b ChatPrivate), World.ok s) := rfl

theorem ChatService.personalChat_ok (s : Store) (chats : List Chat) :
    ChatService.personalChat chats (World.ok s)
      = ((match chats.find? fun chat => (sqlChatUsers s chat.Id).length = 1 with
          | some chat => chat.Id
          | none => 0, none), World.ok s) := by
  induction chats with
  | nil => rfl
  | cons chat rest ih =>
    by_cases h : (sqlChatUsers s chat.Id).length = 1
    · simp [ChatService.personalChat, ChatRepository.GetUsers, h]
    · simp [ChatService.personalChat, ChatRepository.GetUsers, h, ih]

/-- `GetPrivates u u` when every store call succeeds. -/
theorem ChatService.GetPrivates_self (iter : List Int → List Int) (s : Store) (u : Int) :
    ChatService.GetPrivates iter u u (World.ok s)
      = ((match (sqlPrivateIds s u ChatPrivate).find?
            fun chat => (sqlChatUsers s chat.Id).length = 1 with
          | some chat => chat.Id
          | none => 0, none), World.ok s) := by
  simp [ChatService.GetPrivates, ChatService.personalChat_ok]

/-- C5: for one user `u` in both arguments, `GetPrivates u u` returns, with a nil error, the id
of the first chat of the private-chat list of `u` whose member list (`GetUsers`) has exactly
one element, and 0 when the list has no such chat. -/
theorem GetPrivates_same_user (iter : List Int → List Int) (s : Store) (u : Int) :
    ChatService.GetPrivates iter u u (World.ok s)
      = ((match (sqlPrivateIds s u ChatPrivate).find?
            fun chat => (sqlChatUsers s chat.Id).length = 1 with
          | some chat => chat.Id
          | none => 0, none), World.ok s) :=
  ChatService.GetPrivates_self iter s u

/-! ## Resolve after create (C4) -/

@[simp] theorem ChatRepository.Create_ok (chat : Chat) (s : Store) :
    ChatRepository.Create chat (World.ok s)
      = (.ok (if chat.Id = 0 then s.nextChatId else chat.Id),
          World.ok (sqlInsertChat chat s)) := rfl

@[simp] theorem ChatRepository.AddUser_ok (user : ChatUsers) (s : Store) :
    ChatRepository.AddUser user (World.ok s)
      = (.ok (if user.Id = 0 then s.nextChatUsersId else user.Id),
          World.ok (sqlInsertChatUser user s)) := rfl

@[simp] theorem ChatRepository.GetUsers_ok (chatId : Int) (s : Store) :
    ChatRepository.GetUsers chatId (World.ok s) = (.ok (sqlChatUsers s chatId), World.ok s) := rfl

@[simp] theorem ChatRepository.Delete_ok (chatId : Int) (s : Store) :
    ChatRepository.Delete chatId (World.ok s) = (none, World.ok (sqlDeleteChat chatId s)) := rfl

@[simp] theorem ChatRepository.DeleteUser_ok (userId chatId : Int) (s : Store) :
    ChatRepository.DeleteUser userId chatId (World.ok s)
      = (none, World.ok (sqlDeleteChatUser userId chatId s)) := rfl

@[simp] theorem ChatRepository.DeleteAllMessages_ok (chatId : Int) (s : Store) :
    ChatRepository.DeleteAllMessages chatId (World.ok s)
      = (none, World.ok (sqlDeleteMessages chatId s)) := rfl

theorem ChatService.GetPrivates_world (iter : List Int → List Int) (a b : Int) (s : Store) :
    (ChatService.GetPrivates iter a b (World.ok s)).2 = World.ok s := by
  by_cases hab : a = b
  · subst hab
    simp [ChatService.GetPrivates, ChatService.personalChat_ok]
  · rw [ChatService.GetPrivates_of_repo iter a b _ _ _ _ hab (ChatRepository.GetPrivates_ok s a b)]

theorem ChatHandler.PrivateChat_create (iter : List Int → List Int) (a b : Int) (s : Store)
    (user : User)
    (hzero : (ChatService.GetPrivates iter a b (World.ok s)).1 = (0, none))
    (huser : (ChatService.GetUserById b (World.ok s)).1 = .ok user) :
    ChatHandler.PrivateChat iter a (some b) (World.ok s)
      = (.json 200 (.chatId s.nextChatId), World.ok (createdPrivate s a b user.Username)) := by
  have hw := ChatService.GetPrivates_world iter a b s
  have hg : ChatService.GetPrivates iter a b (World.ok s) = ((0, none), World.ok s) :=
    Prod.ext hzero hw
  have hu : ChatService.GetUserById b (World.ok s) = (.ok user, World.ok s) := by
    apply Prod.ext huser
    simp [ChatService.GetUserById, ChatRepository.GetUserById]
  unfold ChatHandler.PrivateChat
  simp only [hg, hu, if_true]
  by_cases hab : a = b
  · subst hab
    simp [ChatService.Create, ChatService.AddUser, createdPrivate]
  · simp [ChatService.Create, ChatService.AddUser, createdPrivate, hab]

theorem ChatHandler.PrivateChat_found (iter : List Int → List Int) (a b c : Int) (s : Store)
    (hres : (ChatService.GetPrivates iter a b (World.ok s)).1 = (c, none)) (hc : c ≠ 0) :
    ChatHandler.PrivateChat iter a (some b) (World.ok s) = (.json 200 (.chatId c), World.ok s) := by
  have hw := ChatService.GetPrivates_world iter a b s
  have hg : ChatService.GetPrivates iter a b (World.ok s) = ((c, none), World.ok s) :=
    Prod.ext hres hw
  unfold ChatHandler.PrivateChat
  simp [hg, hc]

theorem createdPrivate_users (s : Store) (a b : Int) (name : String) :
    (createdPrivate s a b name).users = s.users := by
  unfold createdPrivate
  split <;> rfl

theorem createdPrivate_chats (s : Store) (a b : Int) (name : String) :
    (createdPrivate s a b name).chats
      = s.chats ++ [{ Id := s.nextChatId, Name := name, Types := ChatPrivate, Icon := "" }] := by
  unfold createdPrivate
  split <;> rfl

theorem createdPrivate_chatUsers_ne (s : Store) (a b : Int) (name : String) (hab : a ≠ b) :
    (createdPrivate s a b name).chatUsers
      = s.chatUsers ++ [{ Id := s.nextChatUsersId, ChatId := s.nextChatId, UserId := a },
          { Id := s.nextChatUsersId + 1, ChatId := s.nextChatId, UserId := b }] := by
  unfold createdPrivate
  simp [hab, sqlInsertChatUser, sqlInsertChat]

theorem createdPrivate_chatUsers_self (s : Store) (a : Int) (name : String) :
    (createdPrivate s a a name).chatUsers
      = s.chatUsers ++ [{ Id := s.nextChatUsersId, ChatId := s.nextChatId, UserId := a }] := by
  unfold createdPrivate
  simp [sqlInsertChatUser, sqlInsertChat]

theorem sqlUserById_some {s : Store} {b : Int} {user : User}
    (h : (ChatService.GetUserById b (World.ok s)).1 = .ok user) : ∃ u ∈ s.users, u.Id = b := by
  simp only [ChatService.GetUserById, ChatRepository.GetUserById, World.query_ok] at h
  cases hf : sqlUserById s b with
  | none => rw [hf] at h; cases h
  | some u0 =>
    unfold sqlUserById at hf
    cases hfind : s.users.find? (fun u => u.Id = b) with
    | none => rw [hfind] at hf; cases hf
    | some u1 =>
      have := List.find?_some hfind
      exact ⟨u1, List.mem_of_find?_eq_some hfind, by simpa using this⟩

theorem ChatHandler.DeleteUserFromChat_ok (list : ChatUsers) (c : Int) (s : Store) :
    ChatHandler.DeleteUserFromChat (some list) (some c) (World.ok s)
      = (.json 200 (.message ("user with id " ++ toString list.UserId ++
            " deleted from chat with id " ++ toString c)),
          World.ok (if (sqlChatUsers (sqlDeleteChatUser list.UserId c s) c).length = 0
            then purged c (sqlDeleteChatUser list.UserId c s)
            else sqlDeleteChatUser list.UserId c s)) := by
  unfold ChatHandler.DeleteUserFromChat
  simp only [ChatService.DeleteUser, ChatService.GetUsers, ChatService.Delete,
    ChatService.DeleteAllMessages, ChatRepository.DeleteUser_ok, ChatRepository.GetUsers_ok]
  split
  · simp [purged]
  · rfl

theorem sqlChatUsers_purged (c : Int) (s : Store) (x : Int) :
    sqlChatUsers (purged c s) x = sqlChatUsers s x := rfl

/-- A chat without membership rows has no members. -/
theorem sqlChatUsers_eq_nil_of_no_rows (s : Store) (c : Int)
    (h : ∀ cu ∈ s.chatUsers, cu.ChatId ≠ c) : sqlChatUsers s c = [] := by
  unfold sqlChatUsers
  rw [List.flatMap_eq_nil_iff]
  intro u _
  rw [List.map_eq_nil_iff, List.filter_eq_nil_iff]
  intro cu hcu
  simp only [decide_eq_true_eq, not_and]
  exact fun _ => h cu hcu

/-- C6: cascade on the last member.  After a `DeleteUserFromChat` request for chat `c` in
which every store call succeeds, if `GetUsers c` lists no member (as it does in particular
when no membership row of `c` is left), then no chat row has id `c` and no message has
chat id `c`. -/
theorem DeleteUserFromChat_cascade (s : Store) (list : ChatUsers) (c : Int)
    (hempty : (ChatService.GetUsers c
      (ChatHandler.DeleteUserFromChat (some list) (some c) (World.ok s)).2).1 = .ok []) :
    (∀ ch ∈ (ChatHandler.DeleteUserFromChat (some list) (some c) (World.ok s)).2.store.chats,
        ch.Id ≠ c) ∧
    (∀ m ∈ (ChatHandler.DeleteUserFromChat (some list) (some c) (World.ok s)).2.store.messages,
        m.ChatId ≠ c) := by
  rw [ChatHandler.DeleteUserFromChat_ok] at hempty ⊢
  simp only [ChatService.GetUsers, ChatRepository.GetUsers_ok] at hempty
  by_cases h : (sqlChatUsers (sqlDeleteChatUser list.UserId c s) c).length = 0
  · simp only [h, if_true]
    constructor
    · intro ch hch
      simp only [purged, sqlDeleteMessages, sqlDeleteChat, World.ok, List.mem_filter,
        decide_eq_true_eq] at hch
      exact hch.2
    · intro m hm
      simp only [purged, sqlDeleteMessages, sqlDeleteChat, World.ok, List.mem_filter,
        decide_eq_true_eq] at hm
      exact hm.2
  · simp only [h, if_false] at hempty
    exfalso
    apply h
    have : sqlChatUsers (sqlDeleteChatUser list.UserId c s) c = [] := by
      simpa using hempty
    rw [this]
    rfl

/-- Witness of C6: user 1 leaves the private chat 7 of which they were the only member. -/
theorem DeleteUserFromChat_cascade_witness :
    (∀ ch ∈ (ChatHandler.DeleteUserFromChat (some ⟨0, 0, 1⟩) (some 7)
        (World.ok exPersonal)).2.store.chats, ch.Id ≠ 7) ∧
    (∀ m ∈ (ChatHandler.DeleteUserFromChat (some ⟨0, 0, 1⟩) (some 7)
        (World.ok exPersonal)).2.store.messages, m.ChatId ≠ 7) :=
  DeleteUserFromChat_cascade exPersonal ⟨0, 0, 1⟩ 7 rfl

/-- C9: frame of a removal that leaves a member.  If after a successful `DeleteUserFromChat`
request for chat `c` and user `list.UserId` the call `GetUsers c` still lists a member, the
request answered 200 and the store differs from the one before only in the membership
table, from which exactly the rows of that user in `c` are gone: chats, messages, users,
relationship edges and every other membership row are unchanged. -/
theorem DeleteUserFromChat_frame (s : Store) (list : ChatUsers) (c : Int)
    (hsome : ∃ users, users ≠ [] ∧ (ChatService.GetUsers c
      (ChatHandler.DeleteUserFromChat (some list) (some c) (World.ok s)).2).1 = .ok users) :
    (ChatHandler.DeleteUserFromChat (some list) (some c) (World.ok s)).1
      = .json 200 (.message ("user with id " ++ toString list.UserId ++
          " deleted from chat with id " ++ toString c)) ∧
    (ChatHandler.DeleteUserFromChat (some list) (some c) (World.ok s)).2.store
      = { s with chatUsers :=
            s.chatUsers.filter fun cu => ¬ (cu.UserId = list.UserId ∧ cu.ChatId = c) } := by
  obtain ⟨users, hne, hget⟩ := hsome
  rw [ChatHandler.DeleteUserFromChat_ok] at hget ⊢
  simp only [ChatService.GetUsers, ChatRepository.GetUsers_ok] at hget
  by_cases h : (sqlChatUsers (sqlDeleteChatUser list.UserId c s) c).length = 0
  · exfalso
    simp only [h, if_true, sqlChatUsers_purged] at hget
    have : sqlChatUsers (sqlDeleteChatUser list.UserId c s) c = users := by
      simpa using hget
    rw [this] at h
    exact hne (List.length_eq_zero.mp h)
  · rw [if_neg h]
    exact ⟨rfl, rfl⟩

/-- Witness of C9: user 1 leaves chat 7, in which user 2 stays. -/
theorem DeleteUserFromChat_frame_witness :
    (ChatHandler.DeleteUserFromChat (some ⟨0, 0, 1⟩) (some 7) (World.ok exTwoShared)).1
      = .json 200 (.message ("user with id " ++ toString (1 : Int) ++
          " deleted from chat with id " ++ toString (7 : Int))) ∧
    (ChatHandler.DeleteUserFromChat (some ⟨0, 0, 1⟩) (some 7) (World.ok exTwoShared)).2.store
      = { exTwoShared with chatUsers :=
            exTwoShared.chatUsers.filter fun cu => ¬ (cu.UserId = 1 ∧ cu.ChatId = 7) } :=
  DeleteUserFromChat_frame exTwoShared ⟨0, 0, 1⟩ 7
    ⟨[⟨2, "bob", "", ""⟩], by decide, rfl⟩

/-! ## Deleting a chat (C7) -/

theorem ChatHandler.deleteUsers_ok (c : Int) (users : List User) (s : Store) :
    ChatHandler.deleteUsers c users (World.ok s)
      = (none, World.ok (removedMembers c (users.map User.Id) s)) := by
  induction users generalizing s with
  | nil =>
    simp only [ChatHandler.deleteUsers, removedMembers, List.map_nil, List.not_mem_nil,
      and_false, not_false_eq_true, decide_True, List.filter_true]
  | cons u rest ih =>
    simp only [ChatHandler.deleteUsers, ChatService.DeleteUser, ChatRepository.DeleteUser_ok, ih]
    congr 2
    simp only [removedMembers, sqlDeleteChatUser, List.filter_filter, List.map_cons,
      List.mem_cons]
    congr 1
    apply List.filter_congr
    intro cu _
    by_cases h1 : cu.ChatId = c <;> by_cases h2 : cu.UserId = u.Id <;> simp [h1, h2]

theorem mem_sqlChatUsers_ids (s : Store) (c x : Int) :
    x ∈ (sqlChatUsers s c).map User.Id ↔
      (∃ u ∈ s.users, u.Id = x) ∧
        ∃ cu ∈ s.chatUsers, cu.UserId = x ∧ cu.ChatId = c := by
  simp only [sqlChatUsers, List.mem_map, List.mem_flatMap, List.mem_filter, decide_eq_true_eq]
  constructor
  · rintro ⟨v, ⟨u, hu, ⟨cu, ⟨hcu, h1, h2⟩, rfl⟩⟩, rfl⟩
    exact ⟨⟨u, hu, rfl⟩, cu, hcu, h1.symm, h2⟩
  · rintro ⟨⟨u, hu, rfl⟩, cu, hcu, h1, h2⟩
    exact ⟨u.public, ⟨u, hu, cu, ⟨hcu, h1.symm, h2⟩, rfl⟩, rfl⟩

theorem removedMembers_members (c : Int) (s : Store) (us : List Int)
    (hus : ∀ x, x ∈ us ↔ x ∈ (sqlChatUsers s c).map User.Id) :
    removedMembers c us s
      = { s with chatUsers := s.chatUsers.filter fun cu =>
            ¬ (cu.ChatId = c ∧ ∃ u ∈ s.users, u.Id = cu.UserId) } := by
  unfold removedMembers
  congr 1
  apply List.filter_congr
  intro cu hcu
  have := mem_sqlChatUsers_ids s c cu.UserId
  by_cases h1 : cu.ChatId = c
  · have h3 : (cu.UserId ∈ us) ↔ ∃ u ∈ s.users, u.Id = cu.UserId := by
      rw [hus, this]
      constructor
      · exact fun h => h.1
      · exact fun h => ⟨h, cu, hcu, rfl, h1⟩
    simp only [h1, true_and, h3]
  · simp [h1]

theorem ChatHandler.DeleteChat_ok (c : Int) (s : Store) :
    ChatHandler.DeleteChat (some c) (World.ok s)
      = (.json 200 (.message ("chat with id " ++ toString c ++ " deleted")),
          World.ok (purged c (removedMembers c ((sqlChatUsers s c).map User.Id) s))) := by
  unfold ChatHandler.DeleteChat
  simp only [ChatService.GetUsers, ChatService.Delete, ChatService.DeleteAllMessages,
    ChatRepository.GetUsers_ok, ChatHandler.deleteUsers_ok, ChatRepository.Delete_ok,
    ChatRepository.DeleteAllMessages_ok]
  rfl

/-- C7 (amended): after a `DeleteChat` request for chat `c` in which every store call
succeeds, the response is 200, no chat row has id `c`, no message has chat id `c`, and no
membership row of `c` whose user id belongs to a stored user remains; the store differs
from the one before in nothing else (membership rows of `c` whose user id has no user row
stay). -/
theorem DeleteChat_effect (s : Store) (c : Int) :
    (ChatHandler.DeleteChat (some c) (World.ok s)).1
      = .json 200 (.message ("chat with id " ++ toString c ++ " deleted")) ∧
    (∀ ch ∈ (ChatHandler.DeleteChat (some c) (World.ok s)).2.store.chats, ch.Id ≠ c) ∧
    (∀ m ∈ (ChatHandler.DeleteChat (some c) (World.ok s)).2.store.messages, m.ChatId ≠ c) ∧
    (∀ cu ∈ (ChatHandler.DeleteChat (some c) (World.ok s)).2.store.chatUsers,
        cu.ChatId = c → ¬ ∃ u ∈ s.users, u.Id = cu.UserId) ∧
    (ChatHandler.DeleteChat (some c) (World.ok s)).2.store
      = { s with
          chats := s.chats.filter fun ch => ch.Id ≠ c
          messages := s.messages.filter fun m => m.ChatId ≠ c
          chatUsers := s.chatUsers.filter fun cu =>
            ¬ (cu.ChatId = c ∧ ∃ u ∈ s.users, u.Id = cu.UserId) } := by
  rw [ChatHandler.DeleteChat_ok, removedMembers_members c s _ (fun _ => Iff.rfl)]
  refine ⟨rfl, ?_, ?_, ?_, rfl⟩
  · intro ch hch
    simp only [purged, sqlDeleteMessages, sqlDeleteChat, World.ok, List.mem_filter,
      decide_eq_true_eq] at hch
    exact hch.2
  · intro m hm
    simp only [purged, sqlDeleteMessages, sqlDeleteChat, World.ok, List.mem_filter,
      decide_eq_true_eq] at hm
    exact hm.2
  · intro cu hcu hc hu
    simp only [purged, sqlDeleteMessages, sqlDeleteChat, World.ok, List.mem_filter,
      decide_eq_true_eq] at hcu
    exact hcu.2 ⟨hc, hu⟩

/-- C7 as stated fails: chat 4 has a membership row of the id 9, which has no user row;
`GetUsers 4` does not list it, `DeleteChat 4` answers 200 and the row is still there. -/
theorem DeleteChat_leaves_membership :
    (ChatHandler.DeleteChat (some 4) (World.ok exGhostMember)).1
      = .json 200 (.message "chat with id 4 deleted") ∧
    (⟨1, 4, 9⟩ : ChatUsers) ∈
      (ChatHandler.DeleteChat (some 4) (World.ok exGhostMember)).2.store.chatUsers := by
  refine ⟨rfl, ?_⟩
  decide

/-! ## The two cascades converge (C8) -/

theorem sqlDeleteChatUser_removedMembers (c u : Int) (us : List Int) (s : Store) :
    sqlDeleteChatUser u c (removedMembers c us s) = removedMembers c (us ++ [u]) s := by
  simp only [removedMembers, sqlDeleteChatUser, List.filter_filter, List.mem_append,
    List.mem_singleton]
  congr 1
  apply List.filter_congr
  intro cu _
  by_cases h1 : cu.ChatId = c <;> by_cases h2 : cu.UserId = u <;> simp [h1, h2]

theorem sqlDeleteChatUser_purged (c u : Int) (s : Store) :
    sqlDeleteChatUser u c (purged c s) = purged c (sqlDeleteChatUser u c s) := rfl

theorem purged_purged (c : Int) (s : Store) : purged c (purged c s) = purged c s := by
  simp [purged, sqlDeleteMessages, sqlDeleteChat, List.filter_filter]

theorem removedMembers_congr (c : Int) (s : Store) (us vs : List Int)
    (h : ∀ x, x ∈ us ↔ x ∈ vs) : removedMembers c us s = removedMembers c vs s := by
  unfold removedMembers
  congr 1
  apply List.filter_congr
  intro cu _
  simp only [h]

/-- One request of the run: the state stays of one of two shapes, and takes the purged
shape as soon as no member is left. -/
theorem removeOneByOne_shape (c : Int) (s : Store) (reqs : List ChatUsers) :
    (removeOneByOne c reqs (World.ok s)
        = World.ok (removedMembers c (reqs.map ChatUsers.UserId) s) ∨
      removeOneByOne c reqs (World.ok s)
        = World.ok (purged c (removedMembers c (reqs.map ChatUsers.UserId) s))) ∧
    (reqs ≠ [] →
      (sqlChatUsers (removedMembers c (reqs.map ChatUsers.UserId) s) c).length = 0 →
      removeOneByOne c reqs (World.ok s)
        = World.ok (purged c (removedMembers c (reqs.map ChatUsers.UserId) s))) := by
  induction reqs using List.reverseRecOn with
  | nil =>
    refine ⟨Or.inl ?_, fun h => absurd rfl h⟩
    simp [removeOneByOne, removedMembers]
  | append_singleton rest list ih =>
    have hstep : removeOneByOne c (rest ++ [list]) (World.ok s)
        = (ChatHandler.DeleteUserFromChat (some list) (some c)
            (removeOneByOne c rest (World.ok s))).2 := by
      simp [removeOneByOne, List.foldl_append]
    rw [hstep, List.map_append, List.map_cons, List.map_nil]
    rcases ih.1 with h | h
    · rw [h, ChatHandler.DeleteUserFromChat_ok, sqlDeleteChatUser_removedMembers]
      by_cases hz : (sqlChatUsers (removedMembers c (rest.map ChatUsers.UserId ++ [list.UserId]) s)
          c).length = 0
      · rw [if_pos hz]
        exact ⟨Or.inr rfl, fun _ _ => rfl⟩
      · rw [if_neg hz]
        exact ⟨Or.inl rfl, fun _ h0 => absurd h0 hz⟩
    · rw [h, ChatHandler.DeleteUserFromChat_ok, sqlDeleteChatUser_purged,
        sqlDeleteChatUser_removedMembers, sqlChatUsers_purged, purged_purged]
      rw [ite_self]
      exact ⟨Or.inr rfl, fun _ _ => rfl⟩

theorem sqlChatUsers_removedMembers_all (c : Int) (s : Store) (us : List Int)
    (hus : ∀ x, x ∈ (sqlChatUsers s c).map User.Id → x ∈ us) :
    (sqlChatUsers (removedMembers c us s) c).length = 0 := by
  rw [List.length_eq_zero, List.eq_nil_iff_forall_not_mem]
  intro v hv
  have hid : v.Id ∈ (sqlChatUsers (removedMembers c us s) c).map User.Id :=
    List.mem_map_of_mem _ hv
  rw [mem_sqlChatUsers_ids] at hid
  obtain ⟨⟨u, hu, hux⟩, cu, hcu, h1, h2⟩ := hid
  simp only [removedMembers, List.mem_filter, decide_eq_true_eq] at hcu
  apply hcu.2
  refine ⟨h2, hus _ ?_⟩
  rw [mem_sqlChatUsers_ids]
  exact ⟨⟨u, hu, hux.trans h1.symm⟩, cu, hcu.1, rfl, h2⟩

/-- C8: the two cascade entry points converge.  For a chat `c` and a non-empty run of
`DeleteUserFromChat` requests naming exactly the members `GetUsers c` lists (in any order),
the run and a single `DeleteChat c` end in the same store when every store call succeeds. -/
theorem DeleteChat_converges (s : Store) (c : Int) (reqs : List ChatUsers) (hne : reqs ≠ [])
    (hmembers : ∀ x, x ∈ reqs.map ChatUsers.UserId ↔ x ∈ (sqlChatUsers s c).map User.Id) :
    removeOneByOne c reqs (World.ok s) = (ChatHandler.DeleteChat (some c) (World.ok s)).2 := by
  rw [ChatHandler.DeleteChat_ok,
    (removeOneByOne_shape c s reqs).2 hne
      (sqlChatUsers_removedMembers_all c s _ (fun x hx => (hmembers x).mpr hx)),
    removedMembers_congr c s _ _ hmembers]

/-- Witness of C8: chat 7 with the members 1 and 2. -/
theorem DeleteChat_converges_witness :
    removeOneByOne 7 [⟨0, 0, 1⟩, ⟨0, 0, 2⟩] (World.ok exTwoShared)
      = (ChatHandler.DeleteChat (some 7) (World.ok exTwoShared)).2 :=
  DeleteChat_converges exTwoShared 7 [⟨0, 0, 1⟩, ⟨0, 0, 2⟩] (by decide) (fun _ => Iff.rfl)

/-! ## Friends (C10) -/

theorem StatusRepository.GetFriends_ok (userId : Int) (s : Store) :
    StatusRepository.GetFriends userId (World.ok s)
      = ((sqlSendersTo s StatusFriends userId ++ sqlRecipientsOf s StatusFriends userId, none),
          World.ok s) := rfl

theorem mem_sqlSendersTo_ids (s : Store) (rel : String) (u x : Int) :
    x ∈ (sqlSendersTo s rel u).map User.Id ↔
      (∃ v ∈ s.users, v.Id = x) ∧
        ∃ e ∈ s.statuses, e.Relationship = rel ∧ e.SenderId = x ∧ e.RecipientId = u := by
  simp only [sqlSendersTo, List.mem_map, List.mem_flatMap, List.mem_filter, decide_eq_true_eq]
  constructor
  · rintro ⟨v, ⟨w, hw, ⟨e, ⟨he, h1, h2, h3⟩, rfl⟩⟩, rfl⟩
    exact ⟨⟨w, hw, rfl⟩, e, he, h2, h1, h3⟩
  · rintro ⟨⟨w, hw, rfl⟩, e, he, h2, h1, h3⟩
    exact ⟨w.public, ⟨w, hw, e, ⟨he, h1, h2, h3⟩, rfl⟩, rfl⟩

theorem mem_sqlRecipientsOf_ids (s : Store) (rel : String) (u x : Int) :
    x ∈ (sqlRecipientsOf s rel u).map User.Id ↔
      (∃ v ∈ s.users, v.Id = x) ∧
        ∃ e ∈ s.statuses, e.Relationship = rel ∧ e.SenderId = u ∧ e.RecipientId = x := by
  simp only [sqlRecipientsOf, List.mem_map, List.mem_flatMap, List.mem_filter,
    decide_eq_true_eq]
  constructor
  · rintro ⟨v, ⟨w, hw, ⟨e, ⟨he, h1, h2, h3⟩, rfl⟩⟩, rfl⟩
    exact ⟨⟨w, hw, rfl⟩, e, he, h2, h3, h1⟩
  · rintro ⟨⟨w, hw, rfl⟩, e, he, h2, h3, h1⟩
    exact ⟨w.public, ⟨w, hw, e, ⟨he, h1, h2, h3⟩, rfl⟩, rfl⟩

/-- C10: when every store call succeeds `GetFriends u` returns a nil error, and a user id `x`
occurs in the returned list exactly when `x` is the id of a stored user and the store holds
an edge of kind friends from `u` to `x` or from `x` to `u`. -/
theorem GetFriends_mem_iff (s : Store) (u x : Int) :
    (StatusRepository.GetFriends u (World.ok s)).1.2 = none ∧
    (x ∈ (StatusRepository.GetFriends u (World.ok s)).1.1.map User.Id ↔
      (∃ v ∈ s.users, v.Id = x) ∧
        ∃ e ∈ s.statuses, e.Relationship = StatusFriends ∧
          ((e.SenderId = u ∧ e.RecipientId = x) ∨ (e.SenderId = x ∧ e.RecipientId = u))) := by
  rw [StatusRepository.GetFriends_ok]
  refine ⟨rfl, ?_⟩
  simp only [List.map_append, List.mem_append, mem_sqlSendersTo_ids, mem_sqlRecipientsOf_ids]
  constructor
  · rintro (⟨hv, e, he, h1, h2, h3⟩ | ⟨hv, e, he, h1, h2, h3⟩)
    · exact ⟨hv, e, he, h1, Or.inr ⟨h2, h3⟩⟩
    · exact ⟨hv, e, he, h1, Or.inl ⟨h2, h3⟩⟩
  · rintro ⟨hv, e, he, h1, (⟨h2, h3⟩ | ⟨h2, h3⟩)⟩
    · exact Or.inr ⟨hv, e, he, h1, h2, h3⟩
    · exact Or.inl ⟨hv, e, he, h1, h2, h3⟩

/-! ## Relationship views (C11, C12, C16) -/

@[simp] theorem StatusRepository.AddStatus_ok (status : Status) (s : Store) :
    StatusRepository.AddStatus status (World.ok s)
      = (.ok (if status.Id = 0 then s.nextStatusId else status.Id),
          World.ok (sqlInsertStatus status s)) := rfl

@[simp] theorem StatusRepository.UpdateStatus_ok (status : Status) (s : Store) :
    StatusRepository.UpdateStatus status (World.ok s)
      = (none, World.ok (sqlUpdateStatus status s)) := rfl

@[simp] theorem StatusRepository.DeleteStatus_ok (status : Status) (s : Store) :
    StatusRepository.DeleteStatus status (World.ok s)
      = (some recordNotFound, World.ok (sqlDeleteStatus status s)) := rfl

/-- Adding an edge leaves the senders-side view of `u` for the kind `rel` as it was, unless
the edge has that kind and goes to `u`. -/
theorem sqlSendersTo_insert (status : Status) (s : Store) (rel : String) (u : Int)
    (h : ¬ (status.Relationship = rel ∧ status.RecipientId = u)) :
    sqlSendersTo (sqlInsertStatus status s) rel u = sqlSendersTo s rel u := by
  unfold sqlSendersTo sqlInsertStatus
  apply List.flatMap_congr
  intro v _
  simp only [List.filter_append]
  have : ([({ Id := if status.Id = 0 then s.nextStatusId else status.Id
              SenderId := status.SenderId
              RecipientId := status.RecipientId
              Relationship := status.Relationship } : Status)].filter fun chul =>
      decide (chul.SenderId = v.Id ∧ chul.Relationship = rel ∧ chul.RecipientId = u)) = [] := by
    rw [List.filter_eq_nil_iff]
    intro e he
    simp only [List.mem_singleton] at he
    subst he
    simp only [decide_eq_true_eq, not_and]
    intro _ h1 h2
    exact h ⟨h1, h2⟩
  rw [this, List.append_nil]

/-- Adding an edge leaves the recipients-side view of `u` for the kind `rel` as it was,
unless the edge has that kind and comes from `u`. -/
theorem sqlRecipientsOf_insert (status : Status) (s : Store) (rel : String) (u : Int)
    (h : ¬ (status.Relationship = rel ∧ status.SenderId = u)) :
    sqlRecipientsOf (sqlInsertStatus status s) rel u = sqlRecipientsOf s rel u := by
  unfold sqlRecipientsOf sqlInsertStatus
  apply List.flatMap_congr
  intro v _
  simp only [List.filter_append]
  have : ([({ Id := if status.Id = 0 then s.nextStatusId else status.Id
              SenderId := status.SenderId
              RecipientId := status.RecipientId
              Relationship := status.Relationship } : Status)].filter fun chul =>
      decide (chul.RecipientId = v.Id ∧ chul.Relationship = rel ∧ chul.SenderId = u)) = [] := by
    rw [List.filter_eq_nil_iff]
    intro e he
    simp only [List.mem_singleton] at he
    subst he
    simp only [decide_eq_true_eq, not_and]
    intro _ h1 h2
    exact h ⟨h1, h2⟩
  rw [this, List.append_nil]

/-- The inserted edge is in the store, with the sender, recipient and kind asked for. -/
theorem mem_sqlInsertStatus (status : Status) (s : Store) :
    ∃ e ∈ (sqlInsertStatus status s).statuses, e.Relationship = status.Relationship ∧
      e.SenderId = status.SenderId ∧ e.RecipientId = status.RecipientId := by
  refine ⟨{ Id := if status.Id = 0 then s.nextStatusId else status.Id
            SenderId := status.SenderId
            RecipientId := status.RecipientId
            Relationship := status.Relationship }, ?_, rfl, rfl, rfl⟩
  exact List.mem_append_right _ (List.mem_singleton.mpr rfl)

/-- C11: friend symmetry.  For stored users `a` and `b`, if the store holds an edge of kind
friends from `a` to `b`, then `b` is in `GetFriends a` and `a` is in `GetFriends b`. -/
theorem GetFriends_symmetric (s : Store) (a b : Int)
    (ha : ∃ u ∈ s.users, u.Id = a) (hb : ∃ u ∈ s.users, u.Id = b)
    (hedge : ∃ e ∈ s.statuses,
      e.SenderId = a ∧ e.RecipientId = b ∧ e.Relationship = StatusFriends) :
    b ∈ (StatusRepository.GetFriends a (World.ok s)).1.1.map User.Id ∧
    a ∈ (StatusRepository.GetFriends b (World.ok s)).1.1.map User.Id := by
  obtain ⟨e, he, h1, h2, h3⟩ := hedge
  simp only [StatusRepository.GetFriends_ok, List.map_append, List.mem_append,
    mem_sqlSendersTo_ids, mem_sqlRecipientsOf_ids]
  exact ⟨Or.inr ⟨hb, e, he, h3, h1, h2⟩, Or.inl ⟨ha, e, he, h3, h1, h2⟩⟩

/-- Witness of C11: the friends edge 1→2 between the stored users 1 and 2. -/
theorem GetFriends_symmetric_witness :
    (2 : Int) ∈ (StatusRepository.GetFriends 1 (World.ok exFriends)).1.1.map User.Id ∧
    (1 : Int) ∈ (StatusRepository.GetFriends 2 (World.ok exFriends)).1.1.map User.Id :=
  GetFriends_symmetric exFriends 1 2 (by decide) (by decide) (by decide)

/-- C12: blacklist asymmetry.  For distinct stored users `a` and `b`, a successful
`AddToBlackList` request by `a` against `b` answers 200; afterwards `b` is in
`GetBlackList a` and `a` is in `GetBlackListToUser b`, while `GetBlackList b` and
`GetBlackListToUser a` return what they returned before. -/
theorem AddToBlackList_asymmetric (s : Store) (a b : Int) (hab : a ≠ b)
    (ha : ∃ u ∈ s.users, u.Id = a) (hb : ∃ u ∈ s.users, u.Id = b) :
    (UsersHandler.AddToBlackList a (some b) (World.ok s)).1 = .json 200 (.id s.nextStatusId) ∧
    (∃ list, (StatusRepository.GetBlackList a
        (UsersHandler.AddToBlackList a (some b) (World.ok s)).2).1 = .ok list ∧
      b ∈ list.map User.Id) ∧
    (∃ list, (StatusRepository.GetBlackListToUser b
        (UsersHandler.AddToBlackList a (some b) (World.ok s)).2).1 = .ok list ∧
      a ∈ list.map User.Id) ∧
    (StatusRepository.GetBlackList b (UsersHandler.AddToBlackList a (some b) (World.ok s)).2).1
      = (StatusRepository.GetBlackList b (World.ok s)).1 ∧
    (StatusRepository.GetBlackListToUser a
        (UsersHandler.AddToBlackList a (some b) (World.ok s)).2).1
      = (StatusRepository.GetBlackListToUser a (World.ok s)).1 := by
  have hrun : UsersHandler.AddToBlackList a (some b) (World.ok s)
      = (.json 200 (.id s.nextStatusId),
          World.ok (sqlInsertStatus ⟨0, a, b, StatusBL⟩ s)) := by
    simp [UsersHandler.AddToBlackList, StatusService.AddStatus]
  have husers : (sqlInsertStatus ⟨0, a, b, StatusBL⟩ s).users = s.users := rfl
  obtain ⟨e, he, h1, h2, h3⟩ := mem_sqlInsertStatus ⟨0, a, b, StatusBL⟩ s
  rw [hrun]
  refine ⟨rfl, ⟨_, rfl, ?_⟩, ⟨_, rfl, ?_⟩, ?_, ?_⟩
  · rw [mem_sqlRecipientsOf_ids]
    exact ⟨husers ▸ hb, e, he, h1, h2, h3⟩
  · rw [mem_sqlSendersTo_ids]
    exact ⟨husers ▸ ha, e, he, h1, h2, h3⟩
  · simp only [StatusRepository.GetBlackList, World.query_ok]
    rw [sqlRecipientsOf_insert]
    exact fun h => hab h.2
  · simp only [StatusRepository.GetBlackListToUser, World.query_ok]
    rw [sqlSendersTo_insert]
    exact fun h => hab h.2.symm

/-- Witness of C12: user 1 blocks user 3. -/
theorem AddToBlackList_asymmetric_witness :
    (UsersHandler.AddToBlackList 1 (some 3) (World.ok exEdges)).1 = .json 200 (.id 5) ∧
    (StatusRepository.GetBlackList 3
        (UsersHandler.AddToBlackList 1 (some 3) (World.ok exEdges)).2).1
      = (StatusRepository.GetBlackList 3 (World.ok exEdges)).1 :=
  ⟨(AddToBlackList_asymmetric exEdges 1 3 (by decide) (by decide) (by decide)).1,
    (AddToBlackList_asymmetric exEdges 1 3 (by decide) (by decide) (by decide)).2.2.2.1⟩

/-- C16: for stored users `a` and `b`, a successful `InvitedToFriends` request by `a` for
`b` answers 200; afterwards `a` is in `GetInvites b` and `b` is in `GetSentInvites a`, and
for every user `GetFriends`, `GetBlackList` and `GetBlackListToUser` return what they
returned before. -/
theorem InvitedToFriends_views (s : Store) (a b : Int)
    (ha : ∃ u ∈ s.users, u.Id = a) (hb : ∃ u ∈ s.users, u.Id = b) :
    (UsersHandler.InvitedToFriends a (some b) (World.ok s)).1
      = .json 200 (.id s.nextStatusId) ∧
    (∃ list, (StatusRepository.GetInvites b
        (UsersHandler.InvitedToFriends a (some b) (World.ok s)).2).1 = .ok list ∧
      a ∈ list.map User.Id) ∧
    (∃ list, (StatusRepository.GetSentInvites a
        (UsersHandler.InvitedToFriends a (some b) (World.ok s)).2).1 = .ok list ∧
      b ∈ list.map User.Id) ∧
    ∀ u,
      (StatusRepository.GetFriends u (UsersHandler.InvitedToFriends a (some b) (World.ok s)).2).1
        = (StatusRepository.GetFriends u (World.ok s)).1 ∧
      (StatusRepository.GetBlackList u
          (UsersHandler.InvitedToFriends a (some b) (World.ok s)).2).1
        = (StatusRepository.GetBlackList u (World.ok s)).1 ∧
      (StatusRepository.GetBlackListToUser u
          (UsersHandler.InvitedToFriends a (some b) (World.ok s)).2).1
        = (StatusRepository.GetBlackListToUser u (World.ok s)).1 := by
  have hrun : UsersHandler.InvitedToFriends a (some b) (World.ok s)
      = (.json 200 (.id s.nextStatusId),
          World.ok (sqlInsertStatus ⟨0, a, b, StatusInvitation⟩ s)) := by
    simp [UsersHandler.InvitedToFriends, StatusService.AddStatus]
  have husers : (sqlInsertStatus ⟨0, a, b, StatusInvitation⟩ s).users = s.users := rfl
  obtain ⟨e, he, h1, h2, h3⟩ := mem_sqlInsertStatus ⟨0, a, b, StatusInvitation⟩ s
  have hf : ¬ StatusInvitation = StatusFriends := by decide
  have hbl : ¬ StatusInvitation = StatusBL := by decide
  rw [hrun]
  refine ⟨rfl, ⟨_, rfl, ?_⟩, ⟨_, rfl, ?_⟩, ?_⟩
  · rw [mem_sqlSendersTo_ids]
    exact ⟨husers ▸ ha, e, he, h1, h2, h3⟩
  · rw [mem_sqlRecipientsOf_ids]
    exact ⟨husers ▸ hb, e, he, h1, h2, h3⟩
  · intro u
    refine ⟨?_, ?_, ?_⟩
    · simp only [StatusRepository.GetFriends_ok]
      rw [sqlSendersTo_insert _ _ _ _ (fun h => hf h.1),
        sqlRecipientsOf_insert _ _ _ _ (fun h => hf h.1)]
    · simp only [StatusRepository.GetBlackList, World.query_ok]
      rw [sqlRecipientsOf_insert _ _ _ _ (fun h => hbl h.1)]
    · simp only [StatusRepository.GetBlackListToUser, World.query_ok]
      rw [sqlSendersTo_insert _ _ _ _ (fun h => hbl h.1)]

/-- Witness of C16: user 1 invites user 3. -/
theorem InvitedToFriends_views_witness :
    (UsersHandler.InvitedToFriends 1 (some 3) (World.ok exEdges)).1 = .json 200 (.id 5) ∧
    (StatusRepository.GetFriends 2
        (UsersHandler.InvitedToFriends 1 (some 3) (World.ok exEdges)).2).1
      = (StatusRepository.GetFriends 2 (World.ok exEdges)).1 :=
  ⟨(InvitedToFriends_views exEdges 1 3 (by decide) (by decide)).1,
    ((InvitedToFriends_views exEdges 1 3 (by decide) (by decide)).2.2.2 2).1⟩

/-! ## Deleting and updating edges (C13, C14, C15, C17) -/

/-- The rows `DeleteStatus` keeps: those it does not match, unchanged. -/
theorem mem_sqlDeleteStatus (status : Status) (s : Store) (e : Status) :
    e ∈ (sqlDeleteStatus status s).statuses ↔
      e ∈ s.statuses ∧
        ¬ ((e.Relationship = status.Relationship ∧
              (e.RecipientId = status.SenderId ∧ e.SenderId = status.RecipientId)) ∨
            (e.SenderId = status.SenderId ∧ e.RecipientId = status.RecipientId)) := by
  simp only [sqlDeleteStatus, List.mem_filter, decide_eq_true_eq]

/-- C13 (amended): `DeleteStatus` with sender `S`, recipient `R` and kind `K`, when the
store call succeeds, leaves exactly the edges that neither go from `S` to `R` nor go from
`R` to `S` with kind `K`, each as it was: an edge is in the store afterwards if and only if
it was there before and is of neither form.  So every edge `R`→`S` of kind `K` and every
edge `S`→`R` is deleted.  The same holds for a `DeleteFromBlacklist` request by `S` against
`R`, whose kind is black_list: it keeps every edge that is neither `S`→`R` nor
(`R`→`S`, black_list) and removes every edge (`R`→`S`, black_list). -/
theorem DeleteStatus_frame (status : Status) (s : Store) (e : Status) :
    (e ∈ (StatusRepository.DeleteStatus status (World.ok s)).2.store.statuses ↔
      e ∈ s.statuses ∧
        ¬ (e.SenderId = status.SenderId ∧ e.RecipientId = status.RecipientId) ∧
        ¬ (e.SenderId = status.RecipientId ∧ e.RecipientId = status.SenderId ∧
            e.Relationship = status.Relationship)) ∧
    (e.SenderId = status.RecipientId ∧ e.RecipientId = status.SenderId ∧
        e.Relationship = status.Relationship →
      e ∉ (StatusRepository.DeleteStatus status (World.ok s)).2.store.statuses) ∧
    (e ∈ (UsersHandler.DeleteFromBlacklist status.SenderId (some status.RecipientId)
          (World.ok s)).2.store.statuses ↔
      e ∈ s.statuses ∧
        ¬ (e.SenderId = status.SenderId ∧ e.RecipientId = status.RecipientId) ∧
        ¬ (e.SenderId = status.RecipientId ∧ e.RecipientId = status.SenderId ∧
            e.Relationship = StatusBL)) ∧
    (e.SenderId = status.RecipientId ∧ e.RecipientId = status.SenderId ∧
        e.Relationship = StatusBL →
      e ∉ (UsersHandler.DeleteFromBlacklist status.SenderId (some status.RecipientId)
          (World.ok s)).2.store.statuses) := by
  have key : ∀ st : Status, e ∈ (sqlDeleteStatus st s).statuses ↔
      e ∈ s.statuses ∧
        ¬ (e.SenderId = st.SenderId ∧ e.RecipientId = st.RecipientId) ∧
        ¬ (e.SenderId = st.RecipientId ∧ e.RecipientId = st.SenderId ∧
            e.Relationship = st.Relationship) := by
    intro st
    rw [mem_sqlDeleteStatus]
    constructor
    · rintro ⟨he, hno⟩
      exact ⟨he, fun h => hno (Or.inr h), fun h => hno (Or.inl ⟨h.2.2, h.2.1, h.1⟩)⟩
    · rintro ⟨he, hfwd, hrev⟩
      refine ⟨he, ?_⟩
      rintro (⟨h0, h1, h2⟩ | h)
      · exact hrev ⟨h2, h1, h0⟩
      · exact hfwd h
  have hrepo : (StatusRepository.DeleteStatus status (World.ok s)).2.store
      = sqlDeleteStatus status s := rfl
  have hhandler : (UsersHandler.DeleteFromBlacklist status.SenderId (some status.RecipientId)
      (World.ok s)).2.store
      = sqlDeleteStatus ⟨0, status.SenderId, status.RecipientId, StatusBL⟩ s := rfl
  rw [hrepo, hhandler]
  refine ⟨key status, fun h hmem => ((key status).mp hmem).2.2 h,
    key ⟨0, status.SenderId, status.RecipientId, StatusBL⟩, fun h hmem =>
      ((key ⟨0, status.SenderId, status.RecipientId, StatusBL⟩).mp hmem).2.2 h⟩

/-- Witness of C13, on the edges of users 1, 2 and 3: deleting (1→2, black_list) keeps
the edge (3→2, black_list) and removes the edge (2→1, black_list). -/
theorem DeleteStatus_frame_witness :
    (⟨4, 3, 2, "black_list"⟩ : Status) ∈
      (StatusRepository.DeleteStatus ⟨0, 1, 2, "black_list"⟩
        (World.ok exEdges)).2.store.statuses ∧
    (⟨4, 3, 2, "black_list"⟩ : Status) ∈
      (UsersHandler.DeleteFromBlacklist 1 (some 2) (World.ok exEdges)).2.store.statuses ∧
    (⟨3, 2, 1, "black_list"⟩ : Status) ∉
      (UsersHandler.DeleteFromBlacklist 1 (some 2) (World.ok exEdges)).2.store.statuses :=
  ⟨(DeleteStatus_frame ⟨0, 1, 2, "black_list"⟩ exEdges ⟨4, 3, 2, "black_list"⟩).1.mpr
      ⟨by decide, by decide, by decide⟩,
    (DeleteStatus_frame ⟨0, 1, 2, "black_list"⟩ exEdges ⟨4, 3, 2, "black_list"⟩).2.2.1.mpr
      ⟨by decide, by decide, by decide⟩,
    (DeleteStatus_frame ⟨0, 1, 2, "black_list"⟩ exEdges ⟨3, 2, 1, "black_list"⟩).2.2.2
      ⟨rfl, rfl, rfl⟩⟩

/-- C13 as stated fails: users 1 and 2 block each other; after `DeleteFromBlacklist` by 1
against 2 the edge (2→1, black_list), whose ordered pair is not (1, 2), is gone. -/
theorem DeleteFromBlacklist_removes_reverse_block :
    (⟨3, 2, 1, "black_list"⟩ : Status) ∈ exEdges.statuses ∧
    (⟨3, 2, 1, "black_list"⟩ : Status) ∉
      (UsersHandler.DeleteFromBlacklist 1 (some 2) (World.ok exEdges)).2.store.statuses ∧
    (⟨3, 2, 1, "black_list"⟩ : Status) ∉
      (StatusRepository.DeleteStatus ⟨0, 1, 2, "black_list"⟩
        (World.ok exEdges)).2.store.statuses := by
  decide

/-- C14, the code at the failing input: user 1 has an invitation edge and a black_list edge
to user 2; `CancelInvite` by 1 against 2 deletes both, and only the edges (2→1, black_list)
and (3→2, black_list) are left. -/
theorem CancelInvite_removes_other_kinds :
    (⟨2, 1, 2, "black_list"⟩ : Status) ∈ exEdges.statuses ∧
    (⟨2, 1, 2, "black_list"⟩ : Status) ∉
      (UsersHandler.CancelInvite 1 (some 2) (World.ok exEdges)).2.store.statuses ∧
    (UsersHandler.CancelInvite 1 (some 2) (World.ok exEdges)).2.store.statuses
      = [⟨3, 2, 1, "black_list"⟩, ⟨4, 3, 2, "black_list"⟩] := by
  decide

/-- C15, the code at the failing input: the store holds the invitation 1→2 and three
black_list edges; `AcceptInvitation` by 2 for 1 answers 200 and every row of the table is
then an edge of kind friends from 1 to 2. -/
theorem AcceptInvitation_rewrites_every_edge :
    (UsersHandler.AcceptInvitation 2 (some 1) (World.ok exEdges)).1
      = .json 200 (.message "invitation accepted") ∧
    (UsersHandler.AcceptInvitation 2 (some 1) (World.ok exEdges)).2.store.statuses
      = [⟨1, 1, 2, "friends"⟩, ⟨2, 1, 2, "friends"⟩, ⟨3, 1, 2, "friends"⟩,
          ⟨4, 1, 2, "friends"⟩] := by
  decide

/-- C17: a `CancelInvite` request by `s` against `r` and a `RefuseInvitation` request by `r`
against `s` both leave the world that `DeleteStatus` with the triple
(`s`, `r`, invitation) leaves, for every store and every outcome of the store call. -/
theorem CancelInvite_eq_RefuseInvitation (s r : Int) (w : World) :
    (UsersHandler.CancelInvite s (some r) w).2
      = (StatusService.DeleteStatus ⟨0, s, r, StatusInvitation⟩ w).2 ∧
    (UsersHandler.RefuseInvitation r (some s) w).2
      = (StatusService.DeleteStatus ⟨0, s, r, StatusInvitation⟩ w).2 ∧
    (UsersHandler.CancelInvite s (some r) w).2
      = (UsersHandler.RefuseInvitation r (some s) w).2 := by
  have h1 : (UsersHandler.CancelInvite s (some r) w).2
      = (StatusService.DeleteStatus ⟨0, s, r, StatusInvitation⟩ w).2 := by
    unfold UsersHandler.CancelInvite
    simp only
    split <;> simp_all
  have h2 : (UsersHandler.RefuseInvitation r (some s) w).2
      = (StatusService.DeleteStatus ⟨0, s, r, StatusInvitation⟩ w).2 := by
    unfold UsersHandler.RefuseInvitation
    simp only
    split <;> simp_all
  exact ⟨h1, h2, h1.trans h2.symm⟩

/-! ## `GetFriends` as a set (C18) -/

theorem count_map_filter {α : Type} (l : List α) (f : α → Int) (q : α → Prop)
    [DecidablePred q] (x : Int) :
    ((l.filter fun e => q e).map f).count x = (l.filter fun e => f e = x ∧ q e).length := by
  induction l with
  | nil => rfl
  | cons a rest ih =>
    by_cases hq : q a <;> by_cases hf : f a = x <;>
      simp [List.filter_cons, hq, hf, ih, List.count_cons]

/-- How often an id occurs in a join of the users with the rows selected by `p`. -/
theorem count_join_ids (users : List User) (rows : List Status) (p : User → Status → Prop)
    [∀ v e, Decidable (p v e)] (x : Int) (n : Nat)
    (hn : ∀ v ∈ users, v.Id = x → (rows.filter fun e => p v e).length = n) :
    ((users.flatMap fun v => (rows.filter fun e => p v e).map fun _ => v.public).map
      User.Id).count x = (users.map User.Id).count x * n := by
  induction users with
  | nil => simp
  | cons v rest ih =>
    have ih2 := ih (fun w hw => hn w (List.mem_cons_of_mem _ hw))
    rw [List.flatMap_cons, List.map_append, List.count_append, ih2, List.map_cons,
      List.count_cons, List.map_map]
    by_cases hv : v.Id = x
    · have hlen := hn v (List.mem_cons_self _ _) hv
      have : ((rows.filter fun e => p v e).map (User.Id ∘ fun _ => v.public)).count x = n := by
        rw [← hlen]
        have hc : (User.Id ∘ fun (_ : Status) => v.public) = fun _ => x := by
          funext e
          simp [User.public, hv]
        rw [hc, List.map_const', List.count_replicate_self]
      rw [this]
      simp [hv]
      ring
    · have : ((rows.filter fun e => p v e).map (User.Id ∘ fun _ => v.public)).count x = 0 := by
        apply List.count_eq_zero.mpr
        simp only [List.mem_map, Function.comp, not_exists, not_and]
        intro e _ h
        exact hv h
      rw [this]
      simp [hv]

theorem count_sqlSendersTo_ids (s : Store) (rel : String) (u x : Int) :
    ((sqlSendersTo s rel u).map User.Id).count x
      = (s.users.map User.Id).count x *
        ((s.statuses.filter fun e => e.Relationship = rel ∧ e.RecipientId = u).map
          Status.SenderId).count x := by
  rw [count_map_filter]
  unfold sqlSendersTo
  apply count_join_ids s.users s.statuses
    (fun v e => e.SenderId = v.Id ∧ e.Relationship = rel ∧ e.RecipientId = u)
  intro v _ hv
  rw [hv]

theorem count_sqlRecipientsOf_ids (s : Store) (rel : String) (u x : Int) :
    ((sqlRecipientsOf s rel u).map User.Id).count x
      = (s.users.map User.Id).count x *
        ((s.statuses.filter fun e => e.Relationship = rel ∧ e.SenderId = u).map
          Status.RecipientId).count x := by
  rw [count_map_filter]
  unfold sqlRecipientsOf
  apply count_join_ids s.users s.statuses
    (fun v e => e.RecipientId = v.Id ∧ e.Relationship = rel ∧ e.SenderId = u)
  intro v _ hv
  rw [hv]

/-- C18 (amended): when user ids are unique and no id occurs twice among the other ends of
the friends edges at `u` (senders of the edges into `u`, then recipients of the edges out of
`u`), no user id occurs more than once in the list `GetFriends u` returns. -/
theorem GetFriends_nodup (s : Store) (u : Int) (hkey : (s.users.map User.Id).Nodup)
    (hedges : (friendEnds s u).Nodup) :
    ((StatusRepository.GetFriends u (World.ok s)).1.1.map User.Id).Nodup := by
  rw [StatusRepository.GetFriends_ok]
  rw [List.nodup_iff_count_le_one]
  intro x
  have h1 := List.nodup_iff_count_le_one.mp hkey x
  have h2 := List.nodup_iff_count_le_one.mp hedges x
  simp only [friendEnds, List.count_append] at h2
  simp only [List.map_append, List.count_append, count_sqlSendersTo_ids,
    count_sqlRecipientsOf_ids]
  rw [← Nat.mul_add]
  calc (s.users.map User.Id).count x * _ ≤ 1 * 1 := Nat.mul_le_mul h1 h2
    _ = 1 := rfl

/-- Witness of C18: user 1 with the single friends edge 1→2. -/
theorem GetFriends_nodup_witness :
    ((StatusRepository.GetFriends 1 (World.ok exFriends)).1.1.map User.Id).Nodup :=
  GetFriends_nodup exFriends 1 (by decide) (by decide)

/-- C18 as stated fails: users 1 and 2 hold a friends edge in each direction, and
`GetFriends 1` lists user 2 twice. -/
theorem GetFriends_lists_twice :
    (StatusRepository.GetFriends 1 (World.ok exMutualFriends)).1
      = ([⟨2, "bob", "", ""⟩, ⟨2, "bob", "", ""⟩], none) ∧
    ¬ (StatusRepository.GetFriends 1 (World.ok exMutualFriends)).1.1.Nodup := by
  decide

/-! ## Idempotent resolution (C19) -/

/-- C19 (amended): for `a = b` in every store, and for `a ≠ b` when at most one chat id
occurs exactly twice among the private chats of `a` followed by those of `b`, a second
evaluation of `GetPrivates a b`, in the world the first one left, returns the value of the
first, whatever the orders in which the two evaluations iterate their maps. -/
theorem GetPrivates_idempotent (iter1 iter2 : List Int → List Int)
    (h1 : IterOrder iter1) (h2 : IterOrder iter2) (s : Store) (a b : Int)
    (huniq : a ≠ b → ∀ k1 k2, (privateIdsOf s a b).count k1 = 2 →
      (privateIdsOf s a b).count k2 = 2 → k1 = k2) :
    (ChatService.GetPrivates iter2 a b (ChatService.GetPrivates iter1 a b (World.ok s)).2).1
      = (ChatService.GetPrivates iter1 a b (World.ok s)).1 := by
  rw [ChatService.GetPrivates_world]
  by_cases hab : a = b
  · subst hab
    simp [ChatService.GetPrivates_self]
  · rw [ChatService.GetPrivates_of_repo iter1 a b _ _ _ _ hab
        (ChatRepository.GetPrivates_ok s a b),
      ChatService.GetPrivates_of_repo iter2 a b _ _ _ _ hab
        (ChatRepository.GetPrivates_ok s a b)]
    have c1 := ChatService.sharedChat_cases iter1 h1 (sqlPrivateIds s a ChatPrivate)
      (sqlPrivateIds s b ChatPrivate)
    have c2 := ChatService.sharedChat_cases iter2 h2 (sqlPrivateIds s a ChatPrivate)
      (sqlPrivateIds s b ChatPrivate)
    change ((privateIdsOf s a b).count _ = 2) ∨
      (_ ∧ ∀ k, (privateIdsOf s a b).count k ≠ 2) at c1
    change ((privateIdsOf s a b).count _ = 2) ∨
      (_ ∧ ∀ k, (privateIdsOf s a b).count k ≠ 2) at c2
    simp only [Prod.mk.injEq, and_true]
    rcases c1 with c1 | ⟨z1, n1⟩
    · rcases c2 with c2 | ⟨_, n2⟩
      · exact huniq hab _ _ c2 c1
      · exact absurd c1 (n2 _)
    · rcases c2 with c2 | ⟨z2, _⟩
      · exact absurd c2 (n1 _)
      · rw [z1, z2]

/-- Witness of C19: users 1 and 2 share exactly the private chat 7; and user 1 alone, in the
store where 1 and 2 share the private chats 7 and 8 (each id occurs twice among the private
chats of 1 followed by those of 1). -/
theorem GetPrivates_idempotent_witness :
    (ChatService.GetPrivates List.reverse 1 2
        (ChatService.GetPrivates id 1 2 (World.ok exOneShared)).2).1
      = (ChatService.GetPrivates id 1 2 (World.ok exOneShared)).1 ∧
    (ChatService.GetPrivates List.reverse 1 1
        (ChatService.GetPrivates id 1 1 (World.ok exTwoShared)).2).1
      = (ChatService.GetPrivates id 1 1 (World.ok exTwoShared)).1 ∧
    (privateIdsOf exTwoShared 1 1).count 7 = 2 ∧ (privateIdsOf exTwoShared 1 1).count 8 = 2 :=
  ⟨GetPrivates_idempotent id List.reverse IterOrder_id IterOrder_reverse exOneShared 1 2 (by
    intro _ k1 k2 e1 e2
    have hk : ∀ k, (privateIdsOf exOneShared 1 2).count k = 2 → k = 7 := by
      intro k hc
      have hm : k ∈ privateIdsOf exOneShared 1 2 := List.count_pos_iff.mp (by omega)
      have hl : privateIdsOf exOneShared 1 2 = [7, 7] := by decide
      rw [hl] at hm
      simpa using hm
    rw [hk k1 e1, hk k2 e2]),
   GetPrivates_idempotent id List.reverse IterOrder_id IterOrder_reverse exTwoShared 1 1
    (fun h => absurd rfl h),
   by decide, by decide⟩

/-- C19 as stated fails: users 1 and 2 share the private chats 7 and 8; the first evaluation
meets key 7 first and returns 7, leaving the world as it was, and the second one meets key 8
first and returns 8. -/
theorem GetPrivates_not_idempotent :
    IterOrder id ∧ IterOrder List.reverse ∧
    ChatService.GetPrivates id 1 2 (World.ok exTwoShared)
      = ((7, none), World.ok exTwoShared) ∧
    (ChatService.GetPrivates List.reverse 1 2
      (ChatService.GetPrivates id 1 2 (World.ok exTwoShared)).2).1 = (8, none) := by
  refine ⟨IterOrder_id, IterOrder_reverse, rfl, rfl⟩

/-! ## Errors of `GetPrivates` (C20) -/

theorem FailsBeforeMatch_nil : ¬ FailsBeforeMatch [] := by
  rintro ⟨pre, err, post, h, _⟩
  cases pre <;> cases h

theorem FailsBeforeMatch_error (err : Err) (rest : List (Except Err (List User))) :
    FailsBeforeMatch (.error err :: rest) :=
  ⟨[], err, rest, rfl, fun _ h => absurd h (List.not_mem_nil _)⟩

theorem FailsBeforeMatch_ok (list : List User) (rest : List (Except Err (List User))) :
    FailsBeforeMatch (.ok list :: rest) ↔ list.length ≠ 1 ∧ FailsBeforeMatch rest := by
  constructor
  · rintro ⟨pre, err, post, h, hpre⟩
    cases pre with
    | nil => cases h
    | cons o pre2 =>
      simp only [List.cons_append, List.cons.injEq] at h
      obtain ⟨l, hl, hlen⟩ := hpre o (List.mem_cons_self _ _)
      rw [← h.1] at hl
      cases hl
      exact ⟨hlen, pre2, err, post, h.2, fun o2 ho2 => hpre o2 (List.mem_cons_of_mem _ ho2)⟩
  · rintro ⟨hlen, pre, err, post, h, hpre⟩
    refine ⟨.ok list :: pre, err, post, by rw [h]; rfl, ?_⟩
    intro o ho
    rcases List.mem_cons.mp ho with rfl | ho
    · exact ⟨list, rfl, hlen⟩
    · exact hpre o ho

/-- The personal-chat loop: -1 with an error when a call fails before a match, otherwise a
nil error and 0 or the id of a listed chat. -/
theorem ChatService.personalChat_result (first : List Chat) (w : World) :
    (FailsBeforeMatch (usersOutcomes first w) →
      (ChatService.personalChat first w).1.1 = -1 ∧
        (ChatService.personalChat first w).1.2 ≠ none) ∧
    (¬ FailsBeforeMatch (usersOutcomes first w) →
      (ChatService.personalChat first w).1.2 = none ∧
        ((ChatService.personalChat first w).1.1 = 0 ∨
          (ChatService.personalChat first w).1.1 ∈ first.map Chat.Id)) := by
  induction first generalizing w with
  | nil =>
    exact ⟨fun h => absurd h FailsBeforeMatch_nil, fun _ => ⟨rfl, Or.inl rfl⟩⟩
  | cons chat rest ih =>
    unfold ChatService.personalChat usersOutcomes
    rcases hg : ChatRepository.GetUsers chat.Id w with ⟨o, w1⟩
    cases o with
    | error err =>
      dsimp only
      exact ⟨fun _ => ⟨rfl, by simp⟩, fun h => absurd (FailsBeforeMatch_error err _) h⟩
    | ok list =>
      dsimp only
      rw [FailsBeforeMatch_ok]
      by_cases hlen : list.length = 1
      · rw [if_pos hlen]
        refine ⟨fun h => absurd hlen h.1, fun _ => ⟨rfl, Or.inr ?_⟩⟩
        simp
      · rw [if_neg hlen]
        obtain ⟨ih1, ih2⟩ := ih w1
        refine ⟨fun h => ih1 h.2, fun h => ?_⟩
        have hrest : ¬ FailsBeforeMatch (usersOutcomes rest w1) := fun hf => h ⟨hlen, hf⟩
        obtain ⟨e1, e2⟩ := ih2 hrest
        refine ⟨e1, ?_⟩
        rcases e2 with e2 | e2
        · exact Or.inl e2
        · exact Or.inr (List.mem_map.mpr (by
            obtain ⟨c, hc, hid⟩ := List.mem_map.mp e2
            exact ⟨c, List.mem_cons_of_mem _ hc, hid⟩))

/-- The counting loop returns 0 or one of the collected ids, whatever the iteration. -/
theorem ChatService.sharedChat_mem (iter : List Int → List Int) (first second : List Chat) :
    ChatService.sharedChat iter first second = 0 ∨
      ChatService.sharedChat iter first second ∈ (first ++ second).map Chat.Id := by
  unfold ChatService.sharedChat
  simp only
  generalize hids : first.map Chat.Id ++ second.map Chat.Id = ids
  cases hf : (iter (ids.foldl IntMap.incr IntMap.empty).keys).find?
      (fun k => decide ((ids.foldl IntMap.incr IntMap.empty).val k = 2)) with
  | none => exact Or.inl rfl
  | some k =>
    right
    have := List.find?_some hf
    simp only [decide_eq_true_eq, IntMap.foldl_val, IntMap.empty] at this
    rw [List.map_append, hids]
    have hpos : 0 < ids.count k := by omega
    exact List.count_pos_iff.mp hpos

/-- What `GetPrivates` returns after a failure and without one. -/
theorem ChatService.GetPrivates_result (iter : List Int → List Int) (a b : Int) (w : World) :
    (GetPrivatesFails a b w →
      (ChatService.GetPrivates iter a b w).1.1 = -1 ∧
        (ChatService.GetPrivates iter a b w).1.2 ≠ none) ∧
    (¬ GetPrivatesFails a b w →
      (ChatService.GetPrivates iter a b w).1.2 = none ∧
        ((ChatService.GetPrivates iter a b w).1.1 = 0 ∨
          ∃ first second w1, ChatRepository.GetPrivates a b w = (.ok (first, second), w1) ∧
            (ChatService.GetPrivates iter a b w).1.1 ∈ (first ++ second).map Chat.Id)) := by
  unfold GetPrivatesFails ChatService.GetPrivates
  rcases hrepo : ChatRepository.GetPrivates a b w with ⟨o, w1⟩
  cases o with
  | error err =>
    dsimp only
    exact ⟨fun _ => ⟨rfl, by simp⟩, fun h => absurd (Or.inl ⟨err, w1, rfl⟩) h⟩
  | ok lists =>
    obtain ⟨first, second⟩ := lists
    dsimp only
    by_cases hab : a = b
    · rw [if_pos hab]
      obtain ⟨p1, p2⟩ := ChatService.personalChat_result first w1
      constructor
      · rintro (⟨err, w2, h⟩ | ⟨_, f, s2, w2, h, hf⟩)
        · cases h
        · simp only [Prod.mk.injEq, Except.ok.injEq] at h
          obtain ⟨⟨rfl, rfl⟩, rfl⟩ := h
          exact p1 hf
      · intro hn
        have hnf : ¬ FailsBeforeMatch (usersOutcomes first w1) :=
          fun hf => hn (Or.inr ⟨hab, first, second, w1, rfl, hf⟩)
        obtain ⟨e1, e2⟩ := p2 hnf
        refine ⟨e1, ?_⟩
        rcases e2 with e2 | e2
        · exact Or.inl e2
        · refine Or.inr ⟨first, second, w1, rfl, ?_⟩
          rw [List.map_append]
          exact List.mem_append_left _ e2
    · rw [if_neg hab]
      constructor
      · rintro (⟨err, w2, h⟩ | ⟨h, _⟩)
        · cases h
        · exact absurd h hab
      · intro _
        refine ⟨rfl, ?_⟩
        rcases ChatService.sharedChat_mem iter first second with h | h
        · exact Or.inl h
        · exact Or.inr ⟨first, second, w1, rfl, h⟩

/-- C20: `GetPrivates` returns -1 together with a non-nil error exactly when the repository
call `GetPrivates` fails or, for one user in both arguments, a `GetUsers` call fails before a
one-member chat is found; in every other case the error is nil and the result is 0 or a
chat id of one of the two lists the repository returned. -/
theorem GetPrivates_error_iff (iter : List Int → List Int) (a b : Int) (w : World) :
    (((ChatService.GetPrivates iter a b w).1.1 = -1 ∧
        (ChatService.GetPrivates iter a b w).1.2 ≠ none) ↔ GetPrivatesFails a b w) ∧
    (¬ GetPrivatesFails a b w →
      (ChatService.GetPrivates iter a b w).1.2 = none ∧
        ((ChatService.GetPrivates iter a b w).1.1 = 0 ∨
          ∃ first second w1, ChatRepository.GetPrivates a b w = (.ok (first, second), w1) ∧
            (ChatService.GetPrivates iter a b w).1.1 ∈ (first ++ second).map Chat.Id)) := by
  obtain ⟨h1, h2⟩ := ChatService.GetPrivates_result iter a b w
  refine ⟨⟨fun h => ?_, h1⟩, h2⟩
  by_contra hn
  exact h.2 (h2 hn).1

/-! ## Failing store calls in the cascades (C22, C30) -/

theorem World.step_cons (s : Store) (b : Bool) (fs : List Bool) :
    (World.mk s (b :: fs)).step = (b, World.mk s fs) := rfl

theorem ChatHandler.deleteUsers_fail (c : Int) (users : List User) (i : Nat) (s : Store)
    (rest : List Bool) (hi : i < users.length) :
    ChatHandler.deleteUsers c users ⟨s, List.replicate i false ++ true :: rest⟩
      = (some dbError, ⟨removedMembers c ((users.take i).map User.Id) s, rest⟩) := by
  induction users generalizing s i with
  | nil => simp at hi
  | cons u tl ih =>
    cases i with
    | zero =>
      simp only [ChatHandler.deleteUsers, ChatService.DeleteUser, ChatRepository.DeleteUser,
        World.exec, List.replicate_zero, List.nil_append, World.step_cons, List.take_zero,
        List.map_nil, removedMembers, List.not_mem_nil, and_false, not_false_eq_true,
        decide_True, List.filter_true]
    | succ j =>
      have hj : j < tl.length := by simpa using hi
      simp only [ChatHandler.deleteUsers, ChatService.DeleteUser, ChatRepository.DeleteUser,
        World.exec, List.replicate_succ, List.cons_append, World.step_cons, ih j _ hj]
      congr 2
      simp only [removedMembers, sqlDeleteChatUser, List.filter_filter, List.take_succ_cons,
        List.map_cons, List.mem_cons]
      congr 1
      apply List.filter_congr
      intro cu _
      by_cases h1 : cu.ChatId = c <;> by_cases h2 : cu.UserId = u.Id <;> simp [h1, h2]

theorem ChatHandler.deleteUsers_pass (c : Int) (users : List User) (s : Store)
    (rest : List Bool) :
    ChatHandler.deleteUsers c users ⟨s, List.replicate users.length false ++ rest⟩
      = (none, ⟨removedMembers c (users.map User.Id) s, rest⟩) := by
  induction users generalizing s with
  | nil =>
    simp only [ChatHandler.deleteUsers, removedMembers, List.map_nil, List.not_mem_nil,
      and_false, not_false_eq_true, decide_True, List.filter_true, List.length_nil,
      List.replicate_zero, List.nil_append]
  | cons u tl ih =>
    simp only [ChatHandler.deleteUsers, ChatService.DeleteUser, ChatRepository.DeleteUser,
      World.exec, List.length_cons, List.replicate_succ, List.cons_append, World.step_cons, ih]
    congr 2
    simp only [removedMembers, sqlDeleteChatUser, List.filter_filter, List.map_cons,
      List.mem_cons]
    congr 1
    apply List.filter_congr
    intro cu _
    by_cases h1 : cu.ChatId = c <;> by_cases h2 : cu.UserId = u.Id <;> simp [h1, h2]

theorem sqlChatUsers_removedMembers (c : Int) (us : List Int) (s : Store) :
    sqlChatUsers (removedMembers c us s) c
      = (sqlChatUsers s c).filter fun v => v.Id ∉ us := by
  simp only [sqlChatUsers, removedMembers, List.filter_filter]
  induction s.users with
  | nil => rfl
  | cons u tl ih =>
    simp only [List.flatMap_cons, List.filter_append, ih]
    congr 1
    by_cases hu : u.Id ∈ us
    · have h1 : (s.chatUsers.filter fun cu =>
          (decide (u.Id = cu.UserId ∧ cu.ChatId = c) &&
            decide ¬(cu.ChatId = c ∧ cu.UserId ∈ us))) = [] := by
        rw [List.filter_eq_nil_iff]
        intro cu _ hcu
        simp only [Bool.and_eq_true, decide_eq_true_eq] at hcu
        exact hcu.2 ⟨hcu.1.2, by rw [← hcu.1.1]; exact hu⟩
      rw [h1, List.map_nil, eq_comm, List.filter_eq_nil_iff]
      intro v hv
      simp only [List.mem_map] at hv
      obtain ⟨_, _, rfl⟩ := hv
      simpa [User.public] using hu
    · have h1 : (s.chatUsers.filter fun cu =>
          (decide (u.Id = cu.UserId ∧ cu.ChatId = c) &&
            decide ¬(cu.ChatId = c ∧ cu.UserId ∈ us)))
          = s.chatUsers.filter fun cu => u.Id = cu.UserId ∧ cu.ChatId = c := by
        apply List.filter_congr
        intro cu _
        by_cases h2 : u.Id = cu.UserId
        · by_cases h3 : cu.ChatId = c
          · have : cu.UserId ∉ us := h2 ▸ hu
            simp [h2, h3, this]
          · simp [h3]
        · simp [h2]
      rw [h1, eq_comm, List.filter_eq_self]
      intro v hv
      simp only [List.mem_map] at hv
      obtain ⟨_, _, rfl⟩ := hv
      simpa [User.public] using hu

theorem filter_not_mem_prefix (pre post : List User)
    (h : ((pre ++ post).map User.Id).Nodup) :
    ((pre ++ post).filter fun v => v.Id ∉ pre.map User.Id) = post := by
  rw [List.map_append] at h
  have hdis := (List.nodup_append.mp h).2.2
  rw [List.filter_append]
  have h1 : (pre.filter fun v => v.Id ∉ pre.map User.Id) = [] := by
    rw [List.filter_eq_nil_iff]
    intro v hv
    have : v.Id ∈ pre.map User.Id := List.mem_map_of_mem _ hv
    simpa using this
  have h2 : (post.filter fun v => v.Id ∉ pre.map User.Id) = post := by
    rw [List.filter_eq_self]
    intro v hv
    have : v.Id ∉ pre.map User.Id := fun hmem => hdis hmem (List.mem_map_of_mem _ hv)
    simpa using this
  rw [h1, h2, List.nil_append]

theorem filter_not_mem_take (users : List User) (i : Nat) (h : (users.map User.Id).Nodup) :
    (users.filter fun v => v.Id ∉ (users.take i).map User.Id) = users.drop i := by
  have := filter_not_mem_prefix (users.take i) (users.drop i)
    (by rw [List.take_append_drop]; exact h)
  rw [List.take_append_drop] at this
  exact this

/-- C22 (amended): no rollback in bulk deletion.  Let `GetUsers c` list members with
pairwise different ids, and let, in a `DeleteChat` request for `c`, the listing and the
first `i` removals succeed and the removal of the member at position `i` fail.  Then the
response is 500 with message "delete user from chat error", the store is the one before
without the membership rows of the members listed before position `i`, `GetUsers c` lists
afterwards exactly the members from position `i` on, and chats and messages are
unchanged. -/
theorem DeleteChat_no_rollback (s : Store) (c : Int) (i : Nat) (rest : List Bool)
    (hi : i < (sqlChatUsers s c).length)
    (hnodup : ((sqlChatUsers s c).map User.Id).Nodup) :
    ChatHandler.DeleteChat (some c) ⟨s, false :: (List.replicate i false ++ true :: rest)⟩
      = (NewErrorResponse 500 "delete user from chat error",
          ⟨removedMembers c (((sqlChatUsers s c).take i).map User.Id) s, rest⟩) ∧
    sqlChatUsers (removedMembers c (((sqlChatUsers s c).take i).map User.Id) s) c
      = (sqlChatUsers s c).drop i ∧
    (removedMembers c (((sqlChatUsers s c).take i).map User.Id) s).chats = s.chats ∧
    (removedMembers c (((sqlChatUsers s c).take i).map User.Id) s).messages = s.messages := by
  refine ⟨?_, ?_, rfl, rfl⟩
  · simp only [ChatHandler.DeleteChat, ChatService.GetUsers, ChatRepository.GetUsers,
      World.query, World.step_cons, ChatHandler.deleteUsers_fail c _ i s rest hi]
  · rw [sqlChatUsers_removedMembers, filter_not_mem_take _ _ hnodup]

/-- Witness of C22: in the chat 7 of users 1 and 2 the removal of the second member
fails. -/
theorem DeleteChat_no_rollback_witness :
    ChatHandler.DeleteChat (some 7) ⟨exThreeUsers, [false, false, true]⟩
      = (NewErrorResponse 500 "delete user from chat error",
          ⟨removedMembers 7 (((sqlChatUsers exThreeUsers 7).take 1).map User.Id) exThreeUsers,
            []⟩) ∧
    sqlChatUsers
        (removedMembers 7 (((sqlChatUsers exThreeUsers 7).take 1).map User.Id) exThreeUsers) 7
      = (sqlChatUsers exThreeUsers 7).drop 1 ∧
    (removedMembers 7 (((sqlChatUsers exThreeUsers 7).take 1).map User.Id) exThreeUsers).chats
      = exThreeUsers.chats ∧
    (removedMembers 7 (((sqlChatUsers exThreeUsers 7).take 1).map User.Id)
        exThreeUsers).messages = exThreeUsers.messages :=
  DeleteChat_no_rollback exThreeUsers 7 1 [] (by decide) (by decide)

/-- Counterexample to C22 as stated: user 1 holds two membership rows of chat 7 and is
listed twice.  The first removal deletes both rows, the second fails: the response is the
500 of the claim, but the member at the failing position is no longer a member. -/
theorem DeleteChat_failed_removal_member_gone :
    sqlChatUsers exDoubleMember 7 = [⟨1, "ann", "", ""⟩, ⟨1, "ann", "", ""⟩] ∧
    (ChatHandler.DeleteChat (some 7) ⟨exDoubleMember, [false, false, true]⟩).1
      = NewErrorResponse 500 "delete user from chat error" ∧
    sqlChatUsers
      (ChatHandler.DeleteChat (some 7) ⟨exDoubleMember, [false, false, true]⟩).2.store 7
      = [] := by
  decide

/-- C30: the chat record is deleted before its messages, and a failing chat deletion stops
the cascade.  In a `DeleteUserFromChat` request that leaves `GetUsers c` empty, and in a
`DeleteChat` request, let every store call before the deletion of the chat record succeed
and that deletion fail.  Then the response is 500 with message "chat delete error", no
further store call is issued, and the messages (and the chat records) are those before the
request.  When the deletion of the chat record succeeds and the deletion of the messages
fails, the chat record is gone and the messages are all still there. -/
theorem cascade_stops_at_chat_delete (s : Store) (list : ChatUsers) (c : Int)
    (rest : List Bool)
    (hempty : sqlChatUsers (sqlDeleteChatUser list.UserId c s) c = []) :
    ChatHandler.DeleteUserFromChat (some list) (some c) ⟨s, false :: false :: true :: rest⟩
      = (NewErrorResponse 500 "chat delete error",
          ⟨sqlDeleteChatUser list.UserId c s, rest⟩) ∧
    (sqlDeleteChatUser list.UserId c s).messages = s.messages ∧
    (sqlDeleteChatUser list.UserId c s).chats = s.chats ∧
    ChatHandler.DeleteChat (some c)
        ⟨s, false :: (List.replicate (sqlChatUsers s c).length false ++ true :: rest)⟩
      = (NewErrorResponse 500 "chat delete error",
          ⟨removedMembers c ((sqlChatUsers s c).map User.Id) s, rest⟩) ∧
    (removedMembers c ((sqlChatUsers s c).map User.Id) s).messages = s.messages ∧
    (removedMembers c ((sqlChatUsers s c).map User.Id) s).chats = s.chats ∧
    ChatHandler.DeleteUserFromChat (some list) (some c)
        ⟨s, false :: false :: false :: true :: rest⟩
      = (NewErrorResponse 500 "messages delete error",
          ⟨sqlDeleteChat c (sqlDeleteChatUser list.UserId c s), rest⟩) ∧
    ChatHandler.DeleteChat (some c)
        ⟨s, false :: (List.replicate (sqlChatUsers s c).length false ++ false :: true :: rest)⟩
      = (NewErrorResponse 500 "messages delete error",
          ⟨sqlDeleteChat c (removedMembers c ((sqlChatUsers s c).map User.Id) s), rest⟩) ∧
    (∀ t : Store, (sqlDeleteChat c t).messages = t.messages ∧
      ∀ ch ∈ (sqlDeleteChat c t).chats, ch.Id ≠ c) := by
  refine ⟨?_, rfl, rfl, ?_, rfl, rfl, ?_, ?_, ?_⟩
  · simp only [ChatHandler.DeleteUserFromChat, ChatService.DeleteUser,
      ChatRepository.DeleteUser, ChatService.GetUsers, ChatRepository.GetUsers,
      ChatService.Delete, ChatRepository.Delete, World.exec, World.query, World.step_cons,
      hempty, List.length_nil, if_true]
  · simp only [ChatHandler.DeleteChat, ChatService.GetUsers, ChatRepository.GetUsers,
      ChatService.Delete, ChatRepository.Delete, World.exec, World.query, World.step_cons,
      ChatHandler.deleteUsers_pass]
  · simp only [ChatHandler.DeleteUserFromChat, ChatService.DeleteUser,
      ChatRepository.DeleteUser, ChatService.GetUsers, ChatRepository.GetUsers,
      ChatService.Delete, ChatRepository.Delete, ChatService.DeleteAllMessages,
      ChatRepository.DeleteAllMessages, World.exec, World.query, World.step_cons,
      hempty, List.length_nil, if_true]
  · simp only [ChatHandler.DeleteChat, ChatService.GetUsers, ChatRepository.GetUsers,
      ChatService.Delete, ChatRepository.Delete, ChatService.DeleteAllMessages,
      ChatRepository.DeleteAllMessages, World.exec, World.query, World.step_cons,
      ChatHandler.deleteUsers_pass]
  · intro t
    refine ⟨rfl, ?_⟩
    intro ch hch
    simp only [sqlDeleteChat, List.mem_filter, decide_eq_true_eq] at hch
    exact hch.2

/-- Witness of C30: user 1 leaves the personal chat 7 and the deletion of the chat record
fails. -/
theorem cascade_stops_at_chat_delete_witness :
    (ChatHandler.DeleteUserFromChat (some ⟨0, 0, 1⟩) (some 7)
        ⟨exPersonal, [false, false, true]⟩).1 = NewErrorResponse 500 "chat delete error" ∧
    (ChatHandler.DeleteUserFromChat (some ⟨0, 0, 1⟩) (some 7)
        ⟨exPersonal, [false, false, true]⟩).2.store.messages = exPersonal.messages :=
  have h := cascade_stops_at_chat_delete exPersonal ⟨0, 0, 1⟩ 7 [] (by decide)
  ⟨by rw [h.1], by rw [h.1]; rfl⟩

/-! ## Creation of a private chat (C21) -/

theorem World.query_store {α : Type} (w : World) (f : Store → Except Err α) :
    (w.query f).2.store = w.store := by
  rcases w with ⟨s, fs⟩
  cases fs with
  | nil => rfl
  | cons b tl => cases b <;> rfl

theorem ChatService.personalChat_store (first : List Chat) (w : World) :
    (ChatService.personalChat first w).2.store = w.store := by
  induction first generalizing w with
  | nil => rfl
  | cons chat rest ih =>
    unfold ChatService.personalChat
    have hq : (ChatRepository.GetUsers chat.Id w).2.store = w.store := World.query_store _ _
    generalize ChatRepository.GetUsers chat.Id w = r at hq ⊢
    rcases r with ⟨o, w1⟩
    cases o with
    | error err => exact hq
    | ok list =>
      dsimp only
      split
      · exact hq
      · exact (ih w1).trans hq

theorem ChatService.GetPrivates_store (iter : List Int → List Int) (a b : Int) (w : World) :
    (ChatService.GetPrivates iter a b w).2.store = w.store := by
  unfold ChatService.GetPrivates
  have hq : (ChatRepository.GetPrivates a b w).2.store = w.store := by
    unfold ChatRepository.GetPrivates
    have h1 := World.query_store w fun s =>
      (.ok (sqlPrivateIds s a ChatPrivate) : Except Err (List Chat))
    generalize (w.query fun s =>
      (.ok (sqlPrivateIds s a ChatPrivate) : Except Err (List Chat))) = r at h1 ⊢
    rcases r with ⟨o, w1⟩
    cases o with
    | error err => exact h1
    | ok first =>
      dsimp only
      have h2 := World.query_store w1 fun s =>
        (.ok (sqlPrivateIds s b ChatPrivate) : Except Err (List Chat))
      generalize (w1.query fun s =>
        (.ok (sqlPrivateIds s b ChatPrivate) : Except Err (List Chat))) = r2 at h2 ⊢
      rcases r2 with ⟨o2, w2⟩
      cases o2 with
      | error err => exact h2.trans h1
      | ok second => exact h2.trans h1
  generalize ChatRepository.GetPrivates a b w = r at hq ⊢
  rcases r with ⟨o, w1⟩
  cases o with
  | error err => exact hq
  | ok lists =>
    rcases lists with ⟨first, second⟩
    dsimp only
    split
    · exact (ChatService.personalChat_store first w1).trans hq
    · exact hq

theorem ChatRepository.Create_cases (chat : Chat) (w : World) :
    (∃ err w1, ChatRepository.Create chat w = (.error err, w1) ∧ w1.store = w.store) ∨
    (∃ id w1, ChatRepository.Create chat w = (.ok id, w1) ∧
      w1.store = sqlInsertChat chat w.store) := by
  rcases w with ⟨s, fs⟩
  cases fs with
  | nil => exact Or.inr ⟨_, _, rfl, rfl⟩
  | cons b tl =>
    cases b
    · exact Or.inr ⟨_, _, rfl, rfl⟩
    · exact Or.inl ⟨_, _, rfl, rfl⟩

theorem ChatRepository.AddUser_cases (user : ChatUsers) (w : World) :
    (∃ err w1, ChatRepository.AddUser user w = (.error err, w1) ∧ w1.store = w.store) ∨
    (∃ id w1, ChatRepository.AddUser user w = (.ok id, w1) ∧
      w1.store = sqlInsertChatUser user w.store) := by
  rcases w with ⟨s, fs⟩
  cases fs with
  | nil => exact Or.inr ⟨_, _, rfl, rfl⟩
  | cons b tl =>
    cases b
    · exact Or.inr ⟨_, _, rfl, rfl⟩
    · exact Or.inl ⟨_, _, rfl, rfl⟩

/-- Whatever store calls fail, a `PrivateChat` request leaves the chat table as it is or
appends one row, of type private. -/
theorem ChatHandler.PrivateChat_chats (iter : List Int → List Int) (a : Int)
    (param : Option Int) (w : World) :
    (ChatHandler.PrivateChat iter a param w).2.store.chats = w.store.chats ∨
    ∃ name, (ChatHandler.PrivateChat iter a param w).2.store.chats
      = w.store.chats ++
          [{ Id := w.store.nextChatId, Name := name, Types := ChatPrivate, Icon := "" }] := by
  unfold ChatHandler.PrivateChat
  cases param with
  | none => exact Or.inl rfl
  | some b =>
    dsimp only
    have hg := ChatService.GetPrivates_store iter a b w
    generalize ChatService.GetPrivates iter a b w = r at hg ⊢
    rcases r with ⟨⟨code, err⟩, w1⟩
    dsimp only at hg
    cases err with
    | some e => exact Or.inl (by rw [← hg])
    | none =>
      dsimp only
      by_cases hcode : code = 0
      · rw [if_pos hcode]
        have hu : (ChatService.GetUserById b w1).2.store = w1.store := World.query_store _ _
        generalize ChatService.GetUserById b w1 = r2 at hu ⊢
        rcases r2 with ⟨r, w2⟩
        dsimp only at hu
        cases r with
        | error e => exact Or.inl (by dsimp only; rw [hu, hg])
        | ok user =>
          dsimp only
          unfold ChatService.Create ChatService.AddUser
          rcases ChatRepository.Create_cases
              { Id := 0, Name := user.Username, Types := ChatPrivate, Icon := "" } w2 with
            ⟨e, w3, h3, hs3⟩ | ⟨cid, w3, h3, hs3⟩
          · rw [h3]
            exact Or.inl (by dsimp only; rw [hs3, hu, hg])
          · rw [h3]
            dsimp only
            have hc3 : w3.store.chats = w.store.chats ++
                [{ Id := w.store.nextChatId, Name := user.Username, Types := ChatPrivate,
                   Icon := "" }] := by
              rw [hs3, hu, hg]; rfl
            refine Or.inr ⟨user.Username, ?_⟩
            rcases ChatRepository.AddUser_cases { Id := 0, ChatId := cid, UserId := a } w3 with
              ⟨e, w4, h4, hs4⟩ | ⟨i4, w4, h4, hs4⟩
            · rw [h4]
              dsimp only
              rw [hs4, hc3]
            · rw [h4]
              dsimp only
              have hc4 : w4.store.chats = w3.store.chats := by rw [hs4]; rfl
              split
              · rcases ChatRepository.AddUser_cases { Id := 0, ChatId := cid, UserId := b }
                    w4 with ⟨e, w5, h5, hs5⟩ | ⟨i5, w5, h5, hs5⟩
                · rw [h5]
                  dsimp only
                  rw [hs5, hc4, hc3]
                · rw [h5]
                  dsimp only
                  rw [hs5]
                  exact hc4.trans hc3
              · exact hc4.trans hc3
      · rw [if_neg hcode]
        exact Or.inl (by dsimp only; rw [hg])

/-- C21 (amended): a chat created by a `PrivateChat` request has type private, whatever
store calls fail: the request leaves the chat table as it is or appends one row of type
private.  When every store call succeeds, `GetPrivates a b` returns 0, the lookup of user
`b` succeeds and no membership row carries the id the created chat gets, the request
answers 200 with that id and the created chat has exactly one membership row, of the
requester, if `a = b`, and exactly two, of the requester and of the other user,
otherwise. -/
theorem PrivateChat_created_memberships (iter : List Int → List Int) (a b : Int) (s : Store)
    (user : User)
    (hzero : (ChatService.GetPrivates iter a b (World.ok s)).1 = (0, none))
    (huser : (ChatService.GetUserById b (World.ok s)).1 = .ok user)
    (hfreshM : ∀ cu ∈ s.chatUsers, cu.ChatId ≠ s.nextChatId) :
    (∀ (param : Option Int) (w : World),
      (ChatHandler.PrivateChat iter a param w).2.store.chats = w.store.chats ∨
      ∃ name, (ChatHandler.PrivateChat iter a param w).2.store.chats
        = w.store.chats ++
            [{ Id := w.store.nextChatId, Name := name, Types := ChatPrivate, Icon := "" }]) ∧
    (ChatHandler.PrivateChat iter a (some b) (World.ok s)).1
      = .json 200 (.chatId s.nextChatId) ∧
    (ChatHandler.PrivateChat iter a (some b) (World.ok s)).2.store.chats
      = s.chats ++
          [{ Id := s.nextChatId, Name := user.Username, Types := ChatPrivate, Icon := "" }] ∧
    ((ChatHandler.PrivateChat iter a (some b) (World.ok s)).2.store.chatUsers.filter
        fun cu => cu.ChatId = s.nextChatId)
      = if a = b then [{ Id := s.nextChatUsersId, ChatId := s.nextChatId, UserId := a }]
        else [{ Id := s.nextChatUsersId, ChatId := s.nextChatId, UserId := a },
          { Id := s.nextChatUsersId + 1, ChatId := s.nextChatId, UserId := b }] := by
  have hold : (s.chatUsers.filter fun cu => cu.ChatId = s.nextChatId) = [] := by
    rw [List.filter_eq_nil_iff]
    intro cu hcu
    simpa using hfreshM cu hcu
  refine ⟨fun param w => ChatHandler.PrivateChat_chats iter a param w, ?_, ?_, ?_⟩
  · rw [ChatHandler.PrivateChat_create iter a b s user hzero huser]
  · rw [ChatHandler.PrivateChat_create iter a b s user hzero huser]
    exact createdPrivate_chats s a b user.Username
  · rw [ChatHandler.PrivateChat_create iter a b s user hzero huser]
    by_cases hab : a = b
    · subst hab
      rw [if_pos rfl]
      show ((createdPrivate s a a user.Username).chatUsers.filter _) = _
      rw [createdPrivate_chatUsers_self, List.filter_append, hold]
      simp
    · rw [if_neg hab]
      show ((createdPrivate s a b user.Username).chatUsers.filter _) = _
      rw [createdPrivate_chatUsers_ne s a b _ hab, List.filter_append, hold]
      simp

/-- Witness of C21: user 1 opens a chat with user 2 in a store without chats. -/
theorem PrivateChat_created_memberships_witness :
    (ChatHandler.PrivateChat id 1 (some 2) (World.ok exNoChat)).1 = .json 200 (.chatId 1) ∧
    (ChatHandler.PrivateChat id 1 (some 2) (World.ok exNoChat)).2.store.chats
      = [⟨1, "bob", "private", ""⟩] ∧
    ((ChatHandler.PrivateChat id 1 (some 2) (World.ok exNoChat)).2.store.chatUsers.filter
        fun cu => cu.ChatId = 1) = [⟨1, 1, 1⟩, ⟨2, 1, 2⟩] :=
  (PrivateChat_created_memberships id 1 2 exNoChat ⟨2, "bob", "", ""⟩ (by decide) rfl
    (by decide)).2

/-- Counterexample to C21 as stated: an `AddUserToChat` request for the chat id 1, which no
chat has yet, leaves a membership row of user 2; the personal chat user 1 then creates gets
the id 1 and has two membership rows instead of one. -/
theorem PrivateChat_created_with_foreign_membership :
    ChatHandler.AddUserToChat (some 1) (some ⟨0, 0, 2⟩) (World.ok exNoChat)
      = (.json 200 (.id 1), World.ok exOrphanMembership) ∧
    (ChatHandler.PrivateChat id 1 (some 1) (World.ok exOrphanMembership)).1
      = .json 200 (.chatId 1) ∧
    (ChatHandler.PrivateChat id 1 (some 1) (World.ok exOrphanMembership)).2.store.chats
      = [⟨1, "ann", "private", ""⟩] ∧
    ((ChatHandler.PrivateChat id 1 (some 1)
        (World.ok exOrphanMembership)).2.store.chatUsers.filter fun cu => cu.ChatId = 1)
      = [⟨1, 1, 2⟩, ⟨2, 1, 1⟩] := by
  decide

/-! ## The order of the fetched messages (C23) -/

theorem foldl_append_toList {α : Type} (f : Nat → Option α) (l : List Nat) (init : List α) :
    l.foldl (fun result i => result ++ (f i).toList) init = init ++ l.filterMap f := by
  induction l generalizing init with
  | nil => simp
  | cons i tl ih =>
    rw [List.foldl_cons, ih, List.filterMap_cons]
    cases f i with
    | none => simp
    | some m => simp

theorem filterMap_range_getElem {α : Type} (l : List α) :
    (List.range l.length).filterMap (fun i => l[i]?) = l := by
  induction l using List.reverseRecOn with
  | nil => rfl
  | append_singleton l a ih =>
    rw [List.length_append, List.length_singleton, List.range_succ, List.filterMap_append]
    have h1 : (List.range l.length).filterMap (fun i => (l ++ [a])[i]?)
        = (List.range l.length).filterMap (fun i => l[i]?) := by
      apply List.filterMap_congr
      intro i hi
      rw [List.mem_range] at hi
      exact List.getElem?_append_left hi
    rw [h1, ih]
    simp

theorem MessageHandler.reorder_eq_reverse (msg : List Message) :
    MessageHandler.reorder msg = msg.reverse := by
  unfold MessageHandler.reorder
  rw [foldl_append_toList (fun i => msg[msg.length - 1 - i]?), List.nil_append]
  have h1 : (List.range msg.length).filterMap (fun i => msg[msg.length - 1 - i]?)
      = (List.range msg.reverse.length).filterMap (fun i => msg.reverse[i]?) := by
    rw [List.length_reverse]
    apply List.filterMap_congr
    intro i hi
    rw [List.mem_range] at hi
    exact (List.getElem?_reverse hi).symm
  rw [h1, filterMap_range_getElem]

/-- C23: for every list `L` returned by `Message.GetLimit chatId limit`, the
`GetLimitMessages` request responds 200 with the reverse of `L`: the list of the response
has the length of `L`, and its element `i` is the element `len(L) - 1 - i` of `L`. -/
theorem GetLimitMessages_reverse (chatId limit : Int) (w w1 : World) (L : List Message)
    (h : MessageService.GetLimit chatId limit w = (.ok L, w1)) :
    MessageHandler.GetLimitMessages (some chatId) (some limit) w
      = (.json 200 (.messages L.reverse), w1) ∧
    L.reverse.length = L.length ∧
    ∀ i, i < L.length → L.reverse[i]? = L[L.length - 1 - i]? ∧ (L.reverse[i]?).isSome := by
  refine ⟨?_, List.length_reverse L, ?_⟩
  · unfold MessageHandler.GetLimitMessages
    simp only [h, MessageHandler.reorder_eq_reverse]
  · intro i hi
    refine ⟨List.getElem?_reverse hi, ?_⟩
    rw [List.getElem?_reverse hi]
    have : L.length - 1 - i < L.length := by omega
    simp [this]

/-- Witness of C23: the two newest messages of chat 7 are fetched newest first and returned
oldest first. -/
theorem GetLimitMessages_reverse_witness :
    MessageHandler.GetLimitMessages (some 7) (some 2) (World.ok exThreeUsers)
      = (.json 200 (.messages [⟨2, 7, 2, "hello", 1⟩, ⟨3, 7, 1, "bye", 2⟩]),
          World.ok exThreeUsers) :=
  (GetLimitMessages_reverse 7 2 (World.ok exThreeUsers) (World.ok exThreeUsers)
    [⟨3, 7, 1, "bye", 2⟩, ⟨2, 7, 2, "hello", 1⟩] rfl).1

/-! ## The user of `GetById` (C25) -/

/-- C25: the user `GetById` returns.  Let `Chat.Get` succeed with `chat`.  If the chat is
private and `GetUsers` lists exactly one member, the response carries that member; if it
lists two members of which one has the id of the active user and the other has not, the
response carries the other one.  If the chat is public, the response carries the
zero-valued user and no store call is issued after `Chat.Get`. -/
theorem GetById_user (creatorId chatId : Int) (chat : Chat) (w w1 : World)
    (hget : ChatService.Get chatId w = (.ok chat, w1)) :
    (chat.Types = ChatPrivate →
      ∀ (users : List User) (w2 : World), ChatService.GetUsers chatId w1 = (.ok users, w2) →
        (∀ u, users = [u] →
          ChatHandler.GetById creatorId (some chatId) w = (.json 200 (.chatUser u chat), w2)) ∧
        (∀ x y, (users = [x, y] ∨ users = [y, x]) → x.Id = creatorId → y.Id ≠ creatorId →
          ChatHandler.GetById creatorId (some chatId) w
            = (.json 200 (.chatUser y chat), w2))) ∧
    (chat.Types = ChatPublic →
      ChatHandler.GetById creatorId (some chatId) w
        = (.json 200 (.chatUser zeroUser chat), w1)) := by
  constructor
  · intro hpriv users w2 husers
    constructor
    · intro u hu
      subst hu
      unfold ChatHandler.GetById
      simp only [hget, hpriv, if_true, husers]
    · intro x y hxy hx hy
      unfold ChatHandler.GetById
      simp only [hget, hpriv, if_true, husers]
      rcases hxy with h | h
      · subst h
        simp [ChatHandler.otherUser, hx, hy]
      · subst h
        simp [ChatHandler.otherUser, hx, hy]
  · intro hpub
    have hne : chat.Types ≠ ChatPrivate := by
      rw [hpub]; decide
    unfold ChatHandler.GetById
    simp only [hget, hne, if_false]

/-- Witness of C25: user 1 asks for the private chat 7 shared with user 2. -/
theorem GetById_user_witness :
    ChatHandler.GetById 1 (some 7) (World.ok exThreeUsers)
      = (.json 200 (.chatUser ⟨2, "bob", "", ""⟩ ⟨7, "bob", "private", ""⟩),
          World.ok exThreeUsers) :=
  ((GetById_user 1 7 ⟨7, "bob", "private", ""⟩ (World.ok exThreeUsers) (World.ok exThreeUsers)
    rfl).1 rfl [⟨1, "ann", "", ""⟩, ⟨2, "bob", "", ""⟩] (World.ok exThreeUsers) rfl).2
      ⟨1, "ann", "", ""⟩ ⟨2, "bob", "", ""⟩ (Or.inl rfl) rfl (by decide)

/-! ## The private chats of a user (C24) -/

theorem ChatHandler.appendRenamed_result (creatorId : Int) (users : List User) (chat : Chat)
    (result : List Chat) :
    (ChatHandler.appendRenamed creatorId users chat result).2
      = result ++ (users.filter fun u => u.Id ≠ creatorId).map fun u =>
          { Id := chat.Id, Name := u.Username, Types := chat.Types, Icon := chat.Icon } := by
  induction users generalizing chat result with
  | nil => simp [ChatHandler.appendRenamed]
  | cons u rest ih =>
    unfold ChatHandler.appendRenamed
    by_cases hu : u.Id ≠ creatorId
    · rw [if_pos hu, ih]
      simp [List.filter_cons, hu]
    · rw [if_neg hu, ih]
      simp only [ne_eq, Decidable.not_not] at hu
      simp [List.filter_cons, hu]

/-- The list `GetUserPrivateChats` builds from the chats `chats` when no store call fails:
for every chat with exactly two listed members, one copy per member whose id differs from
the active user's, named after that member. -/
theorem ChatHandler.privateChats_ok (creatorId : Int) (chats result : List Chat) (s : Store) :
    ChatHandler.privateChats creatorId chats result (World.ok s)
      = (.ok (result ++ chats.flatMap fun chat =>
          if (sqlChatUsers s chat.Id).length = 2 then
            ((sqlChatUsers s chat.Id).filter fun u => u.Id ≠ creatorId).map fun u =>
              { Id := chat.Id, Name := u.Username, Types := chat.Types, Icon := chat.Icon }
          else []), World.ok s) := by
  induction chats generalizing result with
  | nil => simp [ChatHandler.privateChats]
  | cons chat rest ih =>
    unfold ChatHandler.privateChats
    simp only [ChatService.GetUsers, ChatRepository.GetUsers_ok]
    by_cases hlen : (sqlChatUsers s chat.Id).length = 2
    · rw [if_pos hlen, ih, ChatHandler.appendRenamed_result]
      simp [List.flatMap_cons, hlen]
    · rw [if_neg hlen, ih]
      simp [List.flatMap_cons, hlen]

theorem ChatHandler.otherUser_single (creatorId : Int) (users : List User) (init u : User)
    (h : (users.filter fun v => v.Id ≠ creatorId) = [u]) :
    ChatHandler.otherUser creatorId users init = u := by
  have hnil : ∀ (l : List User) (i : User), (l.filter fun v => v.Id ≠ creatorId) = [] →
      ChatHandler.otherUser creatorId l i = i := by
    intro l
    induction l with
    | nil => intro i _; rfl
    | cons v tl ih =>
      intro i hf
      by_cases hv : v.Id ≠ creatorId
      · simp [List.filter_cons, hv] at hf
      · have hf2 : (tl.filter fun v => v.Id ≠ creatorId) = [] := by
          simpa [List.filter_cons, hv] using hf
        have := ih i hf2
        simp only [ChatHandler.otherUser, List.foldl_cons, if_neg hv] at this ⊢
        exact this
  induction users generalizing init with
  | nil => simp at h
  | cons v tl ih =>
    by_cases hv : v.Id ≠ creatorId
    · have hf : v = u ∧ (tl.filter fun v => v.Id ≠ creatorId) = [] := by
        simpa [List.filter_cons, hv] using h
      have := hnil tl v hf.2
      simp only [ChatHandler.otherUser, List.foldl_cons, if_pos hv] at this ⊢
      rw [this, hf.1]
    · have hf2 : (tl.filter fun v => v.Id ≠ creatorId) = [u] := by
        simpa [List.filter_cons, hv] using h
      have := ih init hf2
      simp only [ChatHandler.otherUser, List.foldl_cons, if_neg hv] at this ⊢
      exact this

theorem flatMap_ite_singleton {α β : Type} (l : List α) (p : α → Prop) [DecidablePred p]
    (f : α → List β) (g : α → β) (h : ∀ x ∈ l, p x → f x = [g x]) :
    (l.flatMap fun x => if p x then f x else []) = (l.filter fun x => p x).map g := by
  induction l with
  | nil => rfl
  | cons x tl ih =>
    have ih2 := ih fun y hy => h y (List.mem_cons_of_mem _ hy)
    by_cases hx : p x
    · simp [List.flatMap_cons, List.filter_cons, hx, ih2, h x (List.mem_cons_self _ _) hx]
    · simp [List.flatMap_cons, List.filter_cons, hx, ih2]

/-- C24 (amended): let every store call succeed and let, in every private chat of the
requested user for which `GetUsers` lists exactly two members, exactly one listed member
have an id different from the active user's.  Then `GetUserPrivateChats` answers 200 with
the sublist of the requested user's private chats for which `GetUsers` lists exactly two
members, in the same order and once per entry, each with its name replaced by the username
of the listed member whose id is not the active user's; chats with one member do not
appear. -/
theorem GetUserPrivateChats_list (creatorId userId : Int) (s : Store)
    (hmember : ∀ chat ∈ sqlPrivateChats s userId ChatPrivate,
      (sqlChatUsers s chat.Id).length = 2 →
        ∃ u, ((sqlChatUsers s chat.Id).filter fun v => v.Id ≠ creatorId) = [u]) :
    ChatHandler.GetUserPrivateChats creatorId (some userId) (World.ok s)
      = (.json 200 (.chats
          (((sqlPrivateChats s userId ChatPrivate).filter fun chat =>
              (sqlChatUsers s chat.Id).length = 2).map fun chat =>
            { Id := chat.Id
              Name := (ChatHandler.otherUser creatorId (sqlChatUsers s chat.Id) zeroUser).Username
              Types := chat.Types
              Icon := chat.Icon })), World.ok s) ∧
    ∀ chat ∈ sqlPrivateChats s userId ChatPrivate, (sqlChatUsers s chat.Id).length = 2 →
      ChatHandler.otherUser creatorId (sqlChatUsers s chat.Id) zeroUser
          ∈ sqlChatUsers s chat.Id ∧
        (ChatHandler.otherUser creatorId (sqlChatUsers s chat.Id) zeroUser).Id ≠ creatorId := by
  constructor
  · unfold ChatHandler.GetUserPrivateChats
    simp only [ChatService.GetPrivateChats, ChatRepository.GetPrivateChats, World.query_ok,
      ChatHandler.privateChats_ok, List.nil_append]
    congr 3
    apply flatMap_ite_singleton
    intro chat hchat hlen
    obtain ⟨u, hu⟩ := hmember chat hchat hlen
    rw [hu, ChatHandler.otherUser_single creatorId _ zeroUser u hu]
    rfl
  · intro chat hchat hlen
    obtain ⟨u, hu⟩ := hmember chat hchat hlen
    rw [ChatHandler.otherUser_single creatorId _ zeroUser u hu]
    have hmem : u ∈ (sqlChatUsers s chat.Id).filter fun v => v.Id ≠ creatorId := by
      rw [hu]; exact List.mem_singleton.mpr rfl
    rw [List.mem_filter] at hmem
    exact ⟨hmem.1, by simpa using hmem.2⟩

/-- Witness of C24: user 1 asks for their own private chats. -/
theorem GetUserPrivateChats_list_witness :
    ChatHandler.GetUserPrivateChats 1 (some 1) (World.ok exThreeUsers)
      = (.json 200 (.chats [⟨7, "bob", "private", ""⟩]), World.ok exThreeUsers) :=
  (GetUserPrivateChats_list 1 1 exThreeUsers (fun chat hchat _ => by
    have h : sqlPrivateChats exThreeUsers 1 ChatPrivate = [⟨7, "bob", "private", ""⟩] := by
      decide
    rw [h, List.mem_singleton] at hchat
    subst hchat
    exact ⟨⟨2, "bob", "", ""⟩, by decide⟩)).1

/-- Counterexample to C24 as stated: the active user 3 asks for the private chats of user 1.
Both members of chat 7 differ from the active user, and the chat appears twice, once under
each member's name. -/
theorem GetUserPrivateChats_lists_chat_twice :
    ChatHandler.GetUserPrivateChats 3 (some 1) (World.ok exThreeUsers)
      = (.json 200 (.chats [⟨7, "ann", "private", ""⟩, ⟨7, "bob", "private", ""⟩]),
          World.ok exThreeUsers) := by
  decide

/-! ## Changing the password (C27) -/

theorem World.exec_store (w w1 : World) (f : Store → Store)
    (h : w.exec f = (none, w1)) : w1.store = f w.store := by
  rcases w with ⟨s, fs⟩
  cases fs with
  | nil =>
    simp only [World.exec, World.step, Prod.mk.injEq, true_and] at h
    rw [← h]
  | cons b tl =>
    cases b
    · simp only [World.exec, World.step, Prod.mk.injEq, true_and] at h
      rw [← h]
    · simp [World.exec, World.step] at h

/-- The hash is never the blank string: it has two digits for every byte of the salt and
of the digest. -/
theorem CreatePasswordHash_ne_blank (sha1 : String → Fin 20 → Byte) (salt : List Byte)
    (password : String) : CreatePasswordHash sha1 salt password ≠ "" := by
  intro h
  have hlen : (CreatePasswordHash sha1 salt password).length = 0 := by rw [h]; rfl
  have h2 : ∀ l : List Byte, (l.flatMap hexByte).length = 2 * l.length := by
    intro l
    induction l with
    | nil => rfl
    | cons b tl ih =>
      rw [List.flatMap_cons, List.length_append, ih, List.length_cons]
      simp only [hexByte, List.length_cons, List.length_nil]
      omega
  simp only [CreatePasswordHash, String.length, h2, List.length_append, List.length_ofFn]
    at hlen
  omega

theorem sqlGetUser_single (s : Store) (username password : String) (u : User)
    (hmem : u ∈ s.users) (hu : u.Username = username ∧ u.Password = password)
    (hall : ∀ v ∈ s.users, v.Username = username ∧ v.Password = password → v = u) :
    sqlGetUser s username password = some u := by
  unfold sqlGetUser
  have hperm := List.perm_insertionSort (fun a b : User => a.Id ≤ b.Id)
    (s.users.filter fun v => v.Username = username ∧ v.Password = password)
  generalize (List.insertionSort (fun a b : User => a.Id ≤ b.Id)
    (s.users.filter fun v => v.Username = username ∧ v.Password = password)) = sorted
    at hperm ⊢
  have hin : u ∈ sorted := by
    apply hperm.symm.subset
    rw [List.mem_filter]
    exact ⟨hmem, by simpa using hu⟩
  cases sorted with
  | nil => simp at hin
  | cons x tl =>
    have hx : x ∈ s.users.filter fun v => v.Username = username ∧ v.Password = password :=
      hperm.subset (List.mem_cons_self _ _)
    rw [List.mem_filter] at hx
    have := hall x hx.1 (by simpa using hx.2)
    rw [List.head?_cons, this]

/-- C27: `UpdatePassword` encodes the password and updates it.  Let `u` be a stored user, in
a store where user ids and user names identify the user, and let `UpdatePassword` of `u`
with the password `p` succeed.  Then the row of `u` is `u` with the password hash
`CreatePasswordHash p`, every other row is as before, and
`GetUser u.Username (CreatePasswordHash p)` finds that row. -/
theorem UpdatePassword_stored (sha1 : String → Fin 20 → Byte) (salt : List Byte)
    (w w1 : World) (u : User) (p : String)
    (hu : u ∈ w.store.users)
    (hkey : ∀ v ∈ w.store.users, v.Id = u.Id → v = u)
    (hname : ∀ v ∈ w.store.users, v.Username = u.Username → v = u)
    (hok : AuthService.UpdatePassword sha1 salt { u with Password := p } w = (none, w1)) :
    w1.store.users = w.store.users.map (fun v =>
      if v = u then { u with Password := CreatePasswordHash sha1 salt p } else v) ∧
    { u with Password := CreatePasswordHash sha1 salt p } ∈ w1.store.users ∧
    AuthRepository.GetUser u.Username (CreatePasswordHash sha1 salt p) (World.ok w1.store)
      = (.ok { u with Password := CreatePasswordHash sha1 salt p }, World.ok w1.store) := by
  have hhash := CreatePasswordHash_ne_blank sha1 salt p
  have hstore := World.exec_store w w1 _ hok
  have husers : w1.store.users = w.store.users.map (fun v =>
      if v = u then { u with Password := CreatePasswordHash sha1 salt p } else v) := by
    rw [hstore]
    simp only [sqlUpdateUser]
    apply List.map_congr_left
    intro v hv
    by_cases hvu : v = u
    · subst hvu
      rw [if_pos rfl, if_pos rfl, if_neg hhash]
      by_cases h1 : v.Id = 0 <;> by_cases h2 : v.Username = "" <;> by_cases h3 : v.Icon = "" <;>
        simp [h1, h2, h3]
    · have hid : ¬ v.Id = u.Id := fun h => hvu (hkey v hv h)
      rw [if_neg hvu, if_neg hid]
  have hmem : { u with Password := CreatePasswordHash sha1 salt p } ∈ w1.store.users := by
    rw [husers, List.mem_map]
    exact ⟨u, hu, by rw [if_pos rfl]⟩
  refine ⟨husers, hmem, ?_⟩
  unfold AuthRepository.GetUser
  rw [World.query_ok, sqlGetUser_single w1.store _ _ _ hmem ⟨rfl, rfl⟩]
  intro v hv hmatch
  rw [husers, List.mem_map] at hv
  obtain ⟨v0, hv0, hv0v⟩ := hv
  by_cases hvu : v0 = u
  · rw [if_pos hvu] at hv0v
    exact hv0v.symm
  · rw [if_neg hvu] at hv0v
    subst hv0v
    exact absurd (hname v0 hv0 hmatch.1) hvu

/-- Witness of C27: user 2 of the example store changes the password, with a digest function
and a salt chosen for the example. -/
theorem UpdatePassword_stored_witness :
    AuthRepository.GetUser "bob" (CreatePasswordHash (fun _ _ => 10) [1] "secret")
        (World.ok (sqlUpdateUser
          ⟨2, "bob", CreatePasswordHash (fun _ _ => 10) [1] "secret", ""⟩ exThreeUsers))
      = (.ok ⟨2, "bob", CreatePasswordHash (fun _ _ => 10) [1] "secret", ""⟩,
          World.ok (sqlUpdateUser
            ⟨2, "bob", CreatePasswordHash (fun _ _ => 10) [1] "secret", ""⟩ exThreeUsers)) :=
  (UpdatePassword_stored (fun _ _ => 10) [1] (World.ok exThreeUsers)
    (World.ok (sqlUpdateUser
      ⟨2, "bob", CreatePasswordHash (fun _ _ => 10) [1] "secret", ""⟩ exThreeUsers))
    ⟨2, "bob", "", ""⟩ "secret" (by decide) (by decide) (by decide) rfl).2.2

/-! ## Creating a public chat (C26) -/

/-- `CreatePublicChat` when no store call fails: the chat row gets the generated id, the
membership row and the response carry the id of the body when it has one. -/
theorem ChatHandler.CreatePublicChat_ok (userId : Int) (chat : Chat) (s : Store)
    (hname : chat.Name ≠ "") :
    ChatHandler.CreatePublicChat userId (some chat) (World.ok s)
      = (.json 200 (.id (if chat.Id = 0 then s.nextChatId else chat.Id)),
          World.ok (sqlInsertChatUser
            { Id := 0, ChatId := if chat.Id = 0 then s.nextChatId else chat.Id,
              UserId := userId }
            (sqlInsertChat { chat with Types := ChatPublic } s))) := by
  unfold ChatHandler.CreatePublicChat
  simp only [if_neg hname, ChatService.Create, ChatService.AddUser, ChatRepository.Create_ok,
    ChatRepository.AddUser_ok]

/-- C26 (the code at the failing input, and the bodies for which the claim holds): user 1
sends the body `{"id": 5, "name": "room"}` to a store without chats.  The request answers
200 with the id 5; the created chat has the id 1 and type public, the membership row of
user 1 names the chat id 5, and the created chat has no member.  For every body, an empty
name is answered with 400 "name is empty" and nothing is created; a body with a name and
without id creates, when no store call fails, a chat of type public whatever its `types`,
adds a membership row of the active user for the created chat and answers 200 with the
created chat's id. -/
theorem CreatePublicChat_member_of_other_id :
    (ChatHandler.CreatePublicChat 1 (some ⟨5, "room", "", ""⟩) (World.ok exNoChat)).1
      = .json 200 (.id 5) ∧
    (ChatHandler.CreatePublicChat 1 (some ⟨5, "room", "", ""⟩)
        (World.ok exNoChat)).2.store.chats = [⟨1, "room", "public", ""⟩] ∧
    (ChatHandler.CreatePublicChat 1 (some ⟨5, "room", "", ""⟩)
        (World.ok exNoChat)).2.store.chatUsers = [⟨1, 5, 1⟩] ∧
    sqlChatUsers (ChatHandler.CreatePublicChat 1 (some ⟨5, "room", "", ""⟩)
        (World.ok exNoChat)).2.store 1 = [] ∧
    (∀ (userId : Int) (chat : Chat) (w : World), chat.Name = "" →
      ChatHandler.CreatePublicChat userId (some chat) w
        = (NewErrorResponse 400 "name is empty", w)) ∧
    ∀ (userId : Int) (chat : Chat) (s : Store), chat.Name ≠ "" → chat.Id = 0 →
      (ChatHandler.CreatePublicChat userId (some chat) (World.ok s)).1
        = .json 200 (.id s.nextChatId) ∧
      (ChatHandler.CreatePublicChat userId (some chat) (World.ok s)).2.store.chats
        = s.chats ++ [⟨s.nextChatId, chat.Name, ChatPublic, ""⟩] ∧
      (ChatHandler.CreatePublicChat userId (some chat) (World.ok s)).2.store.chatUsers
        = s.chatUsers ++ [⟨s.nextChatUsersId, s.nextChatId, userId⟩] := by
  refine ⟨by decide, by decide, by decide, by decide, ?_, ?_⟩
  · intro userId chat w hname
    unfold ChatHandler.CreatePublicChat
    simp only [hname, if_true]
  · intro userId chat s hname hid
    rw [ChatHandler.CreatePublicChat_ok userId chat s hname, if_pos hid]
    exact ⟨rfl, rfl, rfl⟩

/-! ## At most two membership rows in a private chat (C29) -/

theorem ChatsGenerated_shrink (s t : Store) (h : ChatsGenerated s)
    (hnext : t.nextChatId = s.nextChatId) (hchats : t.chats.Sublist s.chats)
    (hrows : t.chatUsers.Sublist s.chatUsers) : ChatsGenerated t := by
  obtain ⟨h1, h2, h3, h4⟩ := h
  refine ⟨?_, ?_, ?_, ?_⟩
  · intro ch hch
    rw [hnext]
    exact h1 ch (hchats.subset hch)
  · intro cu hcu
    rw [hnext]
    exact h2 cu (hrows.subset hcu)
  · exact h3.sublist (hchats.map Chat.Id)
  · intro ch hch hpriv
    exact le_trans (hrows.filter _).length_le (h4 ch (hchats.subset hch) hpriv)

theorem ChatsGenerated_addRow (s : Store) (cu : ChatUsers) (h : ChatsGenerated s)
    (hpub : ∃ ch ∈ s.chats, ch.Id = cu.ChatId ∧ ch.Types = ChatPublic) :
    ChatsGenerated (sqlInsertChatUser cu s) := by
  obtain ⟨h1, h2, h3, h4⟩ := h
  obtain ⟨pub, hpubmem, hpubid, hpubty⟩ := hpub
  refine ⟨h1, ?_, h3, ?_⟩
  · intro row hrow
    simp only [sqlInsertChatUser, List.mem_append, List.mem_singleton] at hrow
    rcases hrow with hrow | rfl
    · exact h2 row hrow
    · show cu.ChatId < s.nextChatId
      rw [← hpubid]
      exact h1 pub hpubmem
  · intro ch hch hpriv
    have hne : cu.ChatId ≠ ch.Id := by
      intro heq
      have hsame : pub = ch :=
        List.inj_on_of_nodup_map h3 hpubmem hch (hpubid.trans heq)
      rw [hsame, hpriv] at hpubty
      exact absurd hpubty (by decide)
    have := h4 ch hch hpriv
    simp only [sqlInsertChatUser, List.filter_append]
    simpa [List.filter_cons, hne] using this

theorem ChatsGenerated_create (s t : Store) (h : ChatsGenerated s) (name types icon : String)
    (rows : List ChatUsers)
    (hchats : t.chats = s.chats ++
      [{ Id := s.nextChatId, Name := name, Types := types, Icon := icon }])
    (hrows : t.chatUsers = s.chatUsers ++ rows)
    (hnew : ∀ r ∈ rows, r.ChatId = s.nextChatId) (hlen : rows.length ≤ 2)
    (hnext : t.nextChatId = s.nextChatId + 1) : ChatsGenerated t := by
  obtain ⟨h1, h2, h3, h4⟩ := h
  have hold : (s.chatUsers.filter fun cu => cu.ChatId = s.nextChatId) = [] := by
    rw [List.filter_eq_nil_iff]
    intro cu hcu
    have := h2 cu hcu
    simp only [decide_eq_true_eq]
    omega
  refine ⟨?_, ?_, ?_, ?_⟩
  · intro ch hch
    rw [hchats, List.mem_append, List.mem_singleton] at hch
    rw [hnext]
    rcases hch with hch | rfl
    · have := h1 ch hch
      omega
    · show s.nextChatId < s.nextChatId + 1
      omega
  · intro cu hcu
    rw [hrows, List.mem_append] at hcu
    rw [hnext]
    rcases hcu with hcu | hcu
    · have := h2 cu hcu
      omega
    · rw [hnew cu hcu]
      omega
  · rw [hchats, List.map_append, List.map_singleton, List.nodup_append]
    refine ⟨h3, List.nodup_singleton _, ?_⟩
    intro x hx hx2
    rw [List.mem_singleton] at hx2
    obtain ⟨ch, hch, rfl⟩ := List.mem_map.mp hx
    have := h1 ch hch
    simp only at hx2
    omega
  · intro ch hch hpriv
    rw [hchats, List.mem_append, List.mem_singleton] at hch
    rw [hrows, List.filter_append, List.length_append]
    rcases hch with hch | rfl
    · have hnone : (rows.filter fun cu => cu.ChatId = ch.Id) = [] := by
        rw [List.filter_eq_nil_iff]
        intro r hr
        have := h1 ch hch
        simp only [decide_eq_true_eq, hnew r hr]
        omega
      rw [hnone, List.length_nil, Nat.add_zero]
      exact h4 ch hch hpriv
    · show (s.chatUsers.filter fun cu => cu.ChatId = s.nextChatId).length + _ ≤ 2
      rw [hold, List.length_nil, Nat.zero_add]
      exact le_trans (List.length_filter_le _ _) hlen

theorem createdPrivate_nextChatId (s : Store) (a b : Int) (name : String) :
    (createdPrivate s a b name).nextChatId = s.nextChatId + 1 := by
  unfold createdPrivate
  split <;> rfl

theorem ChatsGenerated_createdPrivate (s : Store) (a b : Int) (name : String)
    (h : ChatsGenerated s) : ChatsGenerated (createdPrivate s a b name) := by
  by_cases hab : a = b
  · subst hab
    exact ChatsGenerated_create s _ h name ChatPrivate "" _ (createdPrivate_chats s a a name)
      (createdPrivate_chatUsers_self s a name) (by simp) (by simp)
      (createdPrivate_nextChatId s a a name)
  · exact ChatsGenerated_create s _ h name ChatPrivate "" _ (createdPrivate_chats s a b name)
      (createdPrivate_chatUsers_ne s a b name hab) (by simp) (by simp)
      (createdPrivate_nextChatId s a b name)

/-- When no store call fails, a `PrivateChat` request leaves the store as it is or creates
a chat for the two users. -/
theorem ChatHandler.PrivateChat_store (iter : List Int → List Int) (a b : Int) (s : Store) :
    (ChatHandler.PrivateChat iter a (some b) (World.ok s)).2.store = s ∨
    ∃ name, (∃ u ∈ s.users, u.Id = b) ∧
      (ChatHandler.PrivateChat iter a (some b) (World.ok s)).2.store
        = createdPrivate s a b name := by
  have hw := ChatService.GetPrivates_world iter a b s
  rcases hres : (ChatService.GetPrivates iter a b (World.ok s)).1 with ⟨code, err⟩
  have hg : ChatService.GetPrivates iter a b (World.ok s) = ((code, err), World.ok s) :=
    Prod.ext hres hw
  cases err with
  | some e =>
    left
    unfold ChatHandler.PrivateChat
    simp only [hg]
    rfl
  | none =>
    by_cases hcode : code = 0
    · subst hcode
      rcases huser : (ChatService.GetUserById b (World.ok s)).1 with e | user
      · left
        have hu : ChatService.GetUserById b (World.ok s) = (.error e, World.ok s) := by
          apply Prod.ext huser
          simp [ChatService.GetUserById, ChatRepository.GetUserById]
        unfold ChatHandler.PrivateChat
        simp only [hg, hu, if_true]
        rfl
      · right
        refine ⟨user.Username, sqlUserById_some huser, ?_⟩
        rw [ChatHandler.PrivateChat_create iter a b s user hres huser]
        rfl
    · left
      rw [ChatHandler.PrivateChat_found iter a b code s hres hcode]
      rfl

theorem ChatRequest.run_ChatsGenerated (s : Store) (req : ChatRequest) (h : ChatsGenerated s)
    (hreq : req.Guarded s) : ChatsGenerated (req.run (World.ok s)).2.store := by
  cases req with
  | createPublicChat userId body =>
    have hid : body.Id = 0 := hreq
    by_cases hname : body.Name = ""
    · have : (ChatRequest.run (.createPublicChat userId body) (World.ok s)).2.store = s := by
        simp [ChatRequest.run, ChatHandler.CreatePublicChat, hname, World.ok]
      rw [this]
      exact h
    · show ChatsGenerated
        (ChatHandler.CreatePublicChat userId (some body) (World.ok s)).2.store
      rw [ChatHandler.CreatePublicChat_ok userId body s hname, if_pos hid]
      exact ChatsGenerated_create s _ h body.Name ChatPublic ""
        [{ Id := s.nextChatUsersId, ChatId := s.nextChatId, UserId := userId }]
        rfl rfl (by simp) (by simp) rfl
  | privateChat iter creatorId userId =>
    show ChatsGenerated (ChatHandler.PrivateChat iter creatorId (some userId) (World.ok s)).2.store
    rcases ChatHandler.PrivateChat_store iter creatorId userId s with hs | ⟨name, _, hs⟩
    · rw [hs]
      exact h
    · rw [hs]
      exact ChatsGenerated_createdPrivate s creatorId userId name h
  | addUserToChat chatId body =>
    have hpub : ∃ ch ∈ s.chats, ch.Id = chatId ∧ ch.Types = ChatPublic := hreq
    show ChatsGenerated (ChatHandler.AddUserToChat (some chatId) (some body) (World.ok s)).2.store
    have : (ChatHandler.AddUserToChat (some chatId) (some body) (World.ok s)).2.store
        = sqlInsertChatUser { body with ChatId := chatId } s := by
      simp only [ChatHandler.AddUserToChat, ChatService.AddUser, ChatRepository.AddUser_ok]
      rfl
    rw [this]
    exact ChatsGenerated_addRow s _ h hpub
  | deleteUserFromChat chatId body =>
    show ChatsGenerated
      (ChatHandler.DeleteUserFromChat (some body) (some chatId) (World.ok s)).2.store
    rw [ChatHandler.DeleteUserFromChat_ok]
    split
    · exact ChatsGenerated_shrink s _ h rfl (List.filter_sublist _) (List.filter_sublist _)
    · exact ChatsGenerated_shrink s _ h rfl (List.Sublist.refl _) (List.filter_sublist _)
  | deleteChat chatId =>
    show ChatsGenerated (ChatHandler.DeleteChat (some chatId) (World.ok s)).2.store
    rw [ChatHandler.DeleteChat_ok]
    exact ChatsGenerated_shrink s _ h rfl (List.filter_sublist _) (List.filter_sublist _)

/-- C29 (amended): start from a store without chat rows and membership rows and run
successful `CreatePublicChat`, `PrivateChat`, `AddUserToChat`, `DeleteUserFromChat` and
`DeleteChat` requests in which every store call succeeds, every `CreatePublicChat` body
carries no id and every `AddUserToChat` request names an existing public chat.  In every
store reached, every chat of type private has at most two membership rows. -/
theorem private_chat_at_most_two_rows (s0 s : Store) (hchats : s0.chats = [])
    (hrows : s0.chatUsers = []) (hreach : Reachable ChatRequest.Guarded s0 s) :
    ∀ ch ∈ s.chats, ch.Types = ChatPrivate →
      (s.chatUsers.filter fun cu => cu.ChatId = ch.Id).length ≤ 2 := by
  have hgen : ChatsGenerated s := by
    induction hreach with
    | start =>
      refine ⟨?_, ?_, ?_, ?_⟩
      · intro ch hch; rw [hchats] at hch; cases hch
      · intro cu hcu; rw [hrows] at hcu; cases hcu
      · rw [hchats]; exact List.nodup_nil
      · intro ch hch; rw [hchats] at hch; cases hch
    | step t req _ hallowed _ ih => exact ChatRequest.run_ChatsGenerated t req ih hallowed
  exact hgen.2.2.2

/-- Witness of C29: user 1 opens a private chat with user 2 in the store without chats; the
chat created has two membership rows. -/
theorem private_chat_at_most_two_rows_witness :
    (⟨1, "bob", "private", ""⟩ : Chat)
        ∈ (ChatRequest.run (.privateChat id 1 2) (World.ok exThreeNoChat)).2.store.chats ∧
    ((ChatRequest.run (.privateChat id 1 2) (World.ok exThreeNoChat)).2.store.chatUsers.filter
        fun cu => cu.ChatId = 1).length ≤ 2 :=
  ⟨by decide,
    private_chat_at_most_two_rows exThreeNoChat _ rfl rfl
      (Reachable.step exThreeNoChat (.privateChat id 1 2) Reachable.start trivial
        ⟨.chatId 1, by decide⟩)
      ⟨1, "bob", "private", ""⟩ (by decide) rfl⟩

/-- Counterexample to C29 as stated: in the store without chats user 1 opens a private chat
with user 2, then an `AddUserToChat` request adds user 3 to it.  Both requests answer 200,
and the private chat 1 has three membership rows. -/
theorem private_chat_with_three_rows :
    Reachable (fun _ _ => True) exThreeNoChat
      (ChatRequest.run (.addUserToChat 1 ⟨0, 0, 3⟩)
        (World.ok (ChatRequest.run (.privateChat id 1 2)
          (World.ok exThreeNoChat)).2.store)).2.store ∧
    (ChatRequest.run (.addUserToChat 1 ⟨0, 0, 3⟩)
        (World.ok (ChatRequest.run (.privateChat id 1 2)
          (World.ok exThreeNoChat)).2.store)).2.store.chats = [⟨1, "bob", "private", ""⟩] ∧
    (ChatRequest.run (.addUserToChat 1 ⟨0, 0, 3⟩)
        (World.ok (ChatRequest.run (.privateChat id 1 2)
          (World.ok exThreeNoChat)).2.store)).2.store.chatUsers
      = [⟨1, 1, 1⟩, ⟨2, 1, 2⟩, ⟨3, 1, 3⟩] := by
  refine ⟨?_, by decide, by decide⟩
  exact Reachable.step _ (.addUserToChat 1 ⟨0, 0, 3⟩)
    (Reachable.step exThreeNoChat (.privateChat id 1 2) Reachable.start trivial
      ⟨.chatId 1, by decide⟩)
    trivial ⟨.id 3, by decide⟩

/-! ## Cascade completeness (C28) -/

theorem sqlChatUsers_eq_nil_iff (s : Store) (c : Int) :
    sqlChatUsers s c = [] ↔
      ∀ u ∈ s.users, ∀ cu ∈ s.chatUsers, cu.ChatId = c → cu.UserId ≠ u.Id := by
  unfold sqlChatUsers
  rw [List.flatMap_eq_nil_iff]
  constructor
  · intro h u hu cu hcu hc hid
    have := h u hu
    rw [List.map_eq_nil_iff, List.filter_eq_nil_iff] at this
    exact this cu hcu (by simp [hc, hid])
  · intro h u hu
    rw [List.map_eq_nil_iff, List.filter_eq_nil_iff]
    intro cu hcu
    simp only [decide_eq_true_eq, not_and]
    intro hid hc
    exact h u hu cu hcu hc hid.symm

/-- Rows and chats are added, and every added chat has a member. -/
theorem CascadeComplete_grow (s t : Store) (h : CascadeComplete s)
    (husers : t.users = s.users) (hrows : ∀ cu ∈ s.chatUsers, cu ∈ t.chatUsers)
    (hmsgs : t.messages = s.messages)
    (hchats : ∀ ch ∈ t.chats, ch ∈ s.chats ∨ sqlChatUsers t ch.Id ≠ []) :
    CascadeComplete t := by
  intro c hnil
  have hnil0 : sqlChatUsers s c = [] := by
    rw [sqlChatUsers_eq_nil_iff] at hnil ⊢
    intro u hu cu hcu
    exact hnil u (husers ▸ hu) cu (hrows cu hcu)
  obtain ⟨h1, h2⟩ := h c hnil0
  refine ⟨?_, ?_⟩
  · intro ch hch hid
    rcases hchats ch hch with hold | hnew
    · exact h1 ch hold hid
    · exact hnew (hid ▸ hnil)
  · intro m hm
    rw [hmsgs] at hm
    exact h2 m hm

/-- Rows of chat `c`, chats and messages are removed, and chat `c` is purged when it has no
member left. -/
theorem CascadeComplete_shrink (s t : Store) (c : Int) (h : CascadeComplete s)
    (husers : t.users = s.users)
    (hrows : ∀ cu ∈ s.chatUsers, cu.ChatId ≠ c → cu ∈ t.chatUsers)
    (hchats : ∀ ch ∈ t.chats, ch ∈ s.chats) (hmsgs : ∀ m ∈ t.messages, m ∈ s.messages)
    (hc : sqlChatUsers t c = [] → (∀ ch ∈ t.chats, ch.Id ≠ c) ∧ ∀ m ∈ t.messages, m.ChatId ≠ c) :
    CascadeComplete t := by
  intro d hnil
  by_cases hd : d = c
  · subst hd
    exact hc hnil
  · have hnil0 : sqlChatUsers s d = [] := by
      rw [sqlChatUsers_eq_nil_iff] at hnil ⊢
      intro u hu cu hcu hcd
      exact hnil u (husers ▸ hu) cu (hrows cu hcu (by rw [hcd]; exact hd)) hcd
    obtain ⟨h1, h2⟩ := h d hnil0
    exact ⟨fun ch hch => h1 ch (hchats ch hch), fun m hm => h2 m (hmsgs m hm)⟩

theorem purged_clean (c : Int) (s : Store) :
    (∀ ch ∈ (purged c s).chats, ch.Id ≠ c) ∧ ∀ m ∈ (purged c s).messages, m.ChatId ≠ c := by
  constructor
  · intro ch hch
    simp only [purged, sqlDeleteMessages, sqlDeleteChat, List.mem_filter,
      decide_eq_true_eq] at hch
    exact hch.2
  · intro m hm
    simp only [purged, sqlDeleteMessages, sqlDeleteChat, List.mem_filter,
      decide_eq_true_eq] at hm
    exact hm.2

theorem ChatRequest.run_CascadeComplete (s : Store) (req : ChatRequest)
    (h : CascadeComplete s) (hreq : req.Plain s) :
    CascadeComplete (req.run (World.ok s)).2.store := by
  cases req with
  | createPublicChat userId body =>
    obtain ⟨hid, u, hu, huid⟩ : body.Id = 0 ∧ ∃ u ∈ s.users, u.Id = userId := hreq
    by_cases hname : body.Name = ""
    · have : (ChatRequest.run (.createPublicChat userId body) (World.ok s)).2.store = s := by
        simp [ChatRequest.run, ChatHandler.CreatePublicChat, hname, World.ok]
      rw [this]
      exact h
    · show CascadeComplete
        (ChatHandler.CreatePublicChat userId (some body) (World.ok s)).2.store
      rw [ChatHandler.CreatePublicChat_ok userId body s hname, if_pos hid]
      refine CascadeComplete_grow s _ h ?_ ?_ ?_ ?_
      · rfl
      · intro cu hcu
        exact List.mem_append_left _ hcu
      · rfl
      · intro ch hch
        change ch ∈ s.chats ++ [_] at hch
        rw [List.mem_append, List.mem_singleton] at hch
        rcases hch with hch | rfl
        · exact Or.inl hch
        · right
          intro hnil
          rw [sqlChatUsers_eq_nil_iff] at hnil
          exact hnil u hu ⟨s.nextChatUsersId, s.nextChatId, userId⟩
            (List.mem_append_right _ (List.mem_singleton.mpr rfl)) rfl huid.symm
  | privateChat iter creatorId userId =>
    show CascadeComplete (ChatHandler.PrivateChat iter creatorId (some userId) (World.ok s)).2.store
    rcases ChatHandler.PrivateChat_store iter creatorId userId s with hs | ⟨name, ⟨u, hu, huid⟩, hs⟩
    · rw [hs]
      exact h
    · rw [hs]
      have hrow : (⟨if creatorId = userId then s.nextChatUsersId else s.nextChatUsersId + 1,
          s.nextChatId, userId⟩ : ChatUsers) ∈ (createdPrivate s creatorId userId name).chatUsers := by
        by_cases hab : creatorId = userId
        · subst hab
          rw [createdPrivate_chatUsers_self, if_pos rfl]
          exact List.mem_append_right _ (List.mem_singleton.mpr rfl)
        · rw [createdPrivate_chatUsers_ne s creatorId userId name hab, if_neg hab]
          exact List.mem_append_right _ (by simp)
      apply CascadeComplete_grow s _ h (createdPrivate_users s creatorId userId name)
      · intro cu hcu
        by_cases hab : creatorId = userId
        · subst hab
          rw [createdPrivate_chatUsers_self]
          exact List.mem_append_left _ hcu
        · rw [createdPrivate_chatUsers_ne s creatorId userId name hab]
          exact List.mem_append_left _ hcu
      · unfold createdPrivate
        split <;> rfl
      · intro ch hch
        rw [createdPrivate_chats, List.mem_append, List.mem_singleton] at hch
        rcases hch with hch | rfl
        · exact Or.inl hch
        · right
          intro hnil
          rw [sqlChatUsers_eq_nil_iff] at hnil
          exact hnil u (by rw [createdPrivate_users]; exact hu) _ hrow rfl huid.symm
  | addUserToChat chatId body =>
    show CascadeComplete (ChatHandler.AddUserToChat (some chatId) (some body) (World.ok s)).2.store
    have : (ChatHandler.AddUserToChat (some chatId) (some body) (World.ok s)).2.store
        = sqlInsertChatUser { body with ChatId := chatId } s := by
      simp only [ChatHandler.AddUserToChat, ChatService.AddUser, ChatRepository.AddUser_ok]
      rfl
    rw [this]
    refine CascadeComplete_grow s _ h ?_ ?_ ?_ ?_
    · rfl
    · exact fun cu hcu => List.mem_append_left _ hcu
    · rfl
    · exact fun ch hch => Or.inl hch
  | deleteUserFromChat chatId body =>
    show CascadeComplete
      (ChatHandler.DeleteUserFromChat (some body) (some chatId) (World.ok s)).2.store
    rw [ChatHandler.DeleteUserFromChat_ok]
    have hrows : ∀ cu ∈ s.chatUsers, cu.ChatId ≠ chatId →
        cu ∈ (sqlDeleteChatUser body.UserId chatId s).chatUsers := by
      intro cu hcu hne
      simp only [sqlDeleteChatUser, List.mem_filter, decide_eq_true_eq, not_and]
      exact ⟨hcu, fun _ => hne⟩
    split
    · refine CascadeComplete_shrink s _ chatId h ?_ hrows ?_ ?_ ?_
      · rfl
      · exact fun ch hch => List.mem_of_mem_filter hch
      · exact fun m hm => List.mem_of_mem_filter hm
      · exact fun _ => purged_clean chatId _
    · rename_i hlen
      refine CascadeComplete_shrink s _ chatId h ?_ hrows ?_ ?_ ?_
      · rfl
      · exact fun ch hch => hch
      · exact fun m hm => hm
      · intro hnil
        change sqlChatUsers (sqlDeleteChatUser body.UserId chatId s) chatId = [] at hnil
        exact absurd (by rw [hnil]; rfl) hlen
  | deleteChat chatId =>
    show CascadeComplete (ChatHandler.DeleteChat (some chatId) (World.ok s)).2.store
    rw [ChatHandler.DeleteChat_ok]
    refine CascadeComplete_shrink s _ chatId h ?_ ?_ ?_ ?_ ?_
    · rfl
    · intro cu hcu hne
      show cu ∈ (removedMembers chatId ((sqlChatUsers s chatId).map User.Id) s).chatUsers
      simp only [removedMembers, List.mem_filter, decide_eq_true_eq, not_and]
      exact ⟨hcu, fun hc => absurd hc hne⟩
    · exact fun ch hch => List.mem_of_mem_filter hch
    · exact fun m hm => List.mem_of_mem_filter hm
    · exact fun _ => purged_clean chatId _

/-- C28 (the code at the failing input, and the requests that keep the property): the store
without chats is cascade complete; after the successful `CreatePublicChat` request of
user 1 with the body `{"id": 7, "name": "room"}` the chat record 1 exists and `GetUsers 1`
lists no member.  Every other request keeps cascade completeness when no store call fails:
`PrivateChat`, `AddUserToChat`, `DeleteUserFromChat`, `DeleteChat`, and `CreatePublicChat`
sent by a stored user with a body that carries no id. -/
theorem CreatePublicChat_breaks_cascade_completeness :
    CascadeComplete exNoChat ∧
    Succeeds (ChatHandler.CreatePublicChat 1 (some ⟨7, "room", "", ""⟩)
      (World.ok exNoChat)).1 ∧
    ¬ CascadeComplete (ChatHandler.CreatePublicChat 1 (some ⟨7, "room", "", ""⟩)
      (World.ok exNoChat)).2.store ∧
    ∀ (s : Store) (req : ChatRequest), CascadeComplete s → req.Plain s →
      CascadeComplete (req.run (World.ok s)).2.store := by
  refine ⟨?_, ⟨.id 7, by decide⟩, ?_, fun s req h hreq =>
    ChatRequest.run_CascadeComplete s req h hreq⟩
  · intro c _
    exact ⟨fun ch hch => by simp [exNoChat] at hch, fun m hm => by simp [exNoChat] at hm⟩
  · intro h
    have h1 := (h 1 (by decide)).1 ⟨1, "room", "public", ""⟩ (by decide)
    exact h1 rfl

end ChatProject
